import Mathlib

/-!
# PNR exchange chaincode: entity model, repositories, usecase and contract

A shallow embedding of `pkg/entities/entities.go`,
`pkg/repository/interface.go`, `pkg/repository/inmemory/repository.go`,
`pkg/repository/privatedata`, the PNR methods of `pkg/repository/publicledger`,
`pkg/usecase/rmt.go` and the transient-data operations of
`pkg/contract/contract.go`.

* Go strings are Lean strings, `RequestState` is a string type as in the source.
* A Go `error` is a value of `Error`; `nil` is `none` (or `Except.ok`).
* A Go map is an association list with unique keys (`AList`): `m[k]` is
  `AList.lookup`, `m[k] = v` is `AList.insert`, `delete(m, k)` is `AList.erase`.
* A method that mutates the repository takes the state and returns the new
  state together with its error result, so a write that happened before a
  later failure stays visible.
* Third-party libraries (gjson, jcs, crypto/sha256, time.Parse) are not part
  of the repository; they are taken as parameters (`Libs`).
* The ledger stub behind the private-collection adapter is a key-value map per
  collection (`Ledger`); which stub calls fail and the JSON codec of the stored
  entities are parameters (`Env`).
-/

namespace Tenacity

/-! ## Time -/

/-- A `time.Time` without monotonic reading: the instant (nanoseconds since the
zero time) and the identity of its location (`0` is UTC, Go's nil location). -/
structure Time where
  nanos : Int
  loc : Nat
deriving DecidableEq, Repr

/-- The zero value `time.Time{}`. -/
def Time.zero : Time := ⟨0, 0⟩

/-- Go `t.After(u)`: the instant of `t` is strictly later than that of `u`. -/
def Time.After (t u : Time) : Bool := decide (u.nanos < t.nanos)

/-- Go `t.Before(u)`: the instant of `t` is strictly earlier than that of `u`. -/
def Time.Before (t u : Time) : Bool := decide (t.nanos < u.nanos)

/-! ## Errors -/

/-- Status codes of `github.com/swaggest/usecase/status` used by the usecase. -/
inductive Status where
  | InvalidArgument
  | NotFound
  | AlreadyExists
  | Internal
deriving DecidableEq, Repr

/-- A Go `error`: `errors.New(msg)` or `status.Wrap(err, code)`. -/
inductive Error where
  | new (msg : String)
  | wrap (err : Error) (code : Status)
deriving DecidableEq, Repr

deriving instance DecidableEq for Except

/-- The error is a `status.Wrap(_, code)`. -/
def Error.hasCode (e : Error) (code : Status) : Prop :=
  ∃ inner, e = Error.wrap inner code

/-! ## entities.go -/

structure PIUInfo where
  Name : String
  AdminEmail : String
deriving DecidableEq, Repr

structure PIU where
  Id : String
  Name : String
  AdminEmail : String
deriving DecidableEq, Repr

def NewPIUFromPIUInfo (id : String) (info : PIUInfo) : PIU :=
  { Id := id, Name := info.Name, AdminEmail := info.AdminEmail }

def UpdatePIUFromPIUInfo (piu : PIU) (info : PIUInfo) : PIU :=
  let piu := if info.Name ≠ "" then { piu with Name := info.Name } else piu
  let piu := if info.AdminEmail ≠ "" then { piu with AdminEmail := info.AdminEmail } else piu
  piu

structure SetPIUInfoOutput where
deriving DecidableEq, Repr

structure GetPIUsInput where
deriving DecidableEq, Repr

abbrev RequestState := String

abbrev RequestStatePending : RequestState := "Pending"
abbrev RequestStatePendingConfirmed : RequestState := "PendingConfirmed"
abbrev RequestStateAck : RequestState := "Ack"
abbrev RequestStateAckConfirmed : RequestState := "AckConfirmed"
abbrev RequestStateNack : RequestState := "Nack"
abbrev RequestStateNackConfirmed : RequestState := "NackConfirmed"
abbrev RequestStateTerminated : RequestState := "Terminated"

def GetConfirmedState (state : RequestState) : RequestState :=
  if state = RequestStatePending then RequestStatePendingConfirmed
  else if state = RequestStateAck then RequestStateAckConfirmed
  else if state = RequestStateNack then RequestStateNackConfirmed
  else state

def HasData (state : RequestState) : Bool :=
  if state = RequestStateAckConfirmed ∨ state = RequestStateNackConfirmed
      ∨ state = RequestStateTerminated then false
  else true

/-- Go `OptionalMessage(msg *json.RawMessage)`: a nil pointer is `none`. -/
def OptionalMessage (msg : Option String) : String :=
  match msg with
  | some m => m
  | none => ""

/-- Go `OptionalJSONMessage(msg string)`. -/
def OptionalJSONMessage (msg : String) : Option String :=
  if msg ≠ "" then some msg else none

structure PNR where
  Id : String
  RequestingPIU : String
  RespondingPIU : String
  RequestTimestamp : Time
  ResponseTimestamp : Time
  State : RequestState
  RequestData : String
  ResponseData : String
  PNRHashes : List String
deriving DecidableEq, Repr

structure PNRFilter where
  Start : Time
  End : Time
  State : RequestState
  RequestingPIU : String
  RespondingPIU : String
deriving DecidableEq, Repr

def IsMatchingPNR (filter : PNRFilter) (pnr : PNR) : Bool :=
  if filter.Start ≠ Time.zero ∧ pnr.RequestTimestamp.Before filter.Start then false
  else if filter.End ≠ Time.zero ∧ pnr.RequestTimestamp.After filter.End then false
  else if filter.State ≠ "" ∧ pnr.State ≠ filter.State then false
  else if filter.RequestingPIU ≠ "" ∧ pnr.RequestingPIU ≠ filter.RequestingPIU then false
  else if filter.RespondingPIU ≠ "" ∧ pnr.RespondingPIU ≠ filter.RespondingPIU then false
  else true

structure NewPNRRequestInput where
  Id : String
  RespondingPIU : String
  RequestTimestamp : Time
  RequestData : Option String
deriving DecidableEq, Repr

structure NewPNRRequestOutput where
  Id : String
deriving DecidableEq, Repr

structure SubmitPNRResponseInput where
  Id : String
  ResponseTimestamp : Time
  ResponseData : Option String
deriving DecidableEq, Repr

structure SubmitPNRResponseOutput where
deriving DecidableEq, Repr

structure ConfirmPNRInput where
  Id : String
deriving DecidableEq, Repr

structure ConfirmPNROutput where
deriving DecidableEq, Repr

structure TerminatePNRRequestInput where
  Id : String
deriving DecidableEq, Repr

structure TerminatePNRRequestOutput where
deriving DecidableEq, Repr

structure GCMetadata where
  Id : String
  CreationTimestamp : Time
deriving DecidableEq, Repr

/-! ## repository/interface.go -/

/-- The `Repository` interface over a store of type `σ`. Reads return a value
or an error; writes return the store after the call and the error result. -/
structure Repository (σ : Type) where
  PIUExists : σ → String → Except Error Bool
  GetPIU : σ → String → Except Error PIU
  GetPIUs : σ → Except Error (List PIU)
  InsertPIU : σ → String → PIU → σ × Option Error
  UpdatePIU : σ → String → PIU → σ × Option Error
  PNRExists : σ → String → Except Error Bool
  GetPNR : σ → String → Except Error PNR
  GetPNRs : σ → PNRFilter → Except Error (List PNR)
  InsertPNR : σ → String → PNR → σ × Option Error
  UpdatePNR : σ → String → PNR → σ × Option Error
  UpdateLocalPNR : σ → String → PNR → σ × Option Error
  PurgePNRData : σ → String → σ × Option Error
  PurgeLocalPNRData : σ → String → σ × Option Error
  GCMetadataExists : σ → String → Except Error Bool
  InsertGCMetadata : σ → PNR → GCMetadata → σ × Option Error
  UpdateGCMetadata : σ → PNR → GCMetadata → σ × Option Error
  DeleteGCMetadata : σ → PNR → σ × Option Error
  DeleteLocalGCMetadata : σ → String → σ × Option Error
  GetGCMetadata : σ → String → Except Error GCMetadata
  GetGCMetadatas : σ → Except Error (List GCMetadata)

/-! ## repository/inmemory/repository.go -/

/-- A Go `map[string]V`. -/
abbrev Table (V : Type) := AList (fun _ : String => V)

structure InMemoryRepository where
  pius : Table PIU
  pnrs : Table PNR
  gcMetadatas : Table GCMetadata
deriving DecidableEq

def NewInMemoryRepository : InMemoryRepository :=
  { pius := ∅, pnrs := ∅, gcMetadatas := ∅ }

namespace InMemoryRepository

def PIUExists (r : InMemoryRepository) (id : String) : Except Error Bool :=
  .ok (r.pius.lookup id).isSome

def GetPIU (r : InMemoryRepository) (id : String) : Except Error PIU :=
  match r.pius.lookup id with
  | none => .error (Error.new "PIU not found")
  | some entity => .ok entity

def GetPIUs (r : InMemoryRepository) : Except Error (List PIU) :=
  .ok (r.pius.entries.map (fun e => e.2))

def InsertPIU (r : InMemoryRepository) (id : String) (piu : PIU) :
    InMemoryRepository × Option Error :=
  if (r.pius.lookup id).isSome then (r, some (Error.new "PIU already exists"))
  else ({ r with pius := r.pius.insert id piu }, none)

def UpdatePIU (r : InMemoryRepository) (id : String) (piu : PIU) :
    InMemoryRepository × Option Error :=
  if !(r.pius.lookup id).isSome then (r, some (Error.new "PIU does not exist"))
  else ({ r with pius := r.pius.insert id piu }, none)

def PNRExists (r : InMemoryRepository) (id : String) : Except Error Bool :=
  .ok (r.pnrs.lookup id).isSome

def GetPNR (r : InMemoryRepository) (id : String) : Except Error PNR :=
  match r.pnrs.lookup id with
  | none => .error (Error.new "PNR not found")
  | some entity => .ok entity

def GetPNRs (r : InMemoryRepository) (filter : PNRFilter) : Except Error (List PNR) :=
  .ok ((r.pnrs.entries.map (fun e => e.2)).filter (fun entity => IsMatchingPNR filter entity))

def InsertPNR (r : InMemoryRepository) (id : String) (pnr : PNR) :
    InMemoryRepository × Option Error :=
  if (r.pnrs.lookup id).isSome then (r, some (Error.new "PNR already exists"))
  else ({ r with pnrs := r.pnrs.insert id pnr }, none)

def UpdatePNR (r : InMemoryRepository) (id : String) (pnr : PNR) :
    InMemoryRepository × Option Error :=
  if !(r.pnrs.lookup id).isSome then (r, some (Error.new "PNR does not exist"))
  else ({ r with pnrs := r.pnrs.insert id pnr }, none)

def UpdateLocalPNR (r : InMemoryRepository) (id : String) (pnr : PNR) :
    InMemoryRepository × Option Error :=
  r.UpdatePNR id pnr

def PurgePNRData (r : InMemoryRepository) (id : String) :
    InMemoryRepository × Option Error :=
  match r.GetPNR id with
  | .error err => (r, some err)
  | .ok pnr =>
    let pnr := { pnr with RequestData := "", ResponseData := "" }
    ((r.UpdatePNR id pnr).1, none)

def PurgeLocalPNRData (r : InMemoryRepository) (id : String) :
    InMemoryRepository × Option Error :=
  r.PurgePNRData id

def GCMetadataExists (r : InMemoryRepository) (id : String) : Except Error Bool :=
  .ok (r.gcMetadatas.lookup id).isSome

def InsertGCMetadata (r : InMemoryRepository) (pnr : PNR) (gc : GCMetadata) :
    InMemoryRepository × Option Error :=
  if (r.gcMetadatas.lookup pnr.Id).isSome then
    (r, some (Error.new "PNR GC metadata already exists"))
  else ({ r with gcMetadatas := r.gcMetadatas.insert pnr.Id gc }, none)

def UpdateGCMetadata (r : InMemoryRepository) (pnr : PNR) (gc : GCMetadata) :
    InMemoryRepository × Option Error :=
  if !(r.gcMetadatas.lookup pnr.Id).isSome then
    (r, some (Error.new "PNR GC metadata does not exist"))
  else ({ r with gcMetadatas := r.gcMetadatas.insert pnr.Id gc }, none)

def GetGCMetadata (r : InMemoryRepository) (id : String) : Except Error GCMetadata :=
  match r.gcMetadatas.lookup id with
  | none => .error (Error.new "PNR GC metadata not found")
  | some entity => .ok entity

def DeleteLocalGCMetadata (r : InMemoryRepository) (id : String) :
    InMemoryRepository × Option Error :=
  match r.GetGCMetadata id with
  | .error err => (r, some err)
  | .ok _ => ({ r with gcMetadatas := r.gcMetadatas.erase id }, none)

def DeleteGCMetadata (r : InMemoryRepository) (pnr : PNR) :
    InMemoryRepository × Option Error :=
  r.DeleteLocalGCMetadata pnr.Id

def GetGCMetadatas (r : InMemoryRepository) : Except Error (List GCMetadata) :=
  .ok (r.gcMetadatas.entries.map (fun e => e.2))

end InMemoryRepository

/-- The in-memory repository as an implementation of the `Repository` interface. -/
def inMemory : Repository InMemoryRepository where
  PIUExists := InMemoryRepository.PIUExists
  GetPIU := InMemoryRepository.GetPIU
  GetPIUs := InMemoryRepository.GetPIUs
  InsertPIU := InMemoryRepository.InsertPIU
  UpdatePIU := InMemoryRepository.UpdatePIU
  PNRExists := InMemoryRepository.PNRExists
  GetPNR := InMemoryRepository.GetPNR
  GetPNRs := InMemoryRepository.GetPNRs
  InsertPNR := InMemoryRepository.InsertPNR
  UpdatePNR := InMemoryRepository.UpdatePNR
  UpdateLocalPNR := InMemoryRepository.UpdateLocalPNR
  PurgePNRData := InMemoryRepository.PurgePNRData
  PurgeLocalPNRData := InMemoryRepository.PurgeLocalPNRData
  GCMetadataExists := InMemoryRepository.GCMetadataExists
  InsertGCMetadata := InMemoryRepository.InsertGCMetadata
  UpdateGCMetadata := InMemoryRepository.UpdateGCMetadata
  DeleteGCMetadata := InMemoryRepository.DeleteGCMetadata
  DeleteLocalGCMetadata := InMemoryRepository.DeleteLocalGCMetadata
  GetGCMetadata := InMemoryRepository.GetGCMetadata
  GetGCMetadatas := InMemoryRepository.GetGCMetadatas

/-! ## Third-party libraries used by the usecase -/

abbrev Byte := Fin 256

/-- A `[32]byte`, the result type of `sha256.Sum256`. -/
abbrev Digest := { l : List Byte // l.length = 32 }

/-- The fields of a `gjson.Result` the usecase reads. -/
structure GjsonResult where
  Raw : String
  Str : String
deriving DecidableEq, Repr

/-- The library functions called by `submitPNRResponse`. None of them is part
of the repository; the usecase is parametric in them. -/
structure Libs where
  /-- Library call `gjson.Get(json, path)`. -/
  gjson_Get : String → String → GjsonResult
  /-- Library call `Result.Array()`. -/
  gjson_Array : GjsonResult → List GjsonResult
  /-- Library call `Result.Get(path)`. -/
  gjson_ResultGet : GjsonResult → String → GjsonResult
  /-- Library call `Result.Exists()`. -/
  gjson_Exists : GjsonResult → Bool
  /-- Library call `jcs.Transform([]byte(s))`. -/
  jcs_Transform : String → Except Error (List Byte)
  /-- Library call `sha256.Sum256`. -/
  sha256_Sum256 : List Byte → Digest
  /-- Library call `time.Parse(time.RFC3339, s)`. -/
  time_Parse : String → Except Error Time

/-- The digit table of `encoding/hex`. -/
def hextable : List Char :=
  ['0', '1', '2', '3', '4', '5', '6', '7', '8', '9', 'a', 'b', 'c', 'd', 'e', 'f']

/-- Go `hex.Encode`: two digits per byte, high nibble first. -/
def hex_Encode : List Byte → List Char
  | [] => []
  | v :: rest => hextable.getD (v.val / 16) '0' :: hextable.getD (v.val % 16) '0' :: hex_Encode rest

/-- Go `hex.EncodeToString`. -/
def hex_EncodeToString (src : List Byte) : String := String.mk (hex_Encode src)

/-- The seven named request states. -/
def IsNamedState (s : RequestState) : Prop :=
  s = RequestStatePending ∨ s = RequestStatePendingConfirmed ∨ s = RequestStateAck
    ∨ s = RequestStateAckConfirmed ∨ s = RequestStateNack ∨ s = RequestStateNackConfirmed
    ∨ s = RequestStateTerminated

/-! ## usecase/rmt.go -/

structure RMTUsecase (σ : Type) where
  rep : Repository σ
  piuId : String

def NewRMTUsecase {σ : Type} (piuId : String) (rep : Repository σ) : RMTUsecase σ :=
  { rep := rep, piuId := piuId }

namespace RMTUsecase

variable {σ : Type}

def isThisPIU (u : RMTUsecase σ) (piuId : String) : Bool :=
  decide (u.piuId = piuId)

def SetPIUInfo (u : RMTUsecase σ) (s : σ) (input : PIUInfo) :
    σ × Except Error SetPIUInfoOutput :=
  match u.rep.PIUExists s u.piuId with
  | .error err => (s, .error err)
  | .ok exists_ =>
    if !exists_ then
      let entity := NewPIUFromPIUInfo u.piuId input
      match u.rep.InsertPIU s u.piuId entity with
      | (s, some err) => (s, .error err)
      | (s, none) => (s, .ok {})
    else
      match u.rep.GetPIU s u.piuId with
      | .error err => (s, .error err)
      | .ok entity =>
        let entity := UpdatePIUFromPIUInfo entity input
        -- the assignment `err = u.rep.UpdatePIU(...)` is to a variable local to
        -- the else block; the outer `err` stays nil
        let (s, _) := u.rep.UpdatePIU s u.piuId entity
        (s, .ok {})

def GetPIUs (u : RMTUsecase σ) (s : σ) (_input : GetPIUsInput) :
    σ × Except Error (List PIU) :=
  match u.rep.GetPIUs s with
  | .error err => (s, .error err)
  | .ok out => (s, .ok out)

def GetPNRs (u : RMTUsecase σ) (s : σ) (input : PNRFilter) :
    σ × Except Error (List PNR) :=
  match u.rep.GetPNRs s input with
  | .error err => (s, .error (Error.wrap err Status.InvalidArgument))
  | .ok out => (s, .ok out)

def NewPNRRequest (u : RMTUsecase σ) (s : σ) (input : NewPNRRequestInput) :
    σ × Except Error NewPNRRequestOutput :=
  if u.isThisPIU input.RespondingPIU then
    (s, .error (Error.wrap (Error.new "Cannot request data from itself") Status.InvalidArgument))
  else
    match u.rep.GetPIU s input.RespondingPIU with
    | .error err => (s, .error (Error.wrap err Status.InvalidArgument))
    | .ok _ =>
      let pnr : PNR :=
        { Id := input.Id
          RequestingPIU := u.piuId
          RespondingPIU := input.RespondingPIU
          RequestTimestamp := input.RequestTimestamp
          ResponseTimestamp := Time.zero
          State := RequestStatePending
          RequestData := OptionalMessage input.RequestData
          ResponseData := ""
          PNRHashes := [] }
      match u.rep.InsertPNR s input.Id pnr with
      | (s, some err) => (s, .error (Error.wrap err Status.Internal))
      | (s, none) =>
        let gc : GCMetadata := { Id := pnr.Id, CreationTimestamp := pnr.RequestTimestamp }
        match u.rep.InsertGCMetadata s pnr gc with
        | (s, some err) => (s, .error (Error.wrap err Status.Internal))
        | (s, none) => (s, .ok { Id := input.Id })

def pnrJSONKey : String := "passengerDatasets.#.passenger_obj"

def creationTimeJSONKey : String := "pnr_obj.iata_pnrgov_notif_rq_obj.created_on"

/-- The `for _, record := range records.Array()` loop of `submitPNRResponse`:
`hashes` is `pnr.PNRHashes`, `ts` is `gc.CreationTimestamp`; an error is the
value returned from inside the loop. -/
def submitPNRResponseLoop (lib : Libs) :
    List GjsonResult → List String → Time → Except Error (List String × Time)
  | [], hashes, ts => .ok (hashes, ts)
  | record :: rest, hashes, ts =>
    match lib.jcs_Transform record.Raw with
    | .error err => .error (Error.wrap err Status.InvalidArgument)
    | .ok canonical =>
      let sum := lib.sha256_Sum256 canonical
      let hashes := hashes ++ [hex_EncodeToString sum.val]
      let creationTimeString := lib.gjson_ResultGet record creationTimeJSONKey
      if lib.gjson_Exists creationTimeString then
        match lib.time_Parse creationTimeString.Str with
        | .error err => .error (Error.wrap err Status.InvalidArgument)
        | .ok creationTimestamp =>
          if ts.After creationTimestamp then
            submitPNRResponseLoop lib rest hashes creationTimestamp
          else
            submitPNRResponseLoop lib rest hashes ts
      else
        submitPNRResponseLoop lib rest hashes ts

def submitPNRResponse (lib : Libs) (u : RMTUsecase σ) (response : RequestState) (s : σ)
    (input : SubmitPNRResponseInput) : σ × Except Error SubmitPNRResponseOutput :=
  match u.rep.GetPNR s input.Id with
  | .error err => (s, .error (Error.wrap err Status.InvalidArgument))
  | .ok pnr =>
    if !u.isThisPIU pnr.RespondingPIU then
      (s, .error (Error.wrap (Error.new "Not allowed to respond to this request")
        Status.InvalidArgument))
    else if pnr.State ≠ RequestStatePendingConfirmed then
      (s, .error (Error.wrap (Error.new "PNR request must be in PendingConfirmed state")
        Status.InvalidArgument))
    else
      let pnr := { pnr with
        ResponseTimestamp := input.ResponseTimestamp
        State := response
        ResponseData := OptionalMessage input.ResponseData
        PNRHashes := [] }
      match u.rep.GetGCMetadata s input.Id with
      | .error err => (s, .error (Error.wrap err Status.Internal))
      | .ok gc =>
        let records := lib.gjson_Get pnr.ResponseData pnrJSONKey
        match submitPNRResponseLoop lib (lib.gjson_Array records) pnr.PNRHashes
            gc.CreationTimestamp with
        | .error err => (s, .error err)
        | .ok (hashes, ts) =>
          let pnr := { pnr with PNRHashes := hashes }
          let gc := { gc with CreationTimestamp := ts }
          match u.rep.UpdatePNR s input.Id pnr with
          | (s, some err) => (s, .error (Error.wrap err Status.Internal))
          | (s, none) =>
            match u.rep.UpdateGCMetadata s pnr gc with
            | (s, some err) => (s, .error (Error.wrap err Status.Internal))
            | (s, none) => (s, .ok {})

def SubmitPNRResponseAck (lib : Libs) (u : RMTUsecase σ) (s : σ)
    (input : SubmitPNRResponseInput) : σ × Except Error SubmitPNRResponseOutput :=
  u.submitPNRResponse lib RequestStateAck s input

def SubmitPNRResponseNack (lib : Libs) (u : RMTUsecase σ) (s : σ)
    (input : SubmitPNRResponseInput) : σ × Except Error SubmitPNRResponseOutput :=
  u.submitPNRResponse lib RequestStateNack s input

/-- The `switch pnr.State` of `ConfirmPNR`: the error returned from inside the
switch, or `none` when control leaves the switch. -/
def confirmPNRSwitch (u : RMTUsecase σ) (pnr : PNR) : Option Error :=
  if pnr.State = RequestStatePendingConfirmed ∨ pnr.State = RequestStateAckConfirmed
      ∨ pnr.State = RequestStateNackConfirmed then
    some (Error.wrap (Error.new "PNR request already confirmed") Status.InvalidArgument)
  else if pnr.State = RequestStateTerminated then
    some (Error.wrap (Error.new "Cannot confirm PNR request which has been terminated")
      Status.InvalidArgument)
  else if pnr.State = RequestStatePending then
    if !u.isThisPIU pnr.RespondingPIU then
      some (Error.wrap (Error.new "Cannot confirm request in this state") Status.InvalidArgument)
    else none
  else if pnr.State = RequestStateAck ∨ pnr.State = RequestStateNack then
    if !u.isThisPIU pnr.RequestingPIU then
      some (Error.wrap (Error.new "Cannot confirm request in this state") Status.InvalidArgument)
    else none
  else none

def ConfirmPNR (u : RMTUsecase σ) (s : σ) (input : ConfirmPNRInput) :
    σ × Except Error ConfirmPNROutput :=
  match u.rep.GetPNR s input.Id with
  | .error err => (s, .error (Error.wrap err Status.InvalidArgument))
  | .ok pnr =>
    if !u.isThisPIU pnr.RequestingPIU && !u.isThisPIU pnr.RespondingPIU then
      (s, .error (Error.wrap (Error.new "Not the requester or responder of this PNR request")
        Status.InvalidArgument))
    else
      match u.confirmPNRSwitch pnr with
      | some err => (s, .error err)
      | none =>
        let pnr := { pnr with State := GetConfirmedState pnr.State }
        match u.rep.UpdatePNR s input.Id pnr with
        | (s, some err) => (s, .error (Error.wrap err Status.Internal))
        | (s, none) =>
          if pnr.State = RequestStateAckConfirmed ∨ pnr.State = RequestStateNackConfirmed then
            match u.rep.PurgePNRData s input.Id with
            | (s, some err) => (s, .error (Error.wrap err Status.Internal))
            | (s, none) => (s, .ok {})
          else
            (s, .ok {})

def TerminatePNRRequest (u : RMTUsecase σ) (s : σ) (input : TerminatePNRRequestInput) :
    σ × Except Error TerminatePNRRequestOutput :=
  match u.rep.GetPNR s input.Id with
  | .error err => (s, .error (Error.wrap err Status.InvalidArgument))
  | .ok pnr =>
    if !u.isThisPIU pnr.RequestingPIU && !u.isThisPIU pnr.RespondingPIU then
      (s, .error (Error.wrap (Error.new "Not the requester or responder of this PNR request")
        Status.InvalidArgument))
    else
      let pnr := { pnr with State := RequestStateTerminated }
      match u.rep.UpdateLocalPNR s input.Id pnr with
      | (s, some err) => (s, .error (Error.wrap err Status.Internal))
      | (s, none) =>
        match u.rep.PurgeLocalPNRData s input.Id with
        | (s, some err) => (s, .error (Error.wrap err Status.Internal))
        | (s, none) =>
          match u.rep.DeleteLocalGCMetadata s input.Id with
          | (s, some err) => (s, .error (Error.wrap err Status.Internal))
          | (s, none) => (s, .ok {})

end RMTUsecase

/-! ## Specification-side definitions for the response pipeline -/

/-- The array extracted from a response document at
`passengerDatasets.#.passenger_obj`. -/
def extractedRecords (lib : Libs) (doc : String) : List GjsonResult :=
  lib.gjson_Array (lib.gjson_Get doc RMTUsecase.pnrJSONKey)

/-- Specification of one hash: lowercase-hex(SHA-256(JCS(e))), or the JCS error. -/
def specRecordHash (lib : Libs) (e : GjsonResult) : Except Error String :=
  match lib.jcs_Transform e.Raw with
  | .error err => .error err
  | .ok canonical => .ok (hex_EncodeToString (lib.sha256_Sum256 canonical).val)

/-- The `created_on` timestamp of a sub-record, when the key is present and
parses as RFC-3339. -/
def specCreatedOn (lib : Libs) (e : GjsonResult) : Option Time :=
  let c := lib.gjson_ResultGet e RMTUsecase.creationTimeJSONKey
  if lib.gjson_Exists c then
    match lib.time_Parse c.Str with
    | .error _ => none
    | .ok t => some t
  else none

/-- The sub-record has a `created_on` value that does not parse. -/
def createdOnUnparsable (lib : Libs) (e : GjsonResult) : Prop :=
  lib.gjson_Exists (lib.gjson_ResultGet e RMTUsecase.creationTimeJSONKey) = true ∧
    ∃ err, lib.time_Parse (lib.gjson_ResultGet e RMTUsecase.creationTimeJSONKey).Str = .error err

/-- JCS canonicalization of the sub-record fails. -/
def jcsFails (lib : Libs) (e : GjsonResult) : Prop :=
  ∃ err, lib.jcs_Transform e.Raw = .error err

/-- The earlier of two times, the first one on a tie (`a` unless `a.After b`). -/
def earlier (a b : Time) : Time := if a.After b then b else a

/-- The `created_on` timestamps of the sub-records of a response document, in
document order; sub-records without the key contribute nothing. -/
def createdOnTimes (lib : Libs) (doc : String) : List Time :=
  (extractedRecords lib doc).filterMap (specCreatedOn lib)

/-- What a response submission sets on the stored PNR `p`, and what it keeps:
`q` has the response state and timestamp, the payload text of the input as it
is (the empty string when the input carries no payload), and the request side
of `p`. -/
def IsResponseTo (p q : PNR) (response : RequestState) (input : SubmitPNRResponseInput) : Prop :=
  q.State = response ∧ q.ResponseTimestamp = input.ResponseTimestamp ∧
    q.ResponseData = input.ResponseData.getD "" ∧
    q.Id = p.Id ∧ q.RequestingPIU = p.RequestingPIU ∧ q.RespondingPIU = p.RespondingPIU ∧
    q.RequestTimestamp = p.RequestTimestamp ∧ q.RequestData = p.RequestData

/-! ## Fixtures

The PIUs and timestamps of `pkg/testdata/testdata.go` (the instants are
representative numbers that keep the order of the three timestamps), and the
repositories the usecase tests build from them. -/

def EarliestTimestamp : Time := ⟨43200, 0⟩
def MiddleTimestamp : Time := ⟨46800, 0⟩
def LatestTimestamp : Time := ⟨53940, 0⟩

def testPIUs : Table PIU :=
  (((∅ : Table PIU).insert "piu1" ⟨"piu1", "PIU 1", "admin@piu1.org"⟩).insert "piu2"
    ⟨"piu2", "PIU 2", "admin@piu2.org"⟩).insert "piu3" ⟨"piu3", "PIU 3", "admin@piu3.org"⟩

/-- A request from `piu2` to `piu1` with id `someId` in the given state. -/
def someRequest (state : RequestState) : PNR :=
  { Id := "someId"
    RequestingPIU := "piu2"
    RespondingPIU := "piu1"
    RequestTimestamp := MiddleTimestamp
    ResponseTimestamp := Time.zero
    State := state
    RequestData := "\"test request data\""
    ResponseData := ""
    PNRHashes := [] }

/-- The three PIUs, `someRequest state` stored under its id, and its GC row. -/
def repoWith (state : RequestState) : InMemoryRepository :=
  { pius := testPIUs
    pnrs := (∅ : Table PNR).insert "someId" (someRequest state)
    gcMetadatas := (∅ : Table GCMetadata).insert "someId" ⟨"someId", MiddleTimestamp⟩ }

/-- A library instance given by finite tables, standing for gjson, jcs and
`time.Parse` on one response document: `records` is the extracted array,
`createdOn` the `created_on` string of a sub-record (by its raw text),
`canon` the canonical bytes of a raw text, `parse` the RFC-3339 reading.
The digest is a stand-in of the right shape, not SHA-256. -/
def tableLibs (records : List GjsonResult) (createdOn : String → Option String)
    (canon : String → Option (List Byte)) (parse : String → Option Time) : Libs where
  gjson_Get doc _ := ⟨doc, ""⟩
  gjson_Array _ := records
  gjson_ResultGet e _ :=
    match createdOn e.Raw with
    | some c => ⟨"\"" ++ c ++ "\"", c⟩
    | none => ⟨"", ""⟩
  gjson_Exists e := decide (e.Raw ≠ "")
  jcs_Transform raw :=
    match canon raw with
    | some b => .ok b
    | none => .error (Error.new "jcs: invalid JSON")
  sha256_Sum256 b := ⟨List.replicate 32 ⟨b.length % 256, Nat.mod_lt _ (by decide)⟩, by simp⟩
  time_Parse str :=
    match parse str with
    | some t => .ok t
    | none => .error (Error.new "parsing time: cannot parse")

/-- Two sub-records; the second carries a `created_on` earlier than
`MiddleTimestamp`. -/
def twoRecordLibs : Libs :=
  tableLibs [⟨"r1", ""⟩, ⟨"r2", ""⟩]
    (fun raw => if raw = "r2" then some "2025-01-17T12:27:18Z" else none)
    (fun raw => if raw = "r1" then some [1] else if raw = "r2" then some [2, 3] else none)
    (fun str => if str = "2025-01-17T12:27:18Z" then some ⟨100, 0⟩ else none)

/-- Two sub-records; the first is valid, the second does not canonicalize. -/
def badRecordLibs : Libs :=
  tableLibs [⟨"r1", ""⟩, ⟨"bad", ""⟩] (fun _ => none)
    (fun raw => if raw = "r1" then some [1] else none) (fun _ => none)

/-- The response input of the usecase tests. -/
def someResponse : SubmitPNRResponseInput :=
  { Id := "someId", ResponseTimestamp := LatestTimestamp, ResponseData := some "doc" }

/-- A repository in which only `piu2` is registered. -/
def repoOnlyPIU2 : InMemoryRepository :=
  { pius := (∅ : Table PIU).insert "piu2" ⟨"piu2", "PIU 2", "admin@piu2.org"⟩
    pnrs := ∅
    gcMetadatas := ∅ }

/-- The three PIUs and no PNR (`setupPIUs` on a new repository). -/
def repoPIUs : InMemoryRepository :=
  { pius := testPIUs, pnrs := ∅, gcMetadatas := ∅ }

/-- A request to `piu2` with the payload of `TestNewPNRRequest`. -/
def someNewRequest : NewPNRRequestInput :=
  { Id := "pnr1"
    RespondingPIU := "piu2"
    RequestTimestamp := MiddleTimestamp
    RequestData := some "\"test request data\"" }

/-- The request of `TestTerminatePNRRequest`: from `piu1` to `piu2`, in state
`Ack`, with both payloads. -/
def ackRequest : PNR :=
  { Id := "someId"
    RequestingPIU := "piu1"
    RespondingPIU := "piu2"
    RequestTimestamp := MiddleTimestamp
    ResponseTimestamp := LatestTimestamp
    State := RequestStateAck
    RequestData := "\"test request data\""
    ResponseData := "\"test response data\""
    PNRHashes := [] }

/-- The repository of `TestTerminatePNRRequest`: `ackRequest` and its GC row. -/
def repoAck : InMemoryRepository :=
  { pius := testPIUs
    pnrs := (∅ : Table PNR).insert "someId" ackRequest
    gcMetadatas := (∅ : Table GCMetadata).insert "someId" ⟨"someId", MiddleTimestamp⟩ }

/-- The repository of `TestTerminatePNRRequestMissingGCMetadata`: `ackRequest`
inserted without a GC row. -/
def repoAckWithoutGC : InMemoryRepository :=
  { pius := testPIUs
    pnrs := (∅ : Table PNR).insert "someId" ackRequest
    gcMetadatas := ∅ }

/-- The zero value `PNRFilter{}`: no field is set. -/
def emptyFilter : PNRFilter :=
  { Start := Time.zero, End := Time.zero, State := "", RequestingPIU := "", RespondingPIU := "" }

/-! ## Sequences of usecase operations on the in-memory repository -/

/-- A usecase operation together with its input. -/
inductive Op where
  | SetPIUInfo (input : PIUInfo)
  | GetPIUs (input : GetPIUsInput)
  | GetPNRs (input : PNRFilter)
  | NewPNRRequest (input : NewPNRRequestInput)
  | SubmitPNRResponseAck (input : SubmitPNRResponseInput)
  | SubmitPNRResponseNack (input : SubmitPNRResponseInput)
  | ConfirmPNR (input : ConfirmPNRInput)
  | TerminatePNRRequest (input : TerminatePNRRequestInput)
deriving DecidableEq

/-- The error result of a call; Go's `nil` is `none`. -/
def errorOf {α : Type} : Except Error α → Option Error
  | .ok _ => none
  | .error e => some e

/-- One invocation: `caller` runs `op` through a usecase over the in-memory
repository `r`. The result is the repository after the call and the error
returned. -/
def invoke (lib : Libs) (caller : String) (r : InMemoryRepository) :
    Op → InMemoryRepository × Option Error
  | .SetPIUInfo input =>
    (((NewRMTUsecase caller inMemory).SetPIUInfo r input).1,
      errorOf ((NewRMTUsecase caller inMemory).SetPIUInfo r input).2)
  | .GetPIUs input =>
    (((NewRMTUsecase caller inMemory).GetPIUs r input).1,
      errorOf ((NewRMTUsecase caller inMemory).GetPIUs r input).2)
  | .GetPNRs input =>
    (((NewRMTUsecase caller inMemory).GetPNRs r input).1,
      errorOf ((NewRMTUsecase caller inMemory).GetPNRs r input).2)
  | .NewPNRRequest input =>
    (((NewRMTUsecase caller inMemory).NewPNRRequest r input).1,
      errorOf ((NewRMTUsecase caller inMemory).NewPNRRequest r input).2)
  | .SubmitPNRResponseAck input =>
    (((NewRMTUsecase caller inMemory).SubmitPNRResponseAck lib r input).1,
      errorOf ((NewRMTUsecase caller inMemory).SubmitPNRResponseAck lib r input).2)
  | .SubmitPNRResponseNack input =>
    (((NewRMTUsecase caller inMemory).SubmitPNRResponseNack lib r input).1,
      errorOf ((NewRMTUsecase caller inMemory).SubmitPNRResponseNack lib r input).2)
  | .ConfirmPNR input =>
    (((NewRMTUsecase caller inMemory).ConfirmPNR r input).1,
      errorOf ((NewRMTUsecase caller inMemory).ConfirmPNR r input).2)
  | .TerminatePNRRequest input =>
    (((NewRMTUsecase caller inMemory).TerminatePNRRequest r input).1,
      errorOf ((NewRMTUsecase caller inMemory).TerminatePNRRequest r input).2)

/-- The repository states reachable from the empty in-memory repository by
usecase operations of any callers with any inputs. -/
inductive Reachable (lib : Libs) : InMemoryRepository → Prop
  | init : Reachable lib NewInMemoryRepository
  | step {r : InMemoryRepository} (caller : String) (op : Op) :
      Reachable lib r → Reachable lib (invoke lib caller r op).1

/-- The states that follow `r` after any sequence of usecase operations: the
relation holds between `r` and each such state. -/
inductive Steps (lib : Libs) (r : InMemoryRepository) : InMemoryRepository → Prop
  | refl : Steps lib r r
  | step {r' : InMemoryRepository} (caller : String) (op : Op) :
      Steps lib r r' → Steps lib r (invoke lib caller r' op).1

/-- The id on which the call is a successful response submission, if it is one. -/
def respondedId (lib : Libs) (caller : String) (r : InMemoryRepository) : Op → List String
  | .SubmitPNRResponseAck input =>
    if (invoke lib caller r (.SubmitPNRResponseAck input)).2 = none then [input.Id] else []
  | .SubmitPNRResponseNack input =>
    if (invoke lib caller r (.SubmitPNRResponseNack input)).2 = none then [input.Id] else []
  | _ => []

/-- Reachable states together with their history: `ids` lists the PNR ids on
which a response submission has succeeded so far. -/
inductive ReachableResponded (lib : Libs) : InMemoryRepository → List String → Prop
  | init : ReachableResponded lib NewInMemoryRepository []
  | step {r : InMemoryRepository} {ids : List String} (caller : String) (op : Op) :
      ReachableResponded lib r ids →
      ReachableResponded lib (invoke lib caller r op).1 (respondedId lib caller r op ++ ids)

/-- Run a list of calls (caller, operation) in order. -/
def runCalls (lib : Libs) : List (String × Op) → InMemoryRepository → InMemoryRepository
  | [], r => r
  | (caller, op) :: rest, r => runCalls lib rest (invoke lib caller r op).1

/-- A library instance for a response document without `passengerDatasets`
(such as the JSON string `"test response data"` of the usecase tests): the
extracted array is empty. -/
def noRecordLibs : Libs :=
  tableLibs [] (fun _ => none) (fun _ => none) (fun _ => none)

/-- The happy path up to the confirmation by the requester: `piu2` and `piu1`
register, `piu1` requests from `piu2`, `piu2` confirms and acknowledges, `piu1`
confirms the acknowledgement. -/
def ackConfirmedCalls : List (String × Op) :=
  [("piu2", .SetPIUInfo ⟨"PIU 2", "admin@piu2.org"⟩),
   ("piu1", .SetPIUInfo ⟨"PIU 1", "admin@piu1.org"⟩),
   ("piu1", .NewPNRRequest someNewRequest),
   ("piu2", .ConfirmPNR ⟨"pnr1"⟩),
   ("piu2", .SubmitPNRResponseAck ⟨"pnr1", LatestTimestamp, some "\"test response data\""⟩),
   ("piu1", .ConfirmPNR ⟨"pnr1"⟩)]

/-- Both register and `piu1` sends a request without a payload. -/
def emptyPayloadCalls : List (String × Op) :=
  [("piu2", .SetPIUInfo ⟨"PIU 2", "admin@piu2.org"⟩),
   ("piu1", .SetPIUInfo ⟨"PIU 1", "admin@piu1.org"⟩),
   ("piu1", .NewPNRRequest
      { Id := "pnr1", RespondingPIU := "piu2", RequestTimestamp := MiddleTimestamp,
        RequestData := none })]

/-- The PNR stored after `ackConfirmedCalls` with the library `noRecordLibs`. -/
def ackConfirmedPNR : PNR :=
  { Id := "pnr1"
    RequestingPIU := "piu1"
    RespondingPIU := "piu2"
    RequestTimestamp := MiddleTimestamp
    ResponseTimestamp := LatestTimestamp
    State := RequestStateAckConfirmed
    RequestData := ""
    ResponseData := ""
    PNRHashes := [] }

/-- The PNR created by `someNewRequest` for the caller `piu1`. -/
def pendingPNR : PNR :=
  { Id := "pnr1"
    RequestingPIU := "piu1"
    RespondingPIU := "piu2"
    RequestTimestamp := MiddleTimestamp
    ResponseTimestamp := Time.zero
    State := RequestStatePending
    RequestData := "\"test request data\""
    ResponseData := ""
    PNRHashes := [] }

/-! ## Invariant of the reachable states -/

/-- The row that `ConfirmPNR` writes for the stored PNR `p`: the confirmed
state, and the payload purged when that state is `AckConfirmed` or
`NackConfirmed`. -/
def confirmedRow (p : PNR) : PNR :=
  if GetConfirmedState p.State = RequestStateAckConfirmed
      ∨ GetConfirmedState p.State = RequestStateNackConfirmed then
    { p with State := GetConfirmedState p.State, RequestData := "", ResponseData := "" }
  else { p with State := GetConfirmedState p.State }

/-- The row that `TerminatePNRRequest` writes for the stored PNR `p`. -/
def terminatedRow (p : PNR) : PNR :=
  { p with State := RequestStateTerminated, RequestData := "", ResponseData := "" }

/-- What holds of the PNR `p` stored under key `k`, given the PIU table and the
GC table: it is stored under its own id, its state is one of the seven, a GC
row is stored under `k` exactly when the state is not `Terminated`, the payload
is empty in the states without data, the hashes are empty before a response,
and the two parties differ, the responder being a stored PIU. -/
def RowOK (pius : Table PIU) (gc : Table GCMetadata) (k : String) (p : PNR) : Prop :=
  p.Id = k ∧ IsNamedState p.State ∧
  ((gc.lookup k).isSome = true ↔ p.State ≠ RequestStateTerminated) ∧
  (HasData p.State = false → p.RequestData = "" ∧ p.ResponseData = "") ∧
  (p.State = RequestStatePending ∨ p.State = RequestStatePendingConfirmed →
    p.PNRHashes = []) ∧
  p.RequestingPIU ≠ p.RespondingPIU ∧ (pius.lookup p.RespondingPIU).isSome = true

/-- The invariant: every stored PNR satisfies `RowOK`, and every GC row has a
PNR stored under the same key. -/
def Inv (r : InMemoryRepository) : Prop :=
  (∀ k p, r.pnrs.lookup k = some p → RowOK r.pius r.gcMetadatas k p) ∧
  (∀ k, (r.gcMetadatas.lookup k).isSome = true → (r.pnrs.lookup k).isSome = true)

/-- The PNR stored under `id` is in a state without data (`AckConfirmed`,
`NackConfirmed` or `Terminated`). -/
def NoData (r : InMemoryRepository) (id : String) : Prop :=
  ∃ p, r.pnrs.lookup id = some p ∧ HasData p.State = false

/-- Every stored PIU is stored under its own id. -/
def PiuInv (r : InMemoryRepository) : Prop :=
  ∀ k u, r.pius.lookup k = some u → u.Id = k

/-- Every stored PNR on which no response submission has succeeded (its key is
not in `ids`) has no hashes. -/
def HashInv (r : InMemoryRepository) (ids : List String) : Prop :=
  ∀ k p, r.pnrs.lookup k = some p → k ∉ ids → p.PNRHashes = []

/-! ## The ledger host

The chaincode stub of the ledger is not part of the repository. It is modelled
as a key-value store: the public state and one map per private collection.
Composite keys are pairs of object type and id. Which calls fail is a parameter
(`Env`), and so is the JSON codec. -/

/-- A composite key made by `shim.CreateCompositeKey(objectType, []string{id})`. -/
structure CompositeKey where
  objectType : String
  id : String
deriving DecidableEq, Repr

abbrev Bytes := List Byte

/-- The stored data of the host: the public state, and the private data keyed
by collection name and key. -/
structure Ledger where
  state : AList (fun _ : CompositeKey => Bytes)
  privateData : AList (fun _ : String × CompositeKey => Bytes)

/-- The metadata projection of a PNR (`privatedata/pnr.go`). -/
structure pnrMeta where
  Id : String
  RequestingPIU : String
  RespondingPIU : String
  RequestTimestamp : Time
  ResponseTimestamp : Time
  State : RequestState
  PNRHashes : List String
deriving DecidableEq, Repr

/-- The payload projection of a PNR (`privatedata/pnr.go`). -/
structure pnrData where
  RequestData : String
  ResponseData : String
deriving DecidableEq, Repr

/-- The behaviour of the host and of `encoding/json` that the adapter depends
on: which key attributes are accepted, which stub calls fail (`none` is no
error), and the codec of each stored entity. -/
structure Env where
  validAttribute : String → Bool
  getStateError : CompositeKey → Option Error
  putStateError : CompositeKey → Option Error
  getStateByPartialCompositeKeyError : String → Option Error
  stateNextError : CompositeKey → Option Error
  getPrivateDataError : String → CompositeKey → Option Error
  putPrivateDataError : String → CompositeKey → Option Error
  delPrivateDataError : String → CompositeKey → Option Error
  purgePrivateDataError : String → CompositeKey → Option Error
  getPrivateDataByPartialCompositeKeyError : String → String → Option Error
  privateNextError : String → CompositeKey → Option Error
  marshalPIU : PIU → Except Error Bytes
  unmarshalPIU : Bytes → Except Error PIU
  marshalGCMetadata : GCMetadata → Except Error Bytes
  unmarshalGCMetadata : Bytes → Except Error GCMetadata
  marshalPNRMeta : pnrMeta → Except Error Bytes
  unmarshalPNRMeta : Bytes → Except Error pnrMeta
  marshalPNRData : pnrData → Except Error Bytes
  unmarshalPNRData : Bytes → Except Error pnrData

namespace Ledger

/-- The stub call `GetState(key)`; a missing key gives nil (`none`). -/
def GetState (env : Env) (l : Ledger) (key : CompositeKey) : Except Error (Option Bytes) :=
  match env.getStateError key with
  | some err => .error err
  | none => .ok (l.state.lookup key)

/-- The stub call `PutState(key, value)`. -/
def PutState (env : Env) (l : Ledger) (key : CompositeKey) (value : Bytes) :
    Ledger × Option Error :=
  match env.putStateError key with
  | some err => (l, some err)
  | none => ({ l with state := l.state.insert key value }, none)

/-- The stub call `GetStateByPartialCompositeKey(objectType, [])`: the items the
iterator yields, each the result of one `Next()`. -/
def GetStateByPartialCompositeKey (env : Env) (l : Ledger) (objectType : String) :
    Except Error (List (Except Error Bytes)) :=
  match env.getStateByPartialCompositeKeyError objectType with
  | some err => .error err
  | none =>
    .ok ((l.state.entries.filter (fun e => e.1.objectType = objectType)).map (fun e =>
      match env.stateNextError e.1 with
      | some err => .error err
      | none => .ok e.2))

/-- The stub call `GetPrivateData(collection, key)`. -/
def GetPrivateData (env : Env) (l : Ledger) (collection : String) (key : CompositeKey) :
    Except Error (Option Bytes) :=
  match env.getPrivateDataError collection key with
  | some err => .error err
  | none => .ok (l.privateData.lookup (collection, key))

/-- The stub call `PutPrivateData(collection, key, value)`. -/
def PutPrivateData (env : Env) (l : Ledger) (collection : String) (key : CompositeKey)
    (value : Bytes) : Ledger × Option Error :=
  match env.putPrivateDataError collection key with
  | some err => (l, some err)
  | none => ({ l with privateData := l.privateData.insert (collection, key) value }, none)

/-- The stub call `DelPrivateData(collection, key)`. -/
def DelPrivateData (env : Env) (l : Ledger) (collection : String) (key : CompositeKey) :
    Ledger × Option Error :=
  match env.delPrivateDataError collection key with
  | some err => (l, some err)
  | none => ({ l with privateData := l.privateData.erase (collection, key) }, none)

/-- The stub call `PurgePrivateData(collection, key)`. -/
def PurgePrivateData (env : Env) (l : Ledger) (collection : String) (key : CompositeKey) :
    Ledger × Option Error :=
  match env.purgePrivateDataError collection key with
  | some err => (l, some err)
  | none => ({ l with privateData := l.privateData.erase (collection, key) }, none)

/-- The stub call `GetPrivateDataByPartialCompositeKey(collection, objectType, [])`. -/
def GetPrivateDataByPartialCompositeKey (env : Env) (l : Ledger) (collection : String)
    (objectType : String) : Except Error (List (Except Error Bytes)) :=
  match env.getPrivateDataByPartialCompositeKeyError collection objectType with
  | some err => .error err
  | none =>
    .ok ((l.privateData.entries.filter
        (fun e => e.1.1 = collection ∧ e.1.2.objectType = objectType)).map (fun e =>
      match env.privateNextError collection e.1.2 with
      | some err => .error err
      | none => .ok e.2))

end Ledger

/-- The library call `shim.CreateCompositeKey(objectType, []string{id})`: both
parts are validated, then the key is built. -/
def CreateCompositeKey (env : Env) (objectType : String) (id : String) :
    Except Error CompositeKey :=
  if !env.validAttribute objectType then .error (Error.new "invalid composite key attribute")
  else if !env.validAttribute id then .error (Error.new "invalid composite key attribute")
  else .ok { objectType := objectType, id := id }

/-! ## repository/privatedata -/

def piuObjectType : String := "piu"
def pnrMetaObjectType : String := "pnrMeta"
def pnrDataObjectType : String := "pnrData"
def gcMetadataObjectType : String := "gc"

/-- A Go byte slice read from the host: nil is the empty slice. -/
def modelBytes (model : Option Bytes) : Bytes := model.getD []

def piuEntityToModel (env : Env) (entity : PIU) : Except Error Bytes :=
  env.marshalPIU entity

def piuModelToEntity (env : Env) (model : Bytes) : Except Error PIU :=
  env.unmarshalPIU model

def getPIUCompositeKey (env : Env) (id : String) : Except Error CompositeKey :=
  CreateCompositeKey env piuObjectType id

def pnrEntityToMetaEntity (entity : PNR) : pnrMeta :=
  { Id := entity.Id
    RequestingPIU := entity.RequestingPIU
    RespondingPIU := entity.RespondingPIU
    RequestTimestamp := entity.RequestTimestamp
    ResponseTimestamp := entity.ResponseTimestamp
    State := entity.State
    PNRHashes := entity.PNRHashes }

def pnrEntityToDataEntity (entity : PNR) : pnrData :=
  { RequestData := entity.RequestData, ResponseData := entity.ResponseData }

def pnrEntitiesToEntity (metaEntity : pnrMeta) (dataEntity : pnrData) : PNR :=
  { Id := metaEntity.Id
    RequestingPIU := metaEntity.RequestingPIU
    RespondingPIU := metaEntity.RespondingPIU
    RequestTimestamp := metaEntity.RequestTimestamp
    ResponseTimestamp := metaEntity.ResponseTimestamp
    State := metaEntity.State
    PNRHashes := metaEntity.PNRHashes
    RequestData := dataEntity.RequestData
    ResponseData := dataEntity.ResponseData }

def pnrEntityToMetaModel (env : Env) (entity : PNR) : Except Error Bytes :=
  env.marshalPNRMeta (pnrEntityToMetaEntity entity)

def pnrEntityToDataModel (env : Env) (entity : PNR) : Except Error Bytes :=
  env.marshalPNRData (pnrEntityToDataEntity entity)

def metaModelToMetaEntity (env : Env) (model : Bytes) : Except Error pnrMeta :=
  env.unmarshalPNRMeta model

def dataModelToDataEntity (env : Env) (model : Bytes) : Except Error pnrData :=
  env.unmarshalPNRData model

def pnrModelsToEntity (env : Env) (metaModel dataModel : Bytes) : Except Error PNR :=
  match metaModelToMetaEntity env metaModel with
  | .error err => .error err
  | .ok metaEntity =>
    match dataModelToDataEntity env dataModel with
    | .error err => .error err
    | .ok dataEntity => .ok (pnrEntitiesToEntity metaEntity dataEntity)

def getPNRMetaCompositeKey (env : Env) (id : String) : Except Error CompositeKey :=
  CreateCompositeKey env pnrMetaObjectType id

def getPNRDataCompositeKey (env : Env) (id : String) : Except Error CompositeKey :=
  CreateCompositeKey env pnrDataObjectType id

def getRemotePIU (pnr : PNR) (localPIU : String) : String :=
  if pnr.RequestingPIU = localPIU then pnr.RespondingPIU else pnr.RequestingPIU

def gcMetadataEntityToModel (env : Env) (entity : GCMetadata) : Except Error Bytes :=
  env.marshalGCMetadata entity

def gcMetadataModelToEntity (env : Env) (model : Bytes) : Except Error GCMetadata :=
  env.unmarshalGCMetadata model

def getGCMetatadaCompositeKey (env : Env) (id : String) : Except Error CompositeKey :=
  CreateCompositeKey env gcMetadataObjectType id

def getCollectionName (clientOrgID : String) : String :=
  clientOrgID ++ "Collection"

/-- The adapter of one invocation: the host behaviour standing for `ctx`, the
caller's PIU id and its collection name. The ledger is passed to each method. -/
structure PrivateDataRepository where
  env : Env
  piuId : String
  localData : String

def NewPrivateDataRepository (env : Env) (piuId : String) : PrivateDataRepository :=
  { env := env, piuId := piuId, localData := getCollectionName piuId }

/-- The value of `exists` after `exists, _ := r.XExists(id)`: false on error. -/
def existsOrFalse (res : Except Error Bool) : Bool :=
  match res with
  | .ok b => b
  | .error _ => false

namespace PrivateDataRepository

def PIUExists (r : PrivateDataRepository) (l : Ledger) (id : String) : Except Error Bool :=
  match getPIUCompositeKey r.env id with
  | .error err => .error err
  | .ok key =>
    match l.GetState r.env key with
    | .error err => .error err
    | .ok piuModel => .ok piuModel.isSome

def GetPIU (r : PrivateDataRepository) (l : Ledger) (id : String) : Except Error PIU :=
  match getPIUCompositeKey r.env id with
  | .error err => .error err
  | .ok key =>
    match l.GetState r.env key with
    | .error err => .error err
    | .ok piuModel =>
      if !piuModel.isSome then .error (Error.new "PIU not found")
      else piuModelToEntity r.env (modelBytes piuModel)

/-- The loop of `GetPIUs`: a failing `Next()` or a row that does not decode
ends the call with that error. -/
def getPIUsLoop (env : Env) : List (Except Error Bytes) → List PIU → Except Error (List PIU)
  | [], result => .ok result
  | queryResponse :: rest, result =>
    match queryResponse with
    | .error err => .error err
    | .ok value =>
      match piuModelToEntity env value with
      | .error err => .error err
      | .ok piu => getPIUsLoop env rest (result ++ [piu])

def GetPIUs (r : PrivateDataRepository) (l : Ledger) : Except Error (List PIU) :=
  match l.GetStateByPartialCompositeKey r.env piuObjectType with
  | .error err => .error err
  | .ok iterator => getPIUsLoop r.env iterator []

def InsertPIU (r : PrivateDataRepository) (l : Ledger) (id : String) (piu : PIU) :
    Ledger × Option Error :=
  if existsOrFalse (r.PIUExists l id) then (l, some (Error.new "PIU already exists"))
  else
    match getPIUCompositeKey r.env id with
    | .error err => (l, some err)
    | .ok key =>
      match piuEntityToModel r.env piu with
      | .error err => (l, some err)
      | .ok piuModel => l.PutState r.env key piuModel

def UpdatePIU (r : PrivateDataRepository) (l : Ledger) (id : String) (piu : PIU) :
    Ledger × Option Error :=
  if !existsOrFalse (r.PIUExists l id) then (l, some (Error.new "PIU does not exist"))
  else
    match getPIUCompositeKey r.env id with
    | .error err => (l, some err)
    | .ok key =>
      match piuEntityToModel r.env piu with
      | .error err => (l, some err)
      | .ok piuModel => l.PutState r.env key piuModel

def getPNRMeta (r : PrivateDataRepository) (l : Ledger) (id : String) :
    Except Error (CompositeKey × pnrMeta) :=
  match getPNRMetaCompositeKey r.env id with
  | .error err => .error err
  | .ok metaKey =>
    match l.GetPrivateData r.env r.localData metaKey with
    | .error err => .error err
    | .ok metaModel =>
      match metaModelToMetaEntity r.env (modelBytes metaModel) with
      | .error err => .error err
      | .ok metaEntity => .ok (metaKey, metaEntity)

def getPNRData (r : PrivateDataRepository) (l : Ledger) (id : String) :
    Except Error (CompositeKey × pnrData) :=
  match getPNRDataCompositeKey r.env id with
  | .error err => .error err
  | .ok dataKey =>
    match l.GetPrivateData r.env r.localData dataKey with
    | .error err => .error err
    | .ok dataModel =>
      match dataModelToDataEntity r.env (modelBytes dataModel) with
      | .error err => .error err
      | .ok dataEntity => .ok (dataKey, dataEntity)

def putToBothPrivateCollections (r : PrivateDataRepository) (l : Ledger)
    (remoteCollection : String) (key : CompositeKey) (value : Bytes) : Ledger × Option Error :=
  match l.PutPrivateData r.env remoteCollection key value with
  | (l, some err) => (l, some err)
  | (l, none) => l.PutPrivateData r.env r.localData key value

def PNRExists (r : PrivateDataRepository) (l : Ledger) (id : String) : Except Error Bool :=
  match getPNRMetaCompositeKey r.env id with
  | .error err => .error err
  | .ok key =>
    match l.GetPrivateData r.env r.localData key with
    | .error err => .error err
    | .ok pnrModel => .ok pnrModel.isSome

def GetPNR (r : PrivateDataRepository) (l : Ledger) (id : String) : Except Error PNR :=
  match r.getPNRMeta l id with
  | .error err => .error err
  | .ok (_, metaEntity) =>
    if !HasData metaEntity.State then
      .ok (pnrEntitiesToEntity metaEntity { RequestData := "", ResponseData := "" })
    else
      match r.getPNRData l id with
      | .error err => .error err
      | .ok (_, dataEntity) => .ok (pnrEntitiesToEntity metaEntity dataEntity)

/-- The loop of `GetPNRs`: a failing `Next()`, a row whose metadata does not
decode and a row whose payload cannot be read are skipped. -/
def getPNRsLoop (r : PrivateDataRepository) (l : Ledger) (filter : PNRFilter) :
    List (Except Error Bytes) → List PNR → List PNR
  | [], result => result
  | queryResponse :: rest, result =>
    match queryResponse with
    | .error _ => getPNRsLoop r l filter rest result
    | .ok value =>
      match metaModelToMetaEntity r.env value with
      | .error _ => getPNRsLoop r l filter rest result
      | .ok metaEntity =>
        let pnr := pnrEntitiesToEntity metaEntity { RequestData := "", ResponseData := "" }
        if IsMatchingPNR filter pnr then
          let id := metaEntity.Id
          if pnr.State = RequestStateAckConfirmed ∨ pnr.State = RequestStateNackConfirmed
              ∨ pnr.State = RequestStateTerminated then
            getPNRsLoop r l filter rest (result ++ [pnr])
          else
            match r.getPNRData l id with
            | .error _ => getPNRsLoop r l filter rest result
            | .ok (_, dataEntity) =>
              getPNRsLoop r l filter rest (result ++ [pnrEntitiesToEntity metaEntity dataEntity])
        else getPNRsLoop r l filter rest result

def GetPNRs (r : PrivateDataRepository) (l : Ledger) (filter : PNRFilter) :
    Except Error (List PNR) :=
  match l.GetPrivateDataByPartialCompositeKey r.env r.localData pnrMetaObjectType with
  | .error err => .error err
  | .ok iterator => .ok (getPNRsLoop r l filter iterator [])

end PrivateDataRepository

namespace PrivateDataRepository

def InsertPNR (r : PrivateDataRepository) (l : Ledger) (id : String) (pnr : PNR) :
    Ledger × Option Error :=
  if existsOrFalse (r.PNRExists l id) then (l, some (Error.new "PNR already exists"))
  else
    match getPNRMetaCompositeKey r.env id with
    | .error err => (l, some err)
    | .ok metaKey =>
      match getPNRDataCompositeKey r.env id with
      | .error err => (l, some err)
      | .ok dataKey =>
        match pnrEntityToMetaModel r.env pnr with
        | .error err => (l, some err)
        | .ok metaModel =>
          match pnrEntityToDataModel r.env pnr with
          | .error err => (l, some err)
          | .ok dataModel =>
            let remotePIU := getRemotePIU pnr r.piuId
            let remoteData := getCollectionName remotePIU
            match r.putToBothPrivateCollections l remoteData metaKey metaModel with
            | (l, some err) => (l, some err)
            | (l, none) => r.putToBothPrivateCollections l remoteData dataKey dataModel

def UpdatePNR (r : PrivateDataRepository) (l : Ledger) (id : String) (pnr : PNR) :
    Ledger × Option Error :=
  if !existsOrFalse (r.PNRExists l id) then (l, some (Error.new "PNR does not exist"))
  else
    match r.getPNRMeta l id with
    | .error err => (l, some err)
    | .ok (metaKey, metaEntity) =>
      match pnrEntityToMetaModel r.env pnr with
      | .error err => (l, some err)
      | .ok metaModel =>
        let remotePIU := getRemotePIU pnr r.piuId
        let remoteData := getCollectionName remotePIU
        match r.putToBothPrivateCollections l remoteData metaKey metaModel with
        | (l, some err) => (l, some err)
        | (l, none) =>
          if !HasData metaEntity.State then (l, none)
          else
            match r.getPNRData l id with
            | .error err => (l, some err)
            | .ok (dataKey, _) =>
              match pnrEntityToDataModel r.env pnr with
              | .error err => (l, some err)
              | .ok dataModel => r.putToBothPrivateCollections l remoteData dataKey dataModel

def UpdateLocalPNR (r : PrivateDataRepository) (l : Ledger) (id : String) (pnr : PNR) :
    Ledger × Option Error :=
  if !existsOrFalse (r.PNRExists l id) then (l, some (Error.new "PNR does not exist"))
  else
    match r.getPNRMeta l id with
    | .error err => (l, some err)
    | .ok (metaKey, metaEntity) =>
      match pnrEntityToMetaModel r.env pnr with
      | .error err => (l, some err)
      | .ok metaModel =>
        match l.PutPrivateData r.env r.localData metaKey metaModel with
        | (l, some err) => (l, some err)
        | (l, none) =>
          if !HasData metaEntity.State then (l, none)
          else
            match r.getPNRData l id with
            | .error err => (l, some err)
            | .ok (dataKey, _) =>
              match pnrEntityToDataModel r.env pnr with
              | .error err => (l, some err)
              | .ok dataModel => l.PutPrivateData r.env r.localData dataKey dataModel

def PurgePNRData (r : PrivateDataRepository) (l : Ledger) (id : String) :
    Ledger × Option Error :=
  if !existsOrFalse (r.PNRExists l id) then (l, some (Error.new "PNR does not exist"))
  else
    match r.getPNRMeta l id with
    | .error err => (l, some err)
    | .ok (_, metaEntity) =>
      match getPNRDataCompositeKey r.env id with
      | .error err => (l, some err)
      | .ok dataKey =>
        let pnr := pnrEntitiesToEntity metaEntity { RequestData := "", ResponseData := "" }
        let remotePIU := getRemotePIU pnr r.piuId
        let remoteData := getCollectionName remotePIU
        match l.PurgePrivateData r.env remoteData dataKey with
        | (l, some err) => (l, some err)
        | (l, none) =>
          match l.PurgePrivateData r.env r.localData dataKey with
          | (l, some err) => (l, some err)
          | (l, none) => (l, none)

def PurgeLocalPNRData (r : PrivateDataRepository) (l : Ledger) (id : String) :
    Ledger × Option Error :=
  if !existsOrFalse (r.PNRExists l id) then (l, some (Error.new "PNR does not exist"))
  else
    match getPNRDataCompositeKey r.env id with
    | .error err => (l, some err)
    | .ok dataKey =>
      match l.PurgePrivateData r.env r.localData dataKey with
      | (l, some err) => (l, some err)
      | (l, none) => (l, none)

def GCMetadataExists (r : PrivateDataRepository) (l : Ledger) (id : String) :
    Except Error Bool :=
  match getGCMetatadaCompositeKey r.env id with
  | .error err => .error err
  | .ok key =>
    match l.GetPrivateData r.env r.localData key with
    | .error err => .error err
    | .ok gcMetadataModel => .ok gcMetadataModel.isSome

def InsertGCMetadata (r : PrivateDataRepository) (l : Ledger) (pnr : PNR) (gc : GCMetadata) :
    Ledger × Option Error :=
  if existsOrFalse (r.GCMetadataExists l pnr.Id) then
    (l, some (Error.new "GC metadata already exists"))
  else
    match getGCMetatadaCompositeKey r.env pnr.Id with
    | .error err => (l, some err)
    | .ok key =>
      match gcMetadataEntityToModel r.env gc with
      | .error err => (l, some err)
      | .ok gcMetadataModel =>
        let remotePIU := getRemotePIU pnr r.piuId
        let remoteData := getCollectionName remotePIU
        match r.putToBothPrivateCollections l remoteData key gcMetadataModel with
        | (l, some err) => (l, some err)
        | (l, none) => (l, none)

def UpdateGCMetadata (r : PrivateDataRepository) (l : Ledger) (pnr : PNR) (gc : GCMetadata) :
    Ledger × Option Error :=
  if !existsOrFalse (r.GCMetadataExists l pnr.Id) then
    (l, some (Error.new "GC metadata does not exist"))
  else
    match getGCMetatadaCompositeKey r.env pnr.Id with
    | .error err => (l, some err)
    | .ok key =>
      match gcMetadataEntityToModel r.env gc with
      | .error err => (l, some err)
      | .ok gcMetadataModel =>
        let remotePIU := getRemotePIU pnr r.piuId
        let remoteData := getCollectionName remotePIU
        match r.putToBothPrivateCollections l remoteData key gcMetadataModel with
        | (l, some err) => (l, some err)
        | (l, none) => (l, none)

def DeleteGCMetadata (r : PrivateDataRepository) (l : Ledger) (pnr : PNR) :
    Ledger × Option Error :=
  if !existsOrFalse (r.GCMetadataExists l pnr.Id) then
    (l, some (Error.new "GC metadata does not exist"))
  else
    let remotePIU := getRemotePIU pnr r.piuId
    let remoteData := getCollectionName remotePIU
    match getGCMetatadaCompositeKey r.env pnr.Id with
    | .error err => (l, some err)
    | .ok key =>
      match l.DelPrivateData r.env remoteData key with
      | (l, some err) => (l, some err)
      | (l, none) =>
        match l.DelPrivateData r.env r.localData key with
        | (l, some err) => (l, some err)
        | (l, none) => (l, none)

def DeleteLocalGCMetadata (r : PrivateDataRepository) (l : Ledger) (id : String) :
    Ledger × Option Error :=
  if !existsOrFalse (r.GCMetadataExists l id) then
    (l, some (Error.new "GC metadata does not exist"))
  else
    match getGCMetatadaCompositeKey r.env id with
    | .error err => (l, some err)
    | .ok key =>
      match l.DelPrivateData r.env r.localData key with
      | (l, some err) => (l, some err)
      | (l, none) => (l, none)

def GetGCMetadata (r : PrivateDataRepository) (l : Ledger) (id : String) :
    Except Error GCMetadata :=
  match getGCMetatadaCompositeKey r.env id with
  | .error err => .error err
  | .ok key =>
    match l.GetPrivateData r.env r.localData key with
    | .error err => .error err
    | .ok gcMetadataModel =>
      if !gcMetadataModel.isSome then .error (Error.new "GC metadata not found")
      else gcMetadataModelToEntity r.env (modelBytes gcMetadataModel)

/-- The loop of `GetGCMetadatas`: the first failing `Next()` or decoding ends
the call with that error. -/
def getGCMetadatasLoop (env : Env) :
    List (Except Error Bytes) → List GCMetadata → Except Error (List GCMetadata)
  | [], result => .ok result
  | queryResponse :: rest, result =>
    match queryResponse with
    | .error err => .error err
    | .ok value =>
      match gcMetadataModelToEntity env value with
      | .error err => .error err
      | .ok pnr => getGCMetadatasLoop env rest (result ++ [pnr])

def GetGCMetadatas (r : PrivateDataRepository) (l : Ledger) : Except Error (List GCMetadata) :=
  match l.GetPrivateDataByPartialCompositeKey r.env r.localData gcMetadataObjectType with
  | .error err => .error err
  | .ok iterator => getGCMetadatasLoop r.env iterator []

end PrivateDataRepository

/-- The private-collection adapter as an implementation of `Repository`. -/
def privateData (r : PrivateDataRepository) : Repository Ledger where
  PIUExists := r.PIUExists
  GetPIU := r.GetPIU
  GetPIUs := r.GetPIUs
  InsertPIU := r.InsertPIU
  UpdatePIU := r.UpdatePIU
  PNRExists := r.PNRExists
  GetPNR := r.GetPNR
  GetPNRs := r.GetPNRs
  InsertPNR := r.InsertPNR
  UpdatePNR := r.UpdatePNR
  UpdateLocalPNR := r.UpdateLocalPNR
  PurgePNRData := r.PurgePNRData
  PurgeLocalPNRData := r.PurgeLocalPNRData
  GCMetadataExists := r.GCMetadataExists
  InsertGCMetadata := r.InsertGCMetadata
  UpdateGCMetadata := r.UpdateGCMetadata
  DeleteGCMetadata := r.DeleteGCMetadata
  DeleteLocalGCMetadata := r.DeleteLocalGCMetadata
  GetGCMetadata := r.GetGCMetadata
  GetGCMetadatas := r.GetGCMetadatas

/-! ## Specification-side definitions and fixtures for the private collections -/

/-- The remote party in the words of the specification: the requester if the
caller is the responder, else the responder. -/
def specRemotePIU (pnr : PNR) (caller : String) : String :=
  if caller = pnr.RespondingPIU then pnr.RequestingPIU else pnr.RespondingPIU

/-- The key holds the bytes `value` in the collection `c1` and in the
collection `c2`. -/
def HoldsInBoth (l : Ledger) (c1 c2 : String) (key : CompositeKey) (value : Bytes) : Prop :=
  l.privateData.lookup (c1, key) = some value ∧ l.privateData.lookup (c2, key) = some value

instance (l : Ledger) (c1 c2 : String) (key : CompositeKey) (value : Bytes) :
    Decidable (HoldsInBoth l c1 c2 key value) := by
  unfold HoldsInBoth; infer_instance

/-- Decoding the encoding of `x` gives `x` back. -/
def RoundTrips {α : Type} (marshal : α → Except Error Bytes)
    (unmarshal : Bytes → Except Error α) (x : α) : Prop :=
  ∀ b, marshal x = .ok b → unmarshal b = .ok x

/-- The two ledgers hold the same keys and bytes in the collection `c`. -/
def SameCollection (c : String) (l1 l2 : Ledger) : Prop :=
  ∀ k, l1.privateData.lookup (c, k) = l2.privateData.lookup (c, k)

/-- What `GetPNR` gives back for a stored `p`: the payload only in a state that
has data. -/
def storedView (p : PNR) : PNR :=
  if HasData p.State then p else { p with RequestData := "", ResponseData := "" }

/-- An encoder given by a finite table. -/
def tableMarshal {α : Type} [DecidableEq α] (table : List (α × Bytes)) (x : α) :
    Except Error Bytes :=
  match table.find? (fun e => decide (e.1 = x)) with
  | some e => .ok e.2
  | none => .error (Error.new "json: unsupported value")

/-- A decoder given by a finite table. -/
def tableUnmarshal {α : Type} (table : List (α × Bytes)) (b : Bytes) : Except Error α :=
  match table.find? (fun e => decide (e.2 = b)) with
  | some e => .ok e.1
  | none => .error (Error.new "json: cannot unmarshal")

/-- A host whose calls never fail and that accepts every key attribute, with
the codec of each stored entity given by a table. -/
def tableEnv (pius : List (PIU × Bytes)) (gcs : List (GCMetadata × Bytes))
    (metas : List (pnrMeta × Bytes)) (datas : List (pnrData × Bytes)) : Env where
  validAttribute _ := true
  getStateError _ := none
  putStateError _ := none
  getStateByPartialCompositeKeyError _ := none
  stateNextError _ := none
  getPrivateDataError _ _ := none
  putPrivateDataError _ _ := none
  delPrivateDataError _ _ := none
  purgePrivateDataError _ _ := none
  getPrivateDataByPartialCompositeKeyError _ _ := none
  privateNextError _ _ := none
  marshalPIU := tableMarshal pius
  unmarshalPIU := tableUnmarshal pius
  marshalGCMetadata := tableMarshal gcs
  unmarshalGCMetadata := tableUnmarshal gcs
  marshalPNRMeta := tableMarshal metas
  unmarshalPNRMeta := tableUnmarshal metas
  marshalPNRData := tableMarshal datas
  unmarshalPNRData := tableUnmarshal datas

def emptyLedger : Ledger := { state := ∅, privateData := ∅ }

/-- A request from `piu1` to `piu2` stored as terminated while it still carries
a request payload. -/
def terminatedWithPayload : PNR := { pendingPNR with State := RequestStateTerminated }

/-- The GC row of `pendingPNR`. -/
def pendingGC : GCMetadata := ⟨"pnr1", MiddleTimestamp⟩

/-- The codec tables of the fixtures: the PNRs `pendingPNR`, `ackRequest`, their
terminated forms and `terminatedWithPayload`, and the GC rows. -/
def fixtureEnv : Env :=
  tableEnv []
    [(pendingGC, [1]), (⟨"someId", MiddleTimestamp⟩, [2])]
    [(pnrEntityToMetaEntity pendingPNR, [10]),
     (pnrEntityToMetaEntity terminatedWithPayload, [11]),
     (pnrEntityToMetaEntity ackRequest, [12]),
     (pnrEntityToMetaEntity { ackRequest with State := RequestStateTerminated }, [13]),
     (pnrEntityToMetaEntity ackConfirmedPNR, [14])]
    [(pnrEntityToDataEntity pendingPNR, [20]),
     (pnrEntityToDataEntity ackRequest, [21]),
     (pnrEntityToDataEntity ackConfirmedPNR, [22])]

/-- The adapter of the caller `piu1` over `fixtureEnv`. -/
def fixtureRepository : PrivateDataRepository := NewPrivateDataRepository fixtureEnv "piu1"

/-- The ledger after `piu1` stored `pendingPNR` with its GC row. -/
def ledgerPending : Ledger :=
  (fixtureRepository.InsertGCMetadata (fixtureRepository.InsertPNR emptyLedger "pnr1" pendingPNR).1
    pendingPNR pendingGC).1

/-- The ledger after `piu1` stored `ackConfirmedPNR` and purged its payload
row in both collections. -/
def ledgerAckConfirmed : Ledger :=
  (fixtureRepository.PurgePNRData
    (fixtureRepository.InsertPNR emptyLedger "pnr1" ackConfirmedPNR).1 "pnr1").1

/-- The ledger `l2` is `l1` after the bytes of `writes` were put under their
keys in the collections `c1` and `c2`: each of these keys holds its bytes in
both collections, and the public state, every other key and every other
collection are as in `l1`. -/
def WrittenToBoth (c1 c2 : String) (writes : List (CompositeKey × Bytes)) (l1 l2 : Ledger) :
    Prop :=
  (∀ kv ∈ writes, HoldsInBoth l2 c1 c2 kv.1 kv.2)
    ∧ l2.state = l1.state
    ∧ ∀ c k, k ∉ writes.map Prod.fst ∨ (c ≠ c1 ∧ c ≠ c2) →
        l2.privateData.lookup (c, k) = l1.privateData.lookup (c, k)

/-- The ledger `l2` differs from `l1` at most in the private collection `c`. -/
def OnlyCollectionChanged (c : String) (l1 l2 : Ledger) : Prop :=
  l2.state = l1.state
    ∧ ∀ c' k, c' ≠ c → l2.privateData.lookup (c', k) = l1.privateData.lookup (c', k)

/-- The usecase that `LedgerUsecaseFactory.New` builds (`pkg/contract/contract.go`)
once the caller's organisation id is known: the adapter and the usecase get the
same `piuId`. -/
def LedgerUsecaseFactory.New (env : Env) (piuId : String) : RMTUsecase Ledger :=
  NewRMTUsecase piuId (privateData (NewPrivateDataRepository env piuId))

/-- The ledger `ledgerPending` with the peer's payload row of `pnr1` purged: it
differs from `ledgerPending` only in the collection of `piu2`. -/
def ledgerPendingPeerPurged : Ledger :=
  (ledgerPending.PurgePrivateData fixtureEnv "piu2Collection" ⟨"pnrData", "pnr1"⟩).1

/-! ## Specification-side definitions for the life cycle of a PNR -/

/-- The edges of the request state machine: `Pending` to `PendingConfirmed`,
`PendingConfirmed` to `Ack` or `Nack`, `Ack` to `AckConfirmed`, `Nack` to
`NackConfirmed`, and any state to `Terminated`. -/
def IsEdge (s t : RequestState) : Prop :=
  (s = RequestStatePending ∧ t = RequestStatePendingConfirmed) ∨
  (s = RequestStatePendingConfirmed ∧ t = RequestStateAck) ∨
  (s = RequestStatePendingConfirmed ∧ t = RequestStateNack) ∨
  (s = RequestStateAck ∧ t = RequestStateAckConfirmed) ∨
  (s = RequestStateNack ∧ t = RequestStateNackConfirmed) ∨
  t = RequestStateTerminated

/-- How far a state is along the life cycle: every edge to a different state
goes to a higher rank. A state outside the seven named ones has rank 0. -/
def stateRank (s : RequestState) : Nat :=
  if s = RequestStatePendingConfirmed then 1
  else if s = RequestStateAck ∨ s = RequestStateNack then 2
  else if s = RequestStateAckConfirmed ∨ s = RequestStateNackConfirmed then 3
  else if s = RequestStateTerminated then 4
  else 0

/-- The repository `r2` holds the same rows as `r1`: every key of each of the
three maps has the same value in both. -/
def SameRows (r1 r2 : InMemoryRepository) : Prop :=
  ∀ k, r2.pius.lookup k = r1.pius.lookup k ∧ r2.pnrs.lookup k = r1.pnrs.lookup k
    ∧ r2.gcMetadatas.lookup k = r1.gcMetadatas.lookup k

/-! ## Specification-side definitions for the scan of the private collection -/

/-- What the scan makes of one item, in the words of the specification: an
item that cannot be read or whose metadata does not decode is skipped; so is a
row that does not match the filter; a matching row in a state with payload is
returned with its payload, or skipped when the payload cannot be read or
decoded; a matching row in a state without payload is returned as it is. -/
def specScanRow (r : PrivateDataRepository) (l : Ledger) (filter : PNRFilter)
    (item : Except Error Bytes) : Option PNR :=
  match item with
  | .error _ => none
  | .ok value =>
    match r.env.unmarshalPNRMeta value with
    | .error _ => none
    | .ok m =>
      if IsMatchingPNR filter (pnrEntitiesToEntity m { RequestData := "", ResponseData := "" }) then
        if HasData m.State then
          match r.getPNRData l m.Id with
          | .error _ => none
          | .ok (_, d) => some (pnrEntitiesToEntity m d)
        else some (pnrEntitiesToEntity m { RequestData := "", ResponseData := "" })
      else none

/-- The ledger `ledgerPending` with a row of bytes that decode to nothing stored
under a second metadata key of the collection of `piu1`. -/
def ledgerWithBadRow : Ledger :=
  (ledgerPending.PutPrivateData fixtureEnv "piu1Collection" ⟨"pnrMeta", "bad"⟩ [99]).1

/-! ## contract/contract.go

The invocation adapter. The transaction context and `encoding/json` are not
part of the repository: what the adapter reads from them is a parameter. -/

def RequestDataTransientKey : String := "requestData"
def ResponseDataTransientKey : String := "responseData"

/-- What the adapter reads from `ctx`: the result of
`ctx.GetStub().GetTransient()`, the byte values read as text. -/
structure TransactionContext where
  GetTransient : Except Error (Table String)

/-- The smart contract: its usecase factory `uf` (`uf.New(ctx)` gives the
usecase of the caller or fails), and the `json.Unmarshal` of the two inputs
that carry a transient payload. -/
structure SmartContract (σ : Type) where
  uf : TransactionContext → Except Error (RMTUsecase σ)
  unmarshalNewPNRRequestInput : String → Except Error NewPNRRequestInput
  unmarshalSubmitPNRResponseInput : String → Except Error SubmitPNRResponseInput

namespace SmartContract

variable {σ : Type}

/-- The results are the state, the returned `output` and the returned `err`.
When the transient key is missing the code returns `output, err` with the
`err` of the `GetTransient` call before it, which is nil at that point. -/
def NewPNRRequest (c : SmartContract σ) (ctx : TransactionContext) (s : σ) (request : String) :
    σ × NewPNRRequestOutput × Option Error :=
  let output : NewPNRRequestOutput := { Id := "" }
  match c.uf ctx with
  | .error err => (s, output, some err)
  | .ok u =>
    match c.unmarshalNewPNRRequestInput request with
    | .error err => (s, output, some err)
    | .ok input =>
      match ctx.GetTransient with
      | .error err => (s, output, some err)
      | .ok transient =>
        match transient.lookup RequestDataTransientKey with
        | none => (s, output, none)
        | some requestData =>
          let input := { input with RequestData := some requestData }
          match u.NewPNRRequest s input with
          | (s, .error err) => (s, output, some err)
          | (s, .ok out) => (s, out, none)

def SubmitPNRResponseAck (lib : Libs) (c : SmartContract σ) (ctx : TransactionContext) (s : σ)
    (response : String) : σ × Option Error :=
  match c.uf ctx with
  | .error err => (s, some err)
  | .ok u =>
    match c.unmarshalSubmitPNRResponseInput response with
    | .error err => (s, some err)
    | .ok input =>
      match ctx.GetTransient with
      | .error err => (s, some err)
      | .ok transient =>
        match transient.lookup ResponseDataTransientKey with
        | none => (s, none)
        | some responseData =>
          let input := { input with ResponseData := some responseData }
          match u.SubmitPNRResponseAck lib s input with
          | (s, .error err) => (s, some err)
          | (s, .ok _) => (s, none)

def SubmitPNRResponseNack (lib : Libs) (c : SmartContract σ) (ctx : TransactionContext) (s : σ)
    (response : String) : σ × Option Error :=
  match c.uf ctx with
  | .error err => (s, some err)
  | .ok u =>
    match c.unmarshalSubmitPNRResponseInput response with
    | .error err => (s, some err)
    | .ok input =>
      match ctx.GetTransient with
      | .error err => (s, some err)
      | .ok transient =>
        match transient.lookup ResponseDataTransientKey with
        | none => (s, none)
        | some responseData =>
          let input := { input with ResponseData := some responseData }
          match u.SubmitPNRResponseNack lib s input with
          | (s, .error err) => (s, some err)
          | (s, .ok _) => (s, none)

end SmartContract

/-! ## repository/publicledger

The PNR methods of the adapter that keeps whole PNRs in the public state. -/

def pnrObjectType : String := "pnr"

/-- The `encoding/json` codec of a whole PNR, a parameter like the codecs of
`Env`. -/
structure PNRJson where
  Marshal : PNR → Except Error Bytes
  Unmarshal : Bytes → Except Error PNR

def pnrEntityToModel (json : PNRJson) (entity : PNR) : Except Error Bytes :=
  json.Marshal entity

def pnrModelToEntity (json : PNRJson) (model : Bytes) : Except Error PNR :=
  json.Unmarshal model

def getPNRCompositeKey (env : Env) (id : String) : Except Error CompositeKey :=
  CreateCompositeKey env pnrObjectType id

/-- The adapter of one invocation: the host behaviour standing for `ctx`,
and the codec. The ledger is passed to each method. -/
structure PublicLedgerRepository where
  env : Env
  json : PNRJson

namespace PublicLedgerRepository

def PNRExists (r : PublicLedgerRepository) (l : Ledger) (id : String) : Except Error Bool :=
  match getPNRCompositeKey r.env id with
  | .error err => .error err
  | .ok key =>
    match l.GetState r.env key with
    | .error err => .error err
    | .ok pnrModel => .ok pnrModel.isSome

def GetPNR (r : PublicLedgerRepository) (l : Ledger) (id : String) : Except Error PNR :=
  match getPNRCompositeKey r.env id with
  | .error err => .error err
  | .ok key =>
    match l.GetState r.env key with
    | .error err => .error err
    | .ok pnrModel =>
      if !pnrModel.isSome then .error (Error.new "PNR not found")
      else pnrModelToEntity r.json (modelBytes pnrModel)

def UpdatePNR (r : PublicLedgerRepository) (l : Ledger) (id : String) (pnr : PNR) :
    Ledger × Option Error :=
  if !existsOrFalse (r.PNRExists l id) then (l, some (Error.new "PNR does not exist"))
  else
    match getPNRCompositeKey r.env id with
    | .error err => (l, some err)
    | .ok key =>
      match pnrEntityToModel r.json pnr with
      | .error err => (l, some err)
      | .ok pnrModel => l.PutState r.env key pnrModel

def UpdateLocalPNR (r : PublicLedgerRepository) (l : Ledger) (id : String) (pnr : PNR) :
    Ledger × Option Error :=
  r.UpdatePNR l id pnr

/-- The call `r.UpdatePNR(id, pnr)` is a statement: its error is not looked at. -/
def PurgePNRData (r : PublicLedgerRepository) (l : Ledger) (id : String) :
    Ledger × Option Error :=
  match r.GetPNR l id with
  | .error err => (l, some err)
  | .ok pnr =>
    let pnr := { pnr with RequestData := "", ResponseData := "" }
    ((r.UpdatePNR l id pnr).1, none)

def PurgeLocalPNRData (r : PublicLedgerRepository) (l : Ledger) (id : String) :
    Ledger × Option Error :=
  r.PurgePNRData l id

end PublicLedgerRepository

/-- A public-ledger adapter over a host on which every `PutState` fails; the
codec knows `ackRequest` and its purged form. -/
def failingPutRepository : PublicLedgerRepository :=
  { env := { fixtureEnv with putStateError := fun _ => some (Error.new "PutState failed") }
    json :=
      { Marshal := tableMarshal
          [(ackRequest, [30]), ({ ackRequest with RequestData := "", ResponseData := "" }, [31])]
        Unmarshal := tableUnmarshal
          [(ackRequest, [30]), ({ ackRequest with RequestData := "", ResponseData := "" }, [31])] } }

/-- The public state that holds `ackRequest` under its key. -/
def ledgerPublicAck : Ledger :=
  { state := (∅ : AList (fun _ : CompositeKey => Bytes)).insert ⟨"pnr", "someId"⟩ [30]
    privateData := ∅ }

/-! ## Specification-side definitions for the GC timestamp -/

/-- The PNR id and the response document of the call, if the call is a
successful response submission. -/
def respondedDoc (lib : Libs) (caller : String) (r : InMemoryRepository) :
    Op → List (String × String)
  | .SubmitPNRResponseAck input =>
    if (invoke lib caller r (.SubmitPNRResponseAck input)).2 = none then
      [(input.Id, OptionalMessage input.ResponseData)]
    else []
  | .SubmitPNRResponseNack input =>
    if (invoke lib caller r (.SubmitPNRResponseNack input)).2 = none then
      [(input.Id, OptionalMessage input.ResponseData)]
    else []
  | _ => []

/-- Reachable states together with their history: `hist` lists, latest first,
the PNR id and the response document of every response submission that has
succeeded so far. -/
inductive ReachableWithResponses (lib : Libs) :
    InMemoryRepository → List (String × String) → Prop
  | init : ReachableWithResponses lib NewInMemoryRepository []
  | step {r : InMemoryRepository} {hist : List (String × String)} (caller : String) (op : Op) :
      ReachableWithResponses lib r hist →
      ReachableWithResponses lib (invoke lib caller r op).1 (respondedDoc lib caller r op ++ hist)

/-- The response document submitted for the PNR `id`, if any. -/
def lastResponse (hist : List (String × String)) (id : String) : Option String :=
  (hist.find? (fun e => decide (e.1 = id))).map Prod.snd

/-- The creation timestamp that the specification gives the GC row of the PNR
`p` stored under `k`: the request timestamp while no response has been
submitted, afterwards the earliest of the request timestamp and the
`created_on` timestamps of the sub-records of the submitted response. -/
def specGCTimestamp (lib : Libs) (hist : List (String × String)) (k : String) (p : PNR) : Time :=
  match lastResponse hist k with
  | none => p.RequestTimestamp
  | some doc => (createdOnTimes lib doc).foldl earlier p.RequestTimestamp

/-- The invariant of the GC timestamps: a PNR that is `Pending` or
`PendingConfirmed` has no submitted response, every GC row carries the
timestamp of the specification, and only stored PNRs have a submitted
response. -/
def GcInv (lib : Libs) (r : InMemoryRepository) (hist : List (String × String)) : Prop :=
  (∀ k p, r.pnrs.lookup k = some p →
      ((p.State = RequestStatePending ∨ p.State = RequestStatePendingConfirmed) →
        lastResponse hist k = none) ∧
      ∀ g, r.gcMetadatas.lookup k = some g →
        g.CreationTimestamp = specGCTimestamp lib hist k p)
    ∧ ∀ k, r.pnrs.lookup k = none → lastResponse hist k = none

/-- Run a list of calls in order, collecting the history of the submitted
response documents. -/
def runCallsResponses (lib : Libs) :
    List (String × Op) → InMemoryRepository × List (String × String) →
      InMemoryRepository × List (String × String)
  | [], st => st
  | (caller, op) :: rest, st =>
    runCallsResponses lib rest ((invoke lib caller st.1 op).1, respondedDoc lib caller st.1 op ++ st.2)

/-- Both register, `piu1` requests from `piu2`, `piu2` confirms and submits the
response document `doc`. -/
def respondedCalls : List (String × Op) :=
  [("piu2", .SetPIUInfo ⟨"PIU 2", "admin@piu2.org"⟩),
   ("piu1", .SetPIUInfo ⟨"PIU 1", "admin@piu1.org"⟩),
   ("piu1", .NewPNRRequest someNewRequest),
   ("piu2", .ConfirmPNR ⟨"pnr1"⟩),
   ("piu2", .SubmitPNRResponseAck ⟨"pnr1", LatestTimestamp, some "doc"⟩)]

/-! ## Fixtures for two parties over the private collections -/

/-- The request `pendingPNR` after the responder's confirmation. -/
def pendingConfirmedPNR : PNR := { pendingPNR with State := RequestStatePendingConfirmed }

/-- The host of `fixtureEnv` with a codec that also knows the metadata of
`pendingConfirmedPNR`. -/
def peerEnv : Env :=
  { fixtureEnv with
    marshalPNRMeta := fun m =>
      if m = pnrEntityToMetaEntity pendingConfirmedPNR then .ok [15]
      else fixtureEnv.marshalPNRMeta m
    unmarshalPNRMeta := fun b =>
      if b = [15] then .ok (pnrEntityToMetaEntity pendingConfirmedPNR)
      else fixtureEnv.unmarshalPNRMeta b }

/-- The ledger after the requester `piu1` has terminated `pnr1`: the PNR was
stored `Pending` in the collections of `piu1` and `piu2`. -/
def ledgerTerminatedByPiu1 : Ledger :=
  ((LedgerUsecaseFactory.New peerEnv "piu1").TerminatePNRRequest ledgerPending ⟨"pnr1"⟩).1

/-- The ledger after the responder `piu2` has then confirmed `pnr1`. -/
def ledgerConfirmedByPeer : Ledger :=
  ((LedgerUsecaseFactory.New peerEnv "piu2").ConfirmPNR ledgerTerminatedByPiu1 ⟨"pnr1"⟩).1

/-- Both register, `piu1` requests from `piu2` and `piu2` confirms: the PNR
`pnr1` is `PendingConfirmed` and waits for the response of `piu2`. -/
def confirmedCalls : List (String × Op) :=
  [("piu2", .SetPIUInfo ⟨"PIU 2", "admin@piu2.org"⟩),
   ("piu1", .SetPIUInfo ⟨"PIU 1", "admin@piu1.org"⟩),
   ("piu1", .NewPNRRequest someNewRequest),
   ("piu2", .ConfirmPNR ⟨"pnr1"⟩)]

/-! ## Sequences of usecase operations over the private collections -/

/-- One invocation over the ledger: `caller` runs `op` through the usecase that
`LedgerUsecaseFactory.New` builds for it. The result is the ledger after the
call and the error returned. -/
def invokeLedger (env : Env) (lib : Libs) (caller : String) (l : Ledger) :
    Op → Ledger × Option Error
  | .SetPIUInfo input =>
    (((LedgerUsecaseFactory.New env caller).SetPIUInfo l input).1,
      errorOf ((LedgerUsecaseFactory.New env caller).SetPIUInfo l input).2)
  | .GetPIUs input =>
    (((LedgerUsecaseFactory.New env caller).GetPIUs l input).1,
      errorOf ((LedgerUsecaseFactory.New env caller).GetPIUs l input).2)
  | .GetPNRs input =>
    (((LedgerUsecaseFactory.New env caller).GetPNRs l input).1,
      errorOf ((LedgerUsecaseFactory.New env caller).GetPNRs l input).2)
  | .NewPNRRequest input =>
    (((LedgerUsecaseFactory.New env caller).NewPNRRequest l input).1,
      errorOf ((LedgerUsecaseFactory.New env caller).NewPNRRequest l input).2)
  | .SubmitPNRResponseAck input =>
    (((LedgerUsecaseFactory.New env caller).SubmitPNRResponseAck lib l input).1,
      errorOf ((LedgerUsecaseFactory.New env caller).SubmitPNRResponseAck lib l input).2)
  | .SubmitPNRResponseNack input =>
    (((LedgerUsecaseFactory.New env caller).SubmitPNRResponseNack lib l input).1,
      errorOf ((LedgerUsecaseFactory.New env caller).SubmitPNRResponseNack lib l input).2)
  | .ConfirmPNR input =>
    (((LedgerUsecaseFactory.New env caller).ConfirmPNR l input).1,
      errorOf ((LedgerUsecaseFactory.New env caller).ConfirmPNR l input).2)
  | .TerminatePNRRequest input =>
    (((LedgerUsecaseFactory.New env caller).TerminatePNRRequest l input).1,
      errorOf ((LedgerUsecaseFactory.New env caller).TerminatePNRRequest l input).2)

/-- Run a list of calls (caller, operation) over the ledger in order; the
second component lists the errors returned, latest first. -/
def runLedgerCalls (env : Env) (lib : Libs) :
    List (String × Op) → Ledger × List (Option Error) → Ledger × List (Option Error)
  | [], st => st
  | (caller, op) :: rest, st =>
    runLedgerCalls env lib rest
      ((invokeLedger env lib caller st.1 op).1, (invokeLedger env lib caller st.1 op).2 :: st.2)

/-- The request `pendingPNR` after the response of `ackConfirmedCalls`. -/
def ackPNR : PNR :=
  { pendingPNR with
    ResponseTimestamp := LatestTimestamp
    State := RequestStateAck
    ResponseData := "\"test response data\"" }

/-- A request of a third PIU, `piu3`, to `piu1` under the id `pnr1`, which
`piu1` and `piu2` already use. -/
def thirdPartyRequest : NewPNRRequestInput :=
  { Id := "pnr1"
    RespondingPIU := "piu1"
    RequestTimestamp := MiddleTimestamp
    RequestData := some "\"secret\"" }

/-- The PNR that `thirdPartyRequest` creates for the caller `piu3`. -/
def thirdPartyPNR : PNR :=
  { Id := "pnr1"
    RequestingPIU := "piu3"
    RespondingPIU := "piu1"
    RequestTimestamp := MiddleTimestamp
    ResponseTimestamp := Time.zero
    State := RequestStatePending
    RequestData := "\"secret\""
    ResponseData := ""
    PNRHashes := [] }

/-- A host without faults whose codec knows the two PIUs, the GC row and every
PNR row of `ackConfirmedCalls` and of `thirdPartyRequest`. -/
def threePartyEnv : Env :=
  tableEnv
    [(⟨"piu2", "PIU 2", "admin@piu2.org"⟩, [41]), (⟨"piu1", "PIU 1", "admin@piu1.org"⟩, [40])]
    [(pendingGC, [1])]
    [(pnrEntityToMetaEntity pendingPNR, [10]),
     (pnrEntityToMetaEntity pendingConfirmedPNR, [15]),
     (pnrEntityToMetaEntity ackPNR, [17]),
     (pnrEntityToMetaEntity ackConfirmedPNR, [14]),
     (pnrEntityToMetaEntity thirdPartyPNR, [16])]
    [(pnrEntityToDataEntity pendingPNR, [20]),
     (pnrEntityToDataEntity ackPNR, [21]),
     (pnrEntityToDataEntity thirdPartyPNR, [23])]

/-- The ledger after `ackConfirmedCalls` over the private collections: `pnr1`
has reached `AckConfirmed` in the collections of `piu1` and `piu2`. -/
def ledgerAfterAckConfirmed : Ledger :=
  (runLedgerCalls threePartyEnv noRecordLibs ackConfirmedCalls (emptyLedger, [])).1

/-- The ledger after `piu3` has then sent `thirdPartyRequest`. -/
def ledgerAfterThirdParty : Ledger :=
  (invokeLedger threePartyEnv noRecordLibs "piu3" ledgerAfterAckConfirmed
    (.NewPNRRequest thirdPartyRequest)).1

/-! ## Theorems -/

section ConfirmPNR

open RMTUsecase

theorem inMemory_GetPNR_eq (r : InMemoryRepository) (id : String) :
    inMemory.GetPNR r id
      = match r.pnrs.lookup id with
        | none => .error (Error.new "PNR not found")
        | some entity => .ok entity := rfl

theorem inMemory_UpdatePNR_of_lookup (r : InMemoryRepository) (id : String) (p q : PNR)
    (h : r.pnrs.lookup id = some p) :
    inMemory.UpdatePNR r id q = ({ r with pnrs := r.pnrs.insert id q }, none) := by
  simp [inMemory, InMemoryRepository.UpdatePNR, h]

theorem inMemory_PurgePNRData_of_lookup (r : InMemoryRepository) (id : String) (p : PNR)
    (h : r.pnrs.lookup id = some p) :
    inMemory.PurgePNRData r id
      = ({ r with pnrs := r.pnrs.insert id { p with RequestData := "", ResponseData := "" } },
          none) := by
  simp [inMemory, InMemoryRepository.PurgePNRData, InMemoryRepository.GetPNR,
    InMemoryRepository.UpdatePNR, h]

/-- C1: over the in-memory repository, when the stored PNR (if any) is in one of
the seven named states, `ConfirmPNR` succeeds exactly when the PNR exists and
either it is `Pending` and the caller is the responder, or it is `Ack`/`Nack`
and the caller is the requester; in every other case the result is an error
wrapped with `InvalidArgument`. -/
theorem ConfirmPNR_succeeds_iff (caller : String) (r : InMemoryRepository)
    (input : ConfirmPNRInput)
    (hstate : ∀ p, r.pnrs.lookup input.Id = some p → IsNamedState p.State) :
    (((NewRMTUsecase caller inMemory).ConfirmPNR r input).2 = .ok {} ↔
      ∃ p, r.pnrs.lookup input.Id = some p ∧
        ((p.State = RequestStatePending ∧ caller = p.RespondingPIU) ∨
         ((p.State = RequestStateAck ∨ p.State = RequestStateNack) ∧
            caller = p.RequestingPIU))) ∧
    (((NewRMTUsecase caller inMemory).ConfirmPNR r input).2 ≠ .ok {} →
      ∃ e, ((NewRMTUsecase caller inMemory).ConfirmPNR r input).2 = .error e ∧
        e.hasCode Status.InvalidArgument) := by
  cases hl : r.pnrs.lookup input.Id with
  | none =>
    simp [ConfirmPNR, NewRMTUsecase, inMemory_GetPNR_eq, hl, Error.hasCode]
  | some p =>
    have hs := hstate p hl
    have hupd := fun q => inMemory_UpdatePNR_of_lookup r input.Id p q hl
    obtain ⟨id, rq, rs, t1, t2, st, d1, d2, hashes⟩ := p
    simp only [IsNamedState] at hs
    rcases hs with h | h | h | h | h | h | h <;> subst h <;>
      rcases eq_or_ne caller rq with h1 | h1 <;>
      rcases eq_or_ne caller rs with h2 | h2 <;>
      (try subst h1) <;> (try subst h2) <;>
      simp [ConfirmPNR, confirmPNRSwitch, isThisPIU, NewRMTUsecase, inMemory_GetPNR_eq, hl,
        hupd, GetConfirmedState, Error.hasCode, inMemory_PurgePNRData_of_lookup,
        RequestStatePending, RequestStatePendingConfirmed, RequestStateAck,
        RequestStateAckConfirmed, RequestStateNack, RequestStateNackConfirmed,
        RequestStateTerminated, *]

theorem lookup_repoWith (state : RequestState) :
    (repoWith state).pnrs.lookup "someId" = some (someRequest state) :=
  AList.lookup_insert _

/-- Witness for C1: the responder `piu1` confirms the `Pending` request. -/
theorem ConfirmPNR_succeeds_iff_witness :
    (∀ p, (repoWith RequestStatePending).pnrs.lookup "someId" = some p → IsNamedState p.State) ∧
    ((NewRMTUsecase "piu1" inMemory).ConfirmPNR (repoWith RequestStatePending) ⟨"someId"⟩).2
      = .ok {} :=
  have h : ∀ p, (repoWith RequestStatePending).pnrs.lookup "someId" = some p →
      IsNamedState p.State := by
    intro p hp
    rw [lookup_repoWith] at hp
    cases hp
    exact Or.inl rfl
  ⟨h, (ConfirmPNR_succeeds_iff "piu1" (repoWith RequestStatePending) ⟨"someId"⟩ h).1.2
    ⟨someRequest RequestStatePending, lookup_repoWith _, Or.inl ⟨rfl, rfl⟩⟩⟩

/-- C2: when `ConfirmPNR` succeeds on the in-memory repository, the PNR stored
under `input.Id` afterwards is the one stored before with `State` replaced by
`GetConfirmedState` of the old state and, exactly when that new state is
`AckConfirmed` or `NackConfirmed`, `RequestData` and `ResponseData` emptied;
from `Pending` the payload is kept. Every other field, every other PNR, the
PIUs and the GC rows are unchanged. -/
theorem ConfirmPNR_stored_after (caller : String) (r : InMemoryRepository)
    (input : ConfirmPNRInput)
    (hok : ((NewRMTUsecase caller inMemory).ConfirmPNR r input).2 = .ok {}) :
    ∃ p, r.pnrs.lookup input.Id = some p ∧
      ((NewRMTUsecase caller inMemory).ConfirmPNR r input).1.pnrs.lookup input.Id
        = some (if GetConfirmedState p.State = RequestStateAckConfirmed
                    ∨ GetConfirmedState p.State = RequestStateNackConfirmed then
                  { p with State := GetConfirmedState p.State
                           RequestData := ""
                           ResponseData := "" }
                else { p with State := GetConfirmedState p.State }) ∧
      (p.State = RequestStatePending →
        ((NewRMTUsecase caller inMemory).ConfirmPNR r input).1.pnrs.lookup input.Id
          = some { p with State := RequestStatePendingConfirmed }) ∧
      (∀ k, k ≠ input.Id →
        ((NewRMTUsecase caller inMemory).ConfirmPNR r input).1.pnrs.lookup k
          = r.pnrs.lookup k) ∧
      ((NewRMTUsecase caller inMemory).ConfirmPNR r input).1.pius = r.pius ∧
      ((NewRMTUsecase caller inMemory).ConfirmPNR r input).1.gcMetadatas = r.gcMetadatas := by
  cases hl : r.pnrs.lookup input.Id with
  | none =>
    simp [ConfirmPNR, NewRMTUsecase, inMemory_GetPNR_eq, hl] at hok
  | some p =>
    have hupd := fun q => inMemory_UpdatePNR_of_lookup r input.Id p q hl
    refine ⟨p, rfl, ?_⟩
    revert hok
    simp only [ConfirmPNR, NewRMTUsecase, inMemory_GetPNR_eq, hl, hupd]
    split
    · intro hok
      simp at hok
    · split
      · intro hok
        simp at hok
      · intro _
        have hne : ∀ (k : String) (q : PNR), k ≠ input.Id →
            AList.lookup k (AList.insert input.Id q r.pnrs) = AList.lookup k r.pnrs :=
          fun k q hk => AList.lookup_insert_ne hk
        by_cases hc : GetConfirmedState p.State = RequestStateAckConfirmed
            ∨ GetConfirmedState p.State = RequestStateNackConfirmed
        · have hp : p.State ≠ RequestStatePending := by
            intro h
            simp [h, GetConfirmedState, RequestStatePendingConfirmed, RequestStateAckConfirmed,
              RequestStateNackConfirmed] at hc
          simp [hc, hp, inMemory_PurgePNRData_of_lookup]
          exact fun k hk => hne k _ hk
        · simp [hc]
          exact ⟨fun h => by simp [h, GetConfirmedState], fun k hk => hne k _ hk⟩

/-- Witness for C2: the requester `piu2` confirms the `Ack` request. -/
theorem ConfirmPNR_stored_after_witness :
    ((NewRMTUsecase "piu2" inMemory).ConfirmPNR (repoWith RequestStateAck) ⟨"someId"⟩).1.pnrs.lookup
        "someId"
      = some { someRequest RequestStateAck with
          State := RequestStateAckConfirmed, RequestData := "", ResponseData := "" } := by
  obtain ⟨p, hp, h, -⟩ :=
    ConfirmPNR_stored_after "piu2" (repoWith RequestStateAck) ⟨"someId"⟩ (by decide)
  rw [lookup_repoWith] at hp
  cases hp
  rw [h]
  decide

end ConfirmPNR

section SubmitPNRResponse

open RMTUsecase

theorem inMemory_GetGCMetadata_eq (r : InMemoryRepository) (id : String) :
    inMemory.GetGCMetadata r id
      = match r.gcMetadatas.lookup id with
        | none => .error (Error.new "PNR GC metadata not found")
        | some entity => .ok entity := rfl

theorem inMemory_UpdateGCMetadata_eq (r : InMemoryRepository) (pnr : PNR) (gc : GCMetadata) :
    inMemory.UpdateGCMetadata r pnr gc
      = if !(r.gcMetadatas.lookup pnr.Id).isSome then
          (r, some (Error.new "PNR GC metadata does not exist"))
        else ({ r with gcMetadatas := r.gcMetadatas.insert pnr.Id gc }, none) := rfl

/-- The PNR written by a response submission. -/
theorem submitPNRResponse_ok (lib : Libs) (caller : String) (response : RequestState)
    (r : InMemoryRepository) (input : SubmitPNRResponseInput)
    (hok : ((NewRMTUsecase caller inMemory).submitPNRResponse lib response r input).2 = .ok {}) :
    ∃ p gc hashes ts,
      r.pnrs.lookup input.Id = some p ∧ caller = p.RespondingPIU ∧
      p.State = RequestStatePendingConfirmed ∧
      r.gcMetadatas.lookup input.Id = some gc ∧
      (r.gcMetadatas.lookup p.Id).isSome = true ∧
      submitPNRResponseLoop lib (extractedRecords lib (OptionalMessage input.ResponseData)) []
        gc.CreationTimestamp = .ok (hashes, ts) ∧
      ((NewRMTUsecase caller inMemory).submitPNRResponse lib response r input).1
        = { pius := r.pius
            pnrs := r.pnrs.insert input.Id
              { p with
                ResponseTimestamp := input.ResponseTimestamp
                State := response
                ResponseData := OptionalMessage input.ResponseData
                PNRHashes := hashes }
            gcMetadatas := r.gcMetadatas.insert p.Id { gc with CreationTimestamp := ts } } := by
  revert hok
  cases hl : r.pnrs.lookup input.Id with
  | none => simp [submitPNRResponse, NewRMTUsecase, inMemory_GetPNR_eq, hl]
  | some p =>
    have hupd := fun q => inMemory_UpdatePNR_of_lookup r input.Id p q hl
    by_cases h1 : caller = p.RespondingPIU
    swap
    · simp [submitPNRResponse, NewRMTUsecase, inMemory_GetPNR_eq, hl, isThisPIU, h1]
    by_cases h2 : p.State = RequestStatePendingConfirmed
    swap
    · simp [submitPNRResponse, NewRMTUsecase, inMemory_GetPNR_eq, hl, isThisPIU, h1, h2]
    cases hg : r.gcMetadatas.lookup input.Id with
    | none =>
      simp [submitPNRResponse, NewRMTUsecase, inMemory_GetPNR_eq, hl, isThisPIU, h1, h2,
        inMemory_GetGCMetadata_eq, hg]
    | some gc =>
      cases hloop : submitPNRResponseLoop lib
          (extractedRecords lib (OptionalMessage input.ResponseData)) [] gc.CreationTimestamp with
      | error e =>
        simp only [extractedRecords] at hloop
        simp [submitPNRResponse, NewRMTUsecase, inMemory_GetPNR_eq, hl, isThisPIU, h1, h2,
          inMemory_GetGCMetadata_eq, hg, hloop]
      | ok res =>
        obtain ⟨hashes, ts⟩ := res
        have hloop0 := hloop
        simp only [extractedRecords] at hloop
        by_cases hg2 : (r.gcMetadatas.lookup p.Id).isSome = true
        · intro _
          refine ⟨p, gc, hashes, ts, rfl, h1, h2, rfl, hg2, hloop0, ?_⟩
          simp [submitPNRResponse, NewRMTUsecase, inMemory_GetPNR_eq, hl, isThisPIU, h1, h2,
            inMemory_GetGCMetadata_eq, hg, hloop, hupd, inMemory_UpdateGCMetadata_eq, hg2]
        · simp [submitPNRResponse, NewRMTUsecase, inMemory_GetPNR_eq, hl, isThisPIU, h1, h2,
            inMemory_GetGCMetadata_eq, hg, hloop, hupd, inMemory_UpdateGCMetadata_eq, hg2]

theorem submitPNRResponseLoop_ok (lib : Libs) :
    ∀ (recs : List GjsonResult) (hs : List String) (ts : Time) (hashes : List String)
      (ts' : Time), submitPNRResponseLoop lib recs hs ts = .ok (hashes, ts') →
      ∃ new, hashes = hs ++ new ∧
        recs.map (specRecordHash lib) = new.map Except.ok ∧
        ts' = (recs.filterMap (specCreatedOn lib)).foldl earlier ts ∧
        ∀ e ∈ recs, ¬ jcsFails lib e ∧ ¬ createdOnUnparsable lib e := by
  intro recs
  induction recs with
  | nil =>
    intro hs ts hashes ts' h
    simp only [submitPNRResponseLoop, Except.ok.injEq, Prod.mk.injEq] at h
    exact ⟨[], by simp [h.1], by simp, by simp [h.2], by simp⟩
  | cons record rest ih =>
    intro hs ts hashes ts' h
    rw [submitPNRResponseLoop] at h
    cases hj : lib.jcs_Transform record.Raw with
    | error err => simp [hj] at h
    | ok canonical =>
      simp only [hj] at h
      have hnj : ¬ jcsFails lib record := by simp [jcsFails, hj]
      have hsh : specRecordHash lib record
          = .ok (hex_EncodeToString (lib.sha256_Sum256 canonical).val) := by
        simp [specRecordHash, hj]
      by_cases hex : lib.gjson_Exists (lib.gjson_ResultGet record creationTimeJSONKey) = true
      · simp only [hex, if_true] at h
        cases hp : lib.time_Parse (lib.gjson_ResultGet record creationTimeJSONKey).Str with
        | error err => simp [hp] at h
        | ok t =>
          simp only [hp] at h
          have hnc : ¬ createdOnUnparsable lib record := by simp [createdOnUnparsable, hp]
          have hco : specCreatedOn lib record = some t := by simp [specCreatedOn, hex, hp]
          have h' : submitPNRResponseLoop lib rest
              (hs ++ [hex_EncodeToString (lib.sha256_Sum256 canonical).val]) (earlier ts t)
                = .ok (hashes, ts') := by
            unfold earlier
            split at h <;> simp_all
          obtain ⟨new, h1, h2, h3, h4⟩ := ih _ _ _ _ h'
          refine ⟨hex_EncodeToString (lib.sha256_Sum256 canonical).val :: new, ?_, ?_, ?_, ?_⟩
          · simp [h1]
          · simp [hsh, h2]
          · simp [List.filterMap_cons, hco, h3]
          · intro e he
            rcases List.mem_cons.1 he with rfl | he
            · exact ⟨hnj, hnc⟩
            · exact h4 e he
      · simp only [hex] at h
        have hnc : ¬ createdOnUnparsable lib record := by simp [createdOnUnparsable, hex]
        have hco : specCreatedOn lib record = none := by simp [specCreatedOn, hex]
        obtain ⟨new, h1, h2, h3, h4⟩ := ih _ _ _ _ h
        refine ⟨hex_EncodeToString (lib.sha256_Sum256 canonical).val :: new, ?_, ?_, ?_, ?_⟩
        · simp [h1]
        · simp [hsh, h2]
        · simp [List.filterMap_cons, hco, h3]
        · intro e he
          rcases List.mem_cons.1 he with rfl | he
          · exact ⟨hnj, hnc⟩
          · exact h4 e he

/-- Every error leaving the loop is wrapped with `InvalidArgument`. -/
theorem submitPNRResponseLoop_error_code (lib : Libs) :
    ∀ (recs : List GjsonResult) (hs : List String) (ts : Time) (err : Error),
      submitPNRResponseLoop lib recs hs ts = .error err → err.hasCode Status.InvalidArgument := by
  intro recs
  induction recs with
  | nil =>
    intro hs ts err h
    simp [submitPNRResponseLoop] at h
  | cons record rest ih =>
    intro hs ts err h
    rw [submitPNRResponseLoop] at h
    split at h
    · simp only [Except.error.injEq] at h
      exact ⟨_, h.symm⟩
    · simp only at h
      split at h
      · split at h
        · simp only [Except.error.injEq] at h
          exact ⟨_, h.symm⟩
        · split at h <;> exact ih _ _ _ h
      · exact ih _ _ _ h

/-- A sub-record that does not canonicalize, or whose `created_on` does not
parse, makes the loop return an error. -/
theorem submitPNRResponseLoop_fails (lib : Libs) :
    ∀ (recs : List GjsonResult) (hs : List String) (ts : Time),
      (∃ e ∈ recs, jcsFails lib e ∨ createdOnUnparsable lib e) →
      ∃ err, submitPNRResponseLoop lib recs hs ts = .error err := by
  intro recs hs ts hbad
  cases h : submitPNRResponseLoop lib recs hs ts with
  | error err => exact ⟨err, rfl⟩
  | ok res =>
    obtain ⟨hashes, ts'⟩ := res
    obtain ⟨_, _, _, _, h4⟩ := submitPNRResponseLoop_ok lib recs hs ts hashes ts' h
    obtain ⟨e, he, hf⟩ := hbad
    rcases hf with hf | hf
    · exact absurd hf (h4 e he).1
    · exact absurd hf (h4 e he).2

theorem hextable_getD_mem (i : Nat) : hextable.getD i '0' ∈ hextable := by
  rcases Nat.lt_or_ge i 16 with h | h
  · interval_cases i <;> decide
  · rw [List.getD_eq_default _ _ (by simpa [hextable] using h)]
    decide

theorem hex_Encode_length (src : List Byte) : (hex_Encode src).length = 2 * src.length := by
  induction src with
  | nil => rfl
  | cons v rest ih => simp [hex_Encode, ih]; omega

theorem hex_Encode_mem (src : List Byte) : ∀ c ∈ hex_Encode src, c ∈ hextable := by
  induction src with
  | nil => simp [hex_Encode]
  | cons v rest ih =>
    intro c hc
    simp only [hex_Encode, List.mem_cons] at hc
    rcases hc with rfl | rfl | hc
    · exact hextable_getD_mem _
    · exact hextable_getD_mem _
    · exact ih c hc

/-- The hex encoding of a digest is 64 characters from `0-9a-f`. -/
theorem hex_EncodeToString_digest (d : Digest) :
    (hex_EncodeToString d.val).length = 64 ∧
      ∀ c ∈ (hex_EncodeToString d.val).toList, c ∈ hextable := by
  constructor
  · simp [hex_EncodeToString, String.length, hex_Encode_length, d.property]
  · intro c hc
    exact hex_Encode_mem d.val c (by simpa [hex_EncodeToString] using hc)

/-- C3: for `SubmitPNRResponseAck` and `SubmitPNRResponseNack` over the
in-memory repository, if no PNR is stored under `input.Id`, or the caller is
not its responder, or its state is not `PendingConfirmed`, the call returns an
error wrapped with `InvalidArgument` and the repository is unchanged. -/
theorem SubmitPNRResponse_precondition_error (lib : Libs) (caller : String)
    (r : InMemoryRepository) (input : SubmitPNRResponseInput)
    (hpre : r.pnrs.lookup input.Id = none ∨
      ∃ p, r.pnrs.lookup input.Id = some p ∧
        (caller ≠ p.RespondingPIU ∨ p.State ≠ RequestStatePendingConfirmed)) :
    (∃ e, (NewRMTUsecase caller inMemory).SubmitPNRResponseAck lib r input = (r, .error e) ∧
      e.hasCode Status.InvalidArgument) ∧
    (∃ e, (NewRMTUsecase caller inMemory).SubmitPNRResponseNack lib r input = (r, .error e) ∧
      e.hasCode Status.InvalidArgument) := by
  rcases hpre with hl | ⟨p, hl, hp⟩
  · simp [SubmitPNRResponseAck, SubmitPNRResponseNack, submitPNRResponse, NewRMTUsecase,
      inMemory_GetPNR_eq, hl, Error.hasCode]
  · by_cases h1 : caller = p.RespondingPIU
    · have h2 : p.State ≠ RequestStatePendingConfirmed := by
        rcases hp with hp | hp
        · exact absurd h1 hp
        · exact hp
      simp [SubmitPNRResponseAck, SubmitPNRResponseNack, submitPNRResponse, NewRMTUsecase,
        inMemory_GetPNR_eq, hl, Error.hasCode, isThisPIU, h1, h2]
    · simp [SubmitPNRResponseAck, SubmitPNRResponseNack, submitPNRResponse, NewRMTUsecase,
        inMemory_GetPNR_eq, hl, Error.hasCode, isThisPIU, h1]

/-- Witness for C3: the requester `piu2` tries to respond to its own request. -/
theorem SubmitPNRResponse_precondition_error_witness :
    (∃ e, (NewRMTUsecase "piu2" inMemory).SubmitPNRResponseAck twoRecordLibs
        (repoWith RequestStatePendingConfirmed) someResponse
          = (repoWith RequestStatePendingConfirmed, .error e) ∧
      e.hasCode Status.InvalidArgument) :=
  (SubmitPNRResponse_precondition_error twoRecordLibs "piu2"
    (repoWith RequestStatePendingConfirmed) someResponse
    (Or.inr ⟨someRequest RequestStatePendingConfirmed, lookup_repoWith _,
      Or.inl (by decide)⟩)).1

/-- C4: when a response submission succeeds, the PNR was `PendingConfirmed`,
the caller is its responder and a GC row is stored under `input.Id`; the PNR
stored afterwards has state `Ack` (for `SubmitPNRResponseAck`) or `Nack` (for
`SubmitPNRResponseNack`), the input's response timestamp and, as
`ResponseData`, the payload text of the input verbatim (the empty string when
the input carries no payload), and keeps `Id`, `RequestingPIU`,
`RespondingPIU`, `RequestTimestamp` and `RequestData`. -/
theorem SubmitPNRResponse_stored_pnr (lib : Libs) (caller : String)
    (r : InMemoryRepository) (input : SubmitPNRResponseInput) :
    (((NewRMTUsecase caller inMemory).SubmitPNRResponseAck lib r input).2 = .ok {} →
      ∃ p q, r.pnrs.lookup input.Id = some p ∧ p.State = RequestStatePendingConfirmed ∧
        caller = p.RespondingPIU ∧ (r.gcMetadatas.lookup input.Id).isSome = true ∧
        ((NewRMTUsecase caller inMemory).SubmitPNRResponseAck lib r input).1.pnrs.lookup
          input.Id = some q ∧
        IsResponseTo p q RequestStateAck input) ∧
    (((NewRMTUsecase caller inMemory).SubmitPNRResponseNack lib r input).2 = .ok {} →
      ∃ p q, r.pnrs.lookup input.Id = some p ∧ p.State = RequestStatePendingConfirmed ∧
        caller = p.RespondingPIU ∧ (r.gcMetadatas.lookup input.Id).isSome = true ∧
        ((NewRMTUsecase caller inMemory).SubmitPNRResponseNack lib r input).1.pnrs.lookup
          input.Id = some q ∧
        IsResponseTo p q RequestStateNack input) := by
  constructor
  · intro hok
    obtain ⟨p, gc, hashes, ts, hl, h1, h2, hg, -, -, hres⟩ :=
      submitPNRResponse_ok lib caller _ r input hok
    refine ⟨p, { p with
        ResponseTimestamp := input.ResponseTimestamp
        State := RequestStateAck
        ResponseData := OptionalMessage input.ResponseData
        PNRHashes := hashes }, hl, h2, h1, by simp [hg], ?_, ?_⟩
    · simp only [SubmitPNRResponseAck, hres]
      exact AList.lookup_insert _
    · have hmsg : OptionalMessage input.ResponseData = input.ResponseData.getD "" := by
        cases input.ResponseData <;> rfl
      simp [IsResponseTo, hmsg]
  · intro hok
    obtain ⟨p, gc, hashes, ts, hl, h1, h2, hg, -, -, hres⟩ :=
      submitPNRResponse_ok lib caller _ r input hok
    refine ⟨p, { p with
        ResponseTimestamp := input.ResponseTimestamp
        State := RequestStateNack
        ResponseData := OptionalMessage input.ResponseData
        PNRHashes := hashes }, hl, h2, h1, by simp [hg], ?_, ?_⟩
    · simp only [SubmitPNRResponseNack, hres]
      exact AList.lookup_insert _
    · have hmsg : OptionalMessage input.ResponseData = input.ResponseData.getD "" := by
        cases input.ResponseData <;> rfl
      simp [IsResponseTo, hmsg]

/-- Witness for C4: the responder `piu1` acknowledges the confirmed request
with the payload text `doc`, which is what the stored PNR then carries
(`TestSubmitPNRResponse`). -/
theorem SubmitPNRResponse_stored_pnr_witness :
    someResponse.ResponseData = some "doc" ∧
    (((NewRMTUsecase "piu1" inMemory).SubmitPNRResponseAck twoRecordLibs
        (repoWith RequestStatePendingConfirmed) someResponse).1.pnrs.lookup "someId").map
      PNR.ResponseData = some "doc" ∧
    ∃ p q, (repoWith RequestStatePendingConfirmed).pnrs.lookup someResponse.Id = some p ∧
      p.State = RequestStatePendingConfirmed ∧ "piu1" = p.RespondingPIU ∧
      ((repoWith RequestStatePendingConfirmed).gcMetadatas.lookup someResponse.Id).isSome = true ∧
      ((NewRMTUsecase "piu1" inMemory).SubmitPNRResponseAck twoRecordLibs
        (repoWith RequestStatePendingConfirmed) someResponse).1.pnrs.lookup someResponse.Id
          = some q ∧
      IsResponseTo p q RequestStateAck someResponse ∧
      q.State = RequestStateAck ∧ q.ResponseTimestamp = LatestTimestamp ∧
      q.ResponseData = "doc" ∧ q.RequestData = "\"test request data\"" :=
  ⟨rfl, by decide,
   match (SubmitPNRResponse_stored_pnr twoRecordLibs "piu1"
      (repoWith RequestStatePendingConfirmed) someResponse).1 (by decide) with
   | ⟨p, q, hp, hs, hc, hg, hq, hresp⟩ =>
     have hp2 : p = someRequest RequestStatePendingConfirmed :=
       Option.some.inj (hp.symm.trans (lookup_repoWith RequestStatePendingConfirmed))
     ⟨p, q, hp, hs, hc, hg, hq, hresp, hresp.1, hresp.2.1, hresp.2.2.1,
       by rw [hresp.2.2.2.2.2.2.2, hp2]; rfl⟩⟩

theorem earlier_nanos (a b : Time) : (earlier a b).nanos = min a.nanos b.nanos := by
  unfold earlier Time.After
  by_cases h : b.nanos < a.nanos
  · simp [h, min_eq_right (le_of_lt h)]
  · simp [h, min_eq_left (not_lt.1 h)]

theorem foldl_earlier_nanos (l : List Time) (a : Time) :
    (l.foldl earlier a).nanos = (l.map Time.nanos).foldl min a.nanos := by
  induction l generalizing a with
  | nil => rfl
  | cons t rest ih => simp [List.foldl_cons, ih, earlier_nanos]

theorem foldl_earlier_le (l : List Time) (a : Time) : (l.foldl earlier a).nanos ≤ a.nanos := by
  induction l generalizing a with
  | nil => exact le_refl _
  | cons t rest ih =>
    simp only [List.foldl_cons]
    exact le_trans (ih _) (by rw [earlier_nanos]; exact min_le_left _ _)

theorem foldl_earlier_le_of_mem (l : List Time) (a : Time) :
    ∀ t ∈ l, (l.foldl earlier a).nanos ≤ t.nanos := by
  induction l generalizing a with
  | nil => simp
  | cons u rest ih =>
    intro t ht
    simp only [List.foldl_cons]
    rcases List.mem_cons.1 ht with rfl | ht
    · exact le_trans (foldl_earlier_le rest _) (by rw [earlier_nanos]; exact min_le_right _ _)
    · exact ih _ t ht

theorem foldl_earlier_mem (l : List Time) (a : Time) : l.foldl earlier a ∈ a :: l := by
  induction l generalizing a with
  | nil => simp
  | cons u rest ih =>
    simp only [List.foldl_cons]
    have h := ih (earlier a u)
    have h2 : earlier a u = a ∨ earlier a u = u := by
      unfold earlier
      split <;> simp
    rcases List.mem_cons.1 h with h | h
    · rcases h2 with h2 | h2
      · rw [h, h2]; simp
      · rw [h, h2]; simp
    · exact List.mem_cons_of_mem _ (List.mem_cons_of_mem _ h)

/-- C5: after a successful response submission (`submitPNRResponse` with the
response state `Ack` or `Nack`), the stored `PNRHashes` is the list of
lowercase-hex(SHA-256(JCS(e))) over the elements `e` of the array extracted at
`passengerDatasets.#.passenger_obj`, in document order: the lists correspond
element by element (hence have the same length), every entry is 64 characters
from `0-9a-f`, nothing of the previous `PNRHashes` survives, and the list is
empty when the extracted array is. -/
theorem submitPNRResponse_hashes (lib : Libs) (caller : String) (response : RequestState)
    (r : InMemoryRepository) (input : SubmitPNRResponseInput)
    (hok : ((NewRMTUsecase caller inMemory).submitPNRResponse lib response r input).2 = .ok {}) :
    ∃ q, ((NewRMTUsecase caller inMemory).submitPNRResponse lib response r input).1.pnrs.lookup
        input.Id = some q ∧
      (extractedRecords lib (OptionalMessage input.ResponseData)).map (specRecordHash lib)
        = q.PNRHashes.map Except.ok ∧
      q.PNRHashes.length = (extractedRecords lib (OptionalMessage input.ResponseData)).length ∧
      (∀ h ∈ q.PNRHashes, h.length = 64 ∧ ∀ c ∈ h.toList, c ∈ hextable) ∧
      (extractedRecords lib (OptionalMessage input.ResponseData) = [] → q.PNRHashes = []) := by
  obtain ⟨p, gc, hashes, ts, hl, h1, h2, hg, -, hloop, hres⟩ :=
    submitPNRResponse_ok lib caller response r input hok
  obtain ⟨new, hnew, hmap, -, -⟩ := submitPNRResponseLoop_ok lib _ _ _ _ _ hloop
  simp only [List.nil_append] at hnew
  subst hnew
  refine ⟨_, by rw [hres]; exact AList.lookup_insert _, hmap, ?_, ?_, ?_⟩
  · have := congrArg List.length hmap
    simpa using this.symm
  · intro h hh
    have hmem : Except.ok h ∈ (extractedRecords lib (OptionalMessage input.ResponseData)).map
        (specRecordHash lib) := by
      rw [hmap]
      exact List.mem_map_of_mem _ hh
    obtain ⟨e, -, he⟩ := List.mem_map.1 hmem
    unfold specRecordHash at he
    split at he
    · simp at he
    · simp only [Except.ok.injEq] at he
      rw [← he]
      exact hex_EncodeToString_digest _
  · intro hnil
    have := congrArg List.length hmap
    rw [hnil] at this
    simpa using this.symm

/-- Witness for C5: a response with two sub-records gives two hashes. -/
theorem submitPNRResponse_hashes_witness :
    ∃ q, ((NewRMTUsecase "piu1" inMemory).submitPNRResponse twoRecordLibs RequestStateAck
        (repoWith RequestStatePendingConfirmed) someResponse).1.pnrs.lookup someResponse.Id
          = some q ∧
      (extractedRecords twoRecordLibs (OptionalMessage someResponse.ResponseData)).map
        (specRecordHash twoRecordLibs) = q.PNRHashes.map Except.ok ∧
      q.PNRHashes.length
        = (extractedRecords twoRecordLibs (OptionalMessage someResponse.ResponseData)).length ∧
      (∀ h ∈ q.PNRHashes, h.length = 64 ∧ ∀ c ∈ h.toList, c ∈ hextable) ∧
      (extractedRecords twoRecordLibs (OptionalMessage someResponse.ResponseData) = [] →
        q.PNRHashes = []) :=
  submitPNRResponse_hashes twoRecordLibs "piu1" RequestStateAck
    (repoWith RequestStatePendingConfirmed) someResponse (by decide)

/-- C6: after a successful response submission the GC row stored under the
PNR's id is the row read under `input.Id` with the same `Id` and with
`CreationTimestamp` lowered to the earliest of the old value and the
`created_on` timestamps of the extracted sub-records (every `created_on`
present has parsed): its instant is the minimum of theirs, it is one of those
times, it is never later than the old value, and it is the old value when no
sub-record carries `created_on`. In a repository whose PNRs are stored under
their own id (`p.Id = input.Id`) this is the GC row of the PNR. -/
theorem submitPNRResponse_gc_timestamp (lib : Libs) (caller : String)
    (response : RequestState) (r : InMemoryRepository) (input : SubmitPNRResponseInput)
    (hok : ((NewRMTUsecase caller inMemory).submitPNRResponse lib response r input).2 = .ok {}) :
    ∃ p g, r.pnrs.lookup input.Id = some p ∧ r.gcMetadatas.lookup input.Id = some g ∧
      ((NewRMTUsecase caller inMemory).submitPNRResponse lib response r
          input).1.gcMetadatas.lookup p.Id
        = some { Id := g.Id
                 CreationTimestamp :=
                  (createdOnTimes lib (OptionalMessage input.ResponseData)).foldl earlier
                    g.CreationTimestamp } ∧
      ((createdOnTimes lib (OptionalMessage input.ResponseData)).foldl earlier
          g.CreationTimestamp).nanos
        = ((createdOnTimes lib (OptionalMessage input.ResponseData)).map Time.nanos).foldl min
            g.CreationTimestamp.nanos ∧
      (createdOnTimes lib (OptionalMessage input.ResponseData)).foldl earlier g.CreationTimestamp
        ∈ g.CreationTimestamp :: createdOnTimes lib (OptionalMessage input.ResponseData) ∧
      ((createdOnTimes lib (OptionalMessage input.ResponseData)).foldl earlier
          g.CreationTimestamp).nanos ≤ g.CreationTimestamp.nanos ∧
      (∀ t ∈ createdOnTimes lib (OptionalMessage input.ResponseData),
        ((createdOnTimes lib (OptionalMessage input.ResponseData)).foldl earlier
          g.CreationTimestamp).nanos ≤ t.nanos) ∧
      (createdOnTimes lib (OptionalMessage input.ResponseData) = [] →
        (createdOnTimes lib (OptionalMessage input.ResponseData)).foldl earlier
          g.CreationTimestamp = g.CreationTimestamp) ∧
      (∀ e ∈ extractedRecords lib (OptionalMessage input.ResponseData),
        ¬ createdOnUnparsable lib e) := by
  obtain ⟨p, gc, hashes, ts, hl, h1, h2, hg, -, hloop, hres⟩ :=
    submitPNRResponse_ok lib caller response r input hok
  obtain ⟨new, -, -, hts, hall⟩ := submitPNRResponseLoop_ok lib _ _ _ _ _ hloop
  refine ⟨p, gc, hl, hg, ?_, foldl_earlier_nanos _ _, foldl_earlier_mem _ _,
    foldl_earlier_le _ _, foldl_earlier_le_of_mem _ _, ?_, fun e he => (hall e he).2⟩
  · rw [hres, hts]
    exact AList.lookup_insert _
  · intro h
    rw [h]
    rfl

/-- Witness for C6: the second sub-record lowers the GC timestamp. -/
theorem submitPNRResponse_gc_timestamp_witness :
    ((NewRMTUsecase "piu1" inMemory).submitPNRResponse twoRecordLibs RequestStateAck
        (repoWith RequestStatePendingConfirmed) someResponse).1.gcMetadatas.lookup "someId"
      = some { Id := "someId", CreationTimestamp := ⟨100, 0⟩ } := by
  obtain ⟨p, g, hp, hg, h, -⟩ :=
    submitPNRResponse_gc_timestamp twoRecordLibs "piu1" RequestStateAck
      (repoWith RequestStatePendingConfirmed) someResponse (by decide)
  have hp2 : p = someRequest RequestStatePendingConfirmed := by
    have := lookup_repoWith RequestStatePendingConfirmed
    exact Option.some.inj (hp.symm.trans this)
  have hg2 : g = ⟨"someId", MiddleTimestamp⟩ := by
    have : (repoWith RequestStatePendingConfirmed).gcMetadatas.lookup "someId"
        = some ⟨"someId", MiddleTimestamp⟩ := AList.lookup_insert _
    exact Option.some.inj (hg.symm.trans this)
  subst hp2 hg2
  rw [show (someRequest RequestStatePendingConfirmed).Id = "someId" from rfl] at h
  rw [h]
  decide

/-- In any repository, reachable or not: if some extracted sub-record does not
canonicalize, or its `created_on` is present but does not parse, a response
submission returns an error and leaves the repository unchanged, also when
earlier sub-records were valid. The error is wrapped with `InvalidArgument`
whenever a GC row is stored under `input.Id`. -/
theorem submitPNRResponse_invalid_record (lib : Libs) (caller : String)
    (response : RequestState) (r : InMemoryRepository) (input : SubmitPNRResponseInput)
    (hbad : ∃ e ∈ extractedRecords lib (OptionalMessage input.ResponseData),
      jcsFails lib e ∨ createdOnUnparsable lib e) :
    ∃ err, (NewRMTUsecase caller inMemory).submitPNRResponse lib response r input
        = (r, .error err) ∧
      ((r.gcMetadatas.lookup input.Id).isSome = true → err.hasCode Status.InvalidArgument) ∧
      (err.hasCode Status.InvalidArgument ∨
        (r.gcMetadatas.lookup input.Id = none ∧ err.hasCode Status.Internal)) := by
  cases hl : r.pnrs.lookup input.Id with
  | none =>
    simp [submitPNRResponse, NewRMTUsecase, inMemory_GetPNR_eq, hl, Error.hasCode]
  | some p =>
    by_cases h1 : caller = p.RespondingPIU
    swap
    · simp [submitPNRResponse, NewRMTUsecase, inMemory_GetPNR_eq, hl, isThisPIU, h1,
        Error.hasCode]
    by_cases h2 : p.State = RequestStatePendingConfirmed
    swap
    · simp [submitPNRResponse, NewRMTUsecase, inMemory_GetPNR_eq, hl, isThisPIU, h1, h2,
        Error.hasCode]
    cases hg : r.gcMetadatas.lookup input.Id with
    | none =>
      simp [submitPNRResponse, NewRMTUsecase, inMemory_GetPNR_eq, hl, isThisPIU, h1, h2,
        inMemory_GetGCMetadata_eq, hg, Error.hasCode]
    | some gc =>
      obtain ⟨err, herr⟩ := submitPNRResponseLoop_fails lib _ [] gc.CreationTimestamp hbad
      have hcode := submitPNRResponseLoop_error_code lib _ _ _ _ herr
      simp only [extractedRecords] at herr
      refine ⟨err, ?_, fun _ => hcode, Or.inl hcode⟩
      simp [submitPNRResponse, NewRMTUsecase, inMemory_GetPNR_eq, hl, isThisPIU, h1, h2,
        inMemory_GetGCMetadata_eq, hg, herr]

end SubmitPNRResponse

section NewPNRRequest

open RMTUsecase

theorem inMemory_GetPIU_eq (r : InMemoryRepository) (id : String) :
    inMemory.GetPIU r id
      = match r.pius.lookup id with
        | none => .error (Error.new "PIU not found")
        | some entity => .ok entity := rfl

theorem inMemory_InsertPNR_eq (r : InMemoryRepository) (id : String) (pnr : PNR) :
    inMemory.InsertPNR r id pnr
      = if (r.pnrs.lookup id).isSome then (r, some (Error.new "PNR already exists"))
        else ({ r with pnrs := r.pnrs.insert id pnr }, none) := rfl

theorem inMemory_InsertGCMetadata_eq (r : InMemoryRepository) (pnr : PNR) (gc : GCMetadata) :
    inMemory.InsertGCMetadata r pnr gc
      = if (r.gcMetadatas.lookup pnr.Id).isSome then
          (r, some (Error.new "PNR GC metadata already exists"))
        else ({ r with gcMetadatas := r.gcMetadatas.insert pnr.Id gc }, none) := rfl

/-- C8: `NewPNRRequest` returns an error wrapped with `InvalidArgument` and
leaves the repository unchanged whenever the responding PIU is the caller or is
not a stored PIU. -/
theorem NewPNRRequest_bad_responder (caller : String) (r : InMemoryRepository)
    (input : NewPNRRequestInput)
    (hbad : input.RespondingPIU = caller ∨ r.pius.lookup input.RespondingPIU = none) :
    ∃ e, (NewRMTUsecase caller inMemory).NewPNRRequest r input = (r, .error e) ∧
      e.hasCode Status.InvalidArgument := by
  by_cases h1 : caller = input.RespondingPIU
  · simp [NewPNRRequest, NewRMTUsecase, isThisPIU, h1, Error.hasCode]
  · have h2 : r.pius.lookup input.RespondingPIU = none := by
      rcases hbad with h | h
      · exact absurd h.symm h1
      · exact h
    simp [NewPNRRequest, NewRMTUsecase, isThisPIU, h1, inMemory_GetPIU_eq, h2, Error.hasCode]

/-- Witness for C8: `piu2` requests data from itself. -/
theorem NewPNRRequest_bad_responder_witness :
    ∃ e, (NewRMTUsecase "piu2" inMemory).NewPNRRequest repoPIUs someNewRequest
        = (repoPIUs, .error e) ∧ e.hasCode Status.InvalidArgument :=
  NewPNRRequest_bad_responder "piu2" repoPIUs someNewRequest (Or.inl rfl)

/-- C9 fails on the code: with only `piu2` registered, the unregistered caller
`piu1` creates a PNR whose `RequestingPIU` is not a stored PIU. -/
theorem NewPNRRequest_missing_requester_succeeds :
    repoOnlyPIU2.pius.lookup "piu1" = none ∧
    ((NewRMTUsecase "piu1" inMemory).NewPNRRequest repoOnlyPIU2 someNewRequest).2
      = .ok { Id := "pnr1" } ∧
    (((NewRMTUsecase "piu1" inMemory).NewPNRRequest repoOnlyPIU2 someNewRequest).1.pnrs.lookup
      "pnr1").map PNR.RequestingPIU = some "piu1" ∧
    ((NewRMTUsecase "piu1" inMemory).NewPNRRequest repoOnlyPIU2 someNewRequest).1.pius.lookup
      "piu1" = none := by
  decide

/-- C10: `NewPNRRequest` succeeds exactly when the responder is a stored PIU
different from the caller and neither a PNR nor a GC row is stored under
`input.Id`; afterwards the repository holds under `input.Id` the PNR with
`Id = input.Id`, `RequestingPIU = caller`, the input's responder and request
timestamp, state `Pending`, `RequestData` the request payload text of the
input verbatim (the empty string when absent), empty `ResponseData` and
`PNRHashes`, and the GC row
`(input.Id, input.RequestTimestamp)`; the output id is `input.Id`; other rows
and the PIUs are unchanged. -/
theorem NewPNRRequest_created (caller : String) (r : InMemoryRepository)
    (input : NewPNRRequestInput) :
    (((NewRMTUsecase caller inMemory).NewPNRRequest r input).2 = .ok { Id := input.Id } ↔
      (input.RespondingPIU ≠ caller ∧ (r.pius.lookup input.RespondingPIU).isSome = true ∧
        r.pnrs.lookup input.Id = none ∧ r.gcMetadatas.lookup input.Id = none)) ∧
    (∀ out, ((NewRMTUsecase caller inMemory).NewPNRRequest r input).2 = .ok out →
      out.Id = input.Id ∧
      ((NewRMTUsecase caller inMemory).NewPNRRequest r input).1.pnrs.lookup input.Id
        = some { Id := input.Id
                 RequestingPIU := caller
                 RespondingPIU := input.RespondingPIU
                 RequestTimestamp := input.RequestTimestamp
                 ResponseTimestamp := Time.zero
                 State := RequestStatePending
                 RequestData := input.RequestData.getD ""
                 ResponseData := ""
                 PNRHashes := [] } ∧
      ((NewRMTUsecase caller inMemory).NewPNRRequest r input).1.gcMetadatas.lookup input.Id
        = some { Id := input.Id, CreationTimestamp := input.RequestTimestamp } ∧
      (∀ k, k ≠ input.Id →
        ((NewRMTUsecase caller inMemory).NewPNRRequest r input).1.pnrs.lookup k
            = r.pnrs.lookup k ∧
        ((NewRMTUsecase caller inMemory).NewPNRRequest r input).1.gcMetadatas.lookup k
            = r.gcMetadatas.lookup k) ∧
      ((NewRMTUsecase caller inMemory).NewPNRRequest r input).1.pius = r.pius) := by
  by_cases h1 : caller = input.RespondingPIU
  · simp [NewPNRRequest, NewRMTUsecase, isThisPIU, h1]
  have h1' : ¬ input.RespondingPIU = caller := fun h => h1 h.symm
  cases h2 : r.pius.lookup input.RespondingPIU with
  | none => simp [NewPNRRequest, NewRMTUsecase, isThisPIU, h1, inMemory_GetPIU_eq, h2]
  | some piu =>
    cases h3 : r.pnrs.lookup input.Id with
    | some p =>
      simp [NewPNRRequest, NewRMTUsecase, isThisPIU, h1, inMemory_GetPIU_eq, h2,
        inMemory_InsertPNR_eq, h3]
    | none =>
      cases h4 : r.gcMetadatas.lookup input.Id with
      | some g =>
        simp [NewPNRRequest, NewRMTUsecase, isThisPIU, h1, inMemory_GetPIU_eq, h2,
          inMemory_InsertPNR_eq, h3, inMemory_InsertGCMetadata_eq, h4]
      | none =>
        have hmsg : OptionalMessage input.RequestData = input.RequestData.getD "" := by
          cases input.RequestData <;> rfl
        simp [NewPNRRequest, NewRMTUsecase, isThisPIU, h1, h1', inMemory_GetPIU_eq, h2,
          inMemory_InsertPNR_eq, h3, inMemory_InsertGCMetadata_eq, h4, hmsg]
        intro k hk
        exact ⟨AList.lookup_insert_ne hk, AList.lookup_insert_ne hk⟩

/-- Witness for C10: `piu1` requests data from `piu2` with the payload text
`"test request data"`, which is what the stored PNR carries
(`TestNewPNRRequest`). -/
theorem NewPNRRequest_created_witness :
    someNewRequest.RequestData = some "\"test request data\"" ∧
    ((NewRMTUsecase "piu1" inMemory).NewPNRRequest repoPIUs someNewRequest).2
        = .ok { Id := "pnr1" } ∧
    ((NewRMTUsecase "piu1" inMemory).NewPNRRequest repoPIUs someNewRequest).1.pnrs.lookup
        "pnr1"
      = some { Id := "pnr1"
               RequestingPIU := "piu1"
               RespondingPIU := "piu2"
               RequestTimestamp := MiddleTimestamp
               ResponseTimestamp := Time.zero
               State := RequestStatePending
               RequestData := "\"test request data\""
               ResponseData := ""
               PNRHashes := [] } ∧
    ((NewRMTUsecase "piu1" inMemory).NewPNRRequest repoPIUs someNewRequest).1.gcMetadatas.lookup
        "pnr1" = some { Id := "pnr1", CreationTimestamp := MiddleTimestamp } :=
  have hok := (NewPNRRequest_created "piu1" repoPIUs someNewRequest).1.2
    ⟨by decide, by decide, by decide, by decide⟩
  ⟨rfl, hok, by decide,
    ((NewPNRRequest_created "piu1" repoPIUs someNewRequest).2 _ hok).2.2.1⟩

end NewPNRRequest

section TerminatePNRRequest

open RMTUsecase

theorem TerminatePNRRequest_missing (caller : String) (r : InMemoryRepository)
    (input : TerminatePNRRequestInput) (hl : r.pnrs.lookup input.Id = none) :
    (NewRMTUsecase caller inMemory).TerminatePNRRequest r input
      = (r, .error (Error.wrap (Error.new "PNR not found") Status.InvalidArgument)) := by
  simp [TerminatePNRRequest, NewRMTUsecase, inMemory_GetPNR_eq, hl]

theorem TerminatePNRRequest_unrelated (caller : String) (r : InMemoryRepository)
    (input : TerminatePNRRequestInput) (p : PNR) (hl : r.pnrs.lookup input.Id = some p)
    (h1 : caller ≠ p.RequestingPIU) (h2 : caller ≠ p.RespondingPIU) :
    (NewRMTUsecase caller inMemory).TerminatePNRRequest r input
      = (r, .error (Error.wrap
          (Error.new "Not the requester or responder of this PNR request")
          Status.InvalidArgument)) := by
  simp [TerminatePNRRequest, NewRMTUsecase, inMemory_GetPNR_eq, hl, isThisPIU, h1, h2]

theorem TerminatePNRRequest_missing_gc (caller : String) (r : InMemoryRepository)
    (input : TerminatePNRRequestInput) (p : PNR) (hl : r.pnrs.lookup input.Id = some p)
    (hparty : caller = p.RequestingPIU ∨ caller = p.RespondingPIU)
    (hg : r.gcMetadatas.lookup input.Id = none) :
    (NewRMTUsecase caller inMemory).TerminatePNRRequest r input
      = ({ pius := r.pius
           pnrs := r.pnrs.insert input.Id
             { p with State := RequestStateTerminated, RequestData := "", ResponseData := "" }
           gcMetadatas := r.gcMetadatas },
          .error (Error.wrap (Error.new "PNR GC metadata not found") Status.Internal)) := by
  have hupd := fun q => inMemory_UpdatePNR_of_lookup r input.Id p q hl
  have hparty' : ¬ (¬ caller = p.RequestingPIU ∧ ¬ caller = p.RespondingPIU) := by
    rintro ⟨h1, h2⟩
    rcases hparty with h | h
    · exact h1 h
    · exact h2 h
  simp only [TerminatePNRRequest, NewRMTUsecase, inMemory_GetPNR_eq, hl, isThisPIU]
  simp [hparty']
  simp [inMemory, InMemoryRepository.UpdateLocalPNR, InMemoryRepository.UpdatePNR,
    InMemoryRepository.PurgeLocalPNRData, InMemoryRepository.PurgePNRData,
    InMemoryRepository.GetPNR, InMemoryRepository.DeleteLocalGCMetadata,
    InMemoryRepository.GetGCMetadata, hl, hg]

theorem TerminatePNRRequest_ok (caller : String) (r : InMemoryRepository)
    (input : TerminatePNRRequestInput) (p : PNR) (g : GCMetadata)
    (hl : r.pnrs.lookup input.Id = some p)
    (hparty : caller = p.RequestingPIU ∨ caller = p.RespondingPIU)
    (hg : r.gcMetadatas.lookup input.Id = some g) :
    (NewRMTUsecase caller inMemory).TerminatePNRRequest r input
      = ({ pius := r.pius
           pnrs := r.pnrs.insert input.Id
             { p with State := RequestStateTerminated, RequestData := "", ResponseData := "" }
           gcMetadatas := r.gcMetadatas.erase input.Id },
          .ok {}) := by
  have hparty' : ¬ (¬ caller = p.RequestingPIU ∧ ¬ caller = p.RespondingPIU) := by
    rintro ⟨h1, h2⟩
    rcases hparty with h | h
    · exact h1 h
    · exact h2 h
  simp only [TerminatePNRRequest, NewRMTUsecase, inMemory_GetPNR_eq, hl, isThisPIU]
  simp [hparty']
  simp [inMemory, InMemoryRepository.UpdateLocalPNR, InMemoryRepository.UpdatePNR,
    InMemoryRepository.PurgeLocalPNRData, InMemoryRepository.PurgePNRData,
    InMemoryRepository.GetPNR, InMemoryRepository.DeleteLocalGCMetadata,
    InMemoryRepository.GetGCMetadata, hl, hg]

/-- The four ways a termination ends. -/
theorem TerminatePNRRequest_cases (caller : String) (r : InMemoryRepository)
    (input : TerminatePNRRequestInput) :
    (r.pnrs.lookup input.Id = none ∧
      (NewRMTUsecase caller inMemory).TerminatePNRRequest r input
        = (r, .error (Error.wrap (Error.new "PNR not found") Status.InvalidArgument))) ∨
    (∃ p, r.pnrs.lookup input.Id = some p ∧ caller ≠ p.RequestingPIU ∧ caller ≠ p.RespondingPIU ∧
      (NewRMTUsecase caller inMemory).TerminatePNRRequest r input
        = (r, .error (Error.wrap
            (Error.new "Not the requester or responder of this PNR request")
            Status.InvalidArgument))) ∨
    (∃ p, r.pnrs.lookup input.Id = some p ∧
      (caller = p.RequestingPIU ∨ caller = p.RespondingPIU) ∧
      r.gcMetadatas.lookup input.Id = none ∧
      (NewRMTUsecase caller inMemory).TerminatePNRRequest r input
        = ({ pius := r.pius
             pnrs := r.pnrs.insert input.Id
               { p with State := RequestStateTerminated, RequestData := "", ResponseData := "" }
             gcMetadatas := r.gcMetadatas },
            .error (Error.wrap (Error.new "PNR GC metadata not found") Status.Internal))) ∨
    (∃ p g, r.pnrs.lookup input.Id = some p ∧
      (caller = p.RequestingPIU ∨ caller = p.RespondingPIU) ∧
      r.gcMetadatas.lookup input.Id = some g ∧
      (NewRMTUsecase caller inMemory).TerminatePNRRequest r input
        = ({ pius := r.pius
             pnrs := r.pnrs.insert input.Id
               { p with State := RequestStateTerminated, RequestData := "", ResponseData := "" }
             gcMetadatas := r.gcMetadatas.erase input.Id },
            .ok {})) := by
  cases hl : r.pnrs.lookup input.Id with
  | none => exact Or.inl ⟨rfl, TerminatePNRRequest_missing caller r input hl⟩
  | some p =>
    by_cases hparty : caller = p.RequestingPIU ∨ caller = p.RespondingPIU
    · cases hg : r.gcMetadatas.lookup input.Id with
      | none =>
        exact Or.inr (Or.inr (Or.inl
          ⟨p, rfl, hparty, rfl, TerminatePNRRequest_missing_gc caller r input p hl hparty hg⟩))
      | some g =>
        exact Or.inr (Or.inr (Or.inr
          ⟨p, g, rfl, hparty, rfl, TerminatePNRRequest_ok caller r input p g hl hparty hg⟩))
    · have h1 : caller ≠ p.RequestingPIU := fun h => hparty (Or.inl h)
      have h2 : caller ≠ p.RespondingPIU := fun h => hparty (Or.inr h)
      exact Or.inr (Or.inl
        ⟨p, rfl, h1, h2, TerminatePNRRequest_unrelated caller r input p hl h1 h2⟩)

theorem lookup_repoAck : repoAck.pnrs.lookup "someId" = some ackRequest :=
  AList.lookup_insert _

/-- C11: when `TerminatePNRRequest` succeeds on the in-memory repository, the
PNR stored under `input.Id` afterwards is the one stored before with state
`Terminated` and both payload fields empty (every other field, `PNRHashes` and
both timestamps included, unchanged), no GC row is stored under `input.Id`,
and every other PNR, every other GC row and the PIUs are unchanged. -/
theorem TerminatePNRRequest_stored_after (caller : String) (r : InMemoryRepository)
    (input : TerminatePNRRequestInput)
    (hok : ((NewRMTUsecase caller inMemory).TerminatePNRRequest r input).2 = .ok {}) :
    ∃ p, r.pnrs.lookup input.Id = some p ∧
      ((NewRMTUsecase caller inMemory).TerminatePNRRequest r input).1.pnrs.lookup input.Id
        = some { p with
            State := RequestStateTerminated, RequestData := "", ResponseData := "" } ∧
      ((NewRMTUsecase caller inMemory).TerminatePNRRequest r input).1.gcMetadatas.lookup
        input.Id = none ∧
      (∀ k, k ≠ input.Id →
        ((NewRMTUsecase caller inMemory).TerminatePNRRequest r input).1.pnrs.lookup k
          = r.pnrs.lookup k ∧
        ((NewRMTUsecase caller inMemory).TerminatePNRRequest r input).1.gcMetadatas.lookup k
          = r.gcMetadatas.lookup k) ∧
      ((NewRMTUsecase caller inMemory).TerminatePNRRequest r input).1.pius = r.pius := by
  rcases TerminatePNRRequest_cases caller r input with
    ⟨_, h⟩ | ⟨p, _, _, _, h⟩ | ⟨p, _, _, _, h⟩ | ⟨p, g, hl, _, _, h⟩
  · rw [h] at hok
    cases hok
  · rw [h] at hok
    cases hok
  · rw [h] at hok
    cases hok
  · rw [h]
    exact ⟨p, hl, AList.lookup_insert _, AList.lookup_erase _ _,
      fun k hk => ⟨AList.lookup_insert_ne hk, AList.lookup_erase_ne hk⟩, rfl⟩

/-- Witness for C11: the requester `piu1` terminates the `Ack` request. -/
theorem TerminatePNRRequest_stored_after_witness :
    ((NewRMTUsecase "piu1" inMemory).TerminatePNRRequest repoAck ⟨"someId"⟩).1.pnrs.lookup
        "someId"
      = some { ackRequest with
          State := RequestStateTerminated, RequestData := "", ResponseData := "" } ∧
    ((NewRMTUsecase "piu1" inMemory).TerminatePNRRequest repoAck ⟨"someId"⟩).1.gcMetadatas.lookup
        "someId" = none := by
  obtain ⟨p, hp, h1, h2, -⟩ :=
    TerminatePNRRequest_stored_after "piu1" repoAck ⟨"someId"⟩ (by decide)
  rw [lookup_repoAck] at hp
  cases hp
  exact ⟨h1, h2⟩

/-- C12: over the in-memory repository `TerminatePNRRequest` succeeds exactly
when a PNR is stored under `input.Id`, the caller is its requester or its
responder, and a GC row is stored under `input.Id`. A missing PNR and a caller
that is neither party give an error wrapped with `InvalidArgument`; a missing
GC row gives an error too. -/
theorem TerminatePNRRequest_succeeds_iff (caller : String) (r : InMemoryRepository)
    (input : TerminatePNRRequestInput) :
    (((NewRMTUsecase caller inMemory).TerminatePNRRequest r input).2 = .ok {} ↔
      ∃ p, r.pnrs.lookup input.Id = some p ∧
        (caller = p.RequestingPIU ∨ caller = p.RespondingPIU) ∧
        (r.gcMetadatas.lookup input.Id).isSome = true) ∧
    (r.pnrs.lookup input.Id = none →
      ∃ e, ((NewRMTUsecase caller inMemory).TerminatePNRRequest r input).2 = .error e ∧
        e.hasCode Status.InvalidArgument) ∧
    (∀ p, r.pnrs.lookup input.Id = some p → caller ≠ p.RequestingPIU →
      caller ≠ p.RespondingPIU →
      ∃ e, ((NewRMTUsecase caller inMemory).TerminatePNRRequest r input).2 = .error e ∧
        e.hasCode Status.InvalidArgument) ∧
    (r.gcMetadatas.lookup input.Id = none →
      ∃ e, ((NewRMTUsecase caller inMemory).TerminatePNRRequest r input).2 = .error e) := by
  rcases TerminatePNRRequest_cases caller r input with
    ⟨hl, h⟩ | ⟨p, hl, h1, h2, h⟩ | ⟨p, hl, hparty, hg, h⟩ | ⟨p, g, hl, hparty, hg, h⟩
  · rw [h]
    simp [hl, Error.hasCode]
  · rw [h]
    refine ⟨?_, ?_, ?_, ?_⟩
    · simp [hl, h1, h2]
    · simp [hl]
    · intro q hq _ _
      exact ⟨_, rfl, _, rfl⟩
    · intro _
      exact ⟨_, rfl⟩
  · rw [h]
    refine ⟨?_, ?_, ?_, ?_⟩
    · simp [hl, hg]
    · simp [hl]
    · intro q hq h1 h2
      rw [hl] at hq
      cases hq
      rcases hparty with hp | hp
      · exact absurd hp h1
      · exact absurd hp h2
    · intro _
      exact ⟨_, rfl⟩
  · rw [h]
    refine ⟨?_, ?_, ?_, ?_⟩
    · simp [hl, hg, hparty]
    · simp [hl]
    · intro q hq h1 h2
      rw [hl] at hq
      cases hq
      rcases hparty with hp | hp
      · exact absurd hp h1
      · exact absurd hp h2
    · simp [hg]

/-- Witness for C12: the responder `piu2` terminates the `Ack` request. -/
theorem TerminatePNRRequest_succeeds_iff_witness :
    ((NewRMTUsecase "piu2" inMemory).TerminatePNRRequest repoAck ⟨"someId"⟩).2 = .ok {} :=
  (TerminatePNRRequest_succeeds_iff "piu2" repoAck ⟨"someId"⟩).1.2
    ⟨ackRequest, lookup_repoAck, Or.inr rfl, by decide⟩

/-- Counterexample to C13: in the repository of
`TestTerminatePNRRequestMissingGCMetadata` the termination by the requester
fails, yet the stored PNR has been set to `Terminated` and purged. -/
theorem TerminatePNRRequest_error_counterexample :
    (∃ e, ((NewRMTUsecase "piu1" inMemory).TerminatePNRRequest repoAckWithoutGC ⟨"someId"⟩).2
      = .error e) ∧
    repoAckWithoutGC.pnrs.lookup "someId" = some ackRequest ∧
    ((NewRMTUsecase "piu1" inMemory).TerminatePNRRequest repoAckWithoutGC
        ⟨"someId"⟩).1.pnrs.lookup "someId"
      = some { ackRequest with
          State := RequestStateTerminated, RequestData := "", ResponseData := "" } ∧
    ((NewRMTUsecase "piu1" inMemory).TerminatePNRRequest repoAckWithoutGC ⟨"someId"⟩).1.pnrs
      ≠ repoAckWithoutGC.pnrs := by
  refine ⟨⟨Error.wrap (Error.new "PNR GC metadata not found") Status.Internal, by decide⟩,
    by decide, by decide, ?_⟩
  intro h
  have h2 := congrArg (fun t => (AList.lookup "someId" t).map PNR.State) h
  revert h2
  decide

/-- C13 (amended): over the in-memory repository, when `TerminatePNRRequest`
returns an error, the GC table, the PIUs and every PNR other than the one under
`input.Id` are as before; when the error is `InvalidArgument` the whole
repository is unchanged; when it is `Internal` (the GC row is missing) the PNR
under `input.Id` is left `Terminated` with empty payload. -/
theorem TerminatePNRRequest_error_frame (caller : String) (r : InMemoryRepository)
    (input : TerminatePNRRequestInput) (e : Error)
    (herr : ((NewRMTUsecase caller inMemory).TerminatePNRRequest r input).2 = .error e) :
    ((NewRMTUsecase caller inMemory).TerminatePNRRequest r input).1.gcMetadatas
      = r.gcMetadatas ∧
    ((NewRMTUsecase caller inMemory).TerminatePNRRequest r input).1.pius = r.pius ∧
    (∀ k, k ≠ input.Id →
      ((NewRMTUsecase caller inMemory).TerminatePNRRequest r input).1.pnrs.lookup k
        = r.pnrs.lookup k) ∧
    (e.hasCode Status.InvalidArgument ∨ e.hasCode Status.Internal) ∧
    (e.hasCode Status.InvalidArgument →
      ((NewRMTUsecase caller inMemory).TerminatePNRRequest r input).1 = r) ∧
    (e.hasCode Status.Internal →
      ∃ p, r.pnrs.lookup input.Id = some p ∧ r.gcMetadatas.lookup input.Id = none ∧
        ((NewRMTUsecase caller inMemory).TerminatePNRRequest r input).1.pnrs.lookup input.Id
          = some { p with
              State := RequestStateTerminated, RequestData := "", ResponseData := "" }) := by
  rcases TerminatePNRRequest_cases caller r input with
    ⟨hl, h⟩ | ⟨p, hl, h1, h2, h⟩ | ⟨p, hl, hparty, hg, h⟩ | ⟨p, g, hl, hparty, hg, h⟩
  · rw [h] at herr ⊢
    simp only [Except.error.injEq] at herr
    subst herr
    refine ⟨rfl, rfl, fun _ _ => rfl, Or.inl ⟨_, rfl⟩, fun _ => rfl, ?_⟩
    rintro ⟨inner, hinner⟩
    cases hinner
  · rw [h] at herr ⊢
    simp only [Except.error.injEq] at herr
    subst herr
    refine ⟨rfl, rfl, fun _ _ => rfl, Or.inl ⟨_, rfl⟩, fun _ => rfl, ?_⟩
    rintro ⟨inner, hinner⟩
    cases hinner
  · rw [h] at herr ⊢
    simp only [Except.error.injEq] at herr
    subst herr
    refine ⟨rfl, rfl, fun k hk => AList.lookup_insert_ne hk, Or.inr ⟨_, rfl⟩, ?_,
      fun _ => ⟨p, hl, hg, AList.lookup_insert _⟩⟩
    rintro ⟨inner, hinner⟩
    cases hinner
  · rw [h] at herr
    cases herr

/-- Witness for C13: an unrelated caller (`piu3`) gets `InvalidArgument` and
the repository is unchanged. -/
theorem TerminatePNRRequest_error_frame_witness :
    ((NewRMTUsecase "piu3" inMemory).TerminatePNRRequest repoAck ⟨"someId"⟩).1 = repoAck :=
  (TerminatePNRRequest_error_frame "piu3" repoAck ⟨"someId"⟩
    (Error.wrap (Error.new "Not the requester or responder of this PNR request")
      Status.InvalidArgument) (by decide)).2.2.2.2.1 ⟨_, rfl⟩

end TerminatePNRRequest

section GetPNRs

open RMTUsecase

theorem ite_false_eq_true_iff {c : Prop} [Decidable c] {x : Bool} :
    (if c then false else x) = true ↔ ¬ c ∧ x = true := by
  by_cases h : c <;> simp [h]

/-- C20: `IsMatchingPNR f p` holds exactly when all five conditions hold:
`f.Start` is the zero time or `p.RequestTimestamp` is not before it, `f.End` is
the zero time or `p.RequestTimestamp` is not after it, and each of `f.State`,
`f.RequestingPIU`, `f.RespondingPIU` is empty or equals the field of `p`. Both
time bounds are inclusive (a PNR whose request time is both bounds matches),
and the filter with no field set matches every PNR. -/
theorem IsMatchingPNR_iff :
    (∀ (f : PNRFilter) (p : PNR), IsMatchingPNR f p = true ↔
      (f.Start = Time.zero ∨ f.Start.nanos ≤ p.RequestTimestamp.nanos) ∧
      (f.End = Time.zero ∨ p.RequestTimestamp.nanos ≤ f.End.nanos) ∧
      (f.State = "" ∨ f.State = p.State) ∧
      (f.RequestingPIU = "" ∨ f.RequestingPIU = p.RequestingPIU) ∧
      (f.RespondingPIU = "" ∨ f.RespondingPIU = p.RespondingPIU)) ∧
    (∀ p : PNR, IsMatchingPNR
      { emptyFilter with Start := p.RequestTimestamp, End := p.RequestTimestamp } p = true) ∧
    (∀ p : PNR, IsMatchingPNR emptyFilter p = true) := by
  have main : ∀ (f : PNRFilter) (p : PNR), IsMatchingPNR f p = true ↔
      (f.Start = Time.zero ∨ f.Start.nanos ≤ p.RequestTimestamp.nanos) ∧
      (f.End = Time.zero ∨ p.RequestTimestamp.nanos ≤ f.End.nanos) ∧
      (f.State = "" ∨ f.State = p.State) ∧
      (f.RequestingPIU = "" ∨ f.RequestingPIU = p.RequestingPIU) ∧
      (f.RespondingPIU = "" ∨ f.RespondingPIU = p.RespondingPIU) := by
    intro f p
    have e1 : (f.Start ≠ Time.zero ∧ p.RequestTimestamp.Before f.Start = true) ↔
        ¬ (f.Start = Time.zero ∨ f.Start.nanos ≤ p.RequestTimestamp.nanos) := by
      simp [Time.Before, not_or]
    have e2 : (f.End ≠ Time.zero ∧ p.RequestTimestamp.After f.End = true) ↔
        ¬ (f.End = Time.zero ∨ p.RequestTimestamp.nanos ≤ f.End.nanos) := by
      simp [Time.After, not_or]
    have e3 : (f.State ≠ "" ∧ p.State ≠ f.State) ↔ ¬ (f.State = "" ∨ f.State = p.State) := by
      simp [not_or, eq_comm]
    have e4 : (f.RequestingPIU ≠ "" ∧ p.RequestingPIU ≠ f.RequestingPIU) ↔
        ¬ (f.RequestingPIU = "" ∨ f.RequestingPIU = p.RequestingPIU) := by
      simp [not_or, eq_comm]
    have e5 : (f.RespondingPIU ≠ "" ∧ p.RespondingPIU ≠ f.RespondingPIU) ↔
        ¬ (f.RespondingPIU = "" ∨ f.RespondingPIU = p.RespondingPIU) := by
      simp [not_or, eq_comm]
    unfold IsMatchingPNR
    simp only [ite_false_eq_true_iff]
    rw [e1, e2, e3, e4, e5]
    simp only [not_not, and_true]
  refine ⟨main, ?_, ?_⟩
  · intro p
    rw [main]
    simp [emptyFilter]
  · intro p
    rw [main]
    simp [emptyFilter]

theorem lookup_of_mem_entries {V : Type} (t : Table V) (e : (_ : String) × V)
    (he : e ∈ t.entries) : t.lookup e.1 = some e.2 :=
  AList.mem_lookup_iff.2 (by cases e; exact he)

theorem mem_entries_of_lookup {V : Type} (t : Table V) (k : String) (v : V)
    (h : t.lookup k = some v) : (⟨k, v⟩ : (_ : String) × V) ∈ t.entries :=
  AList.mem_lookup_iff.1 h

/-- C19: for every filter and every in-memory repository, `GetPNRs` (the
repository method and the usecase passthrough, which leaves the repository as
it is) returns without error, and the list returned lists, for a duplicate-free
list of keys, the PNR stored under each key, where the keys are exactly those
whose stored PNR matches the filter: every stored matching PNR appears once and
nothing else appears. With the filter that sets no field all stored PNRs are
returned. -/
theorem GetPNRs_exactly_matching (caller : String) (r : InMemoryRepository) (f : PNRFilter) :
    ∃ out, (NewRMTUsecase caller inMemory).GetPNRs r f = (r, .ok out) ∧
      inMemory.GetPNRs r f = .ok out ∧
      (∃ keys : List String, keys.Nodup ∧
        (∀ k, k ∈ keys ↔ ∃ p, r.pnrs.lookup k = some p ∧ IsMatchingPNR f p = true) ∧
        out.map some = keys.map (fun k => r.pnrs.lookup k)) ∧
      (f = emptyFilter → out.length = r.pnrs.entries.length ∧
        ∀ k p, r.pnrs.lookup k = some p → p ∈ out) := by
  refine ⟨(r.pnrs.entries.map (fun e : (_ : String) × PNR => e.2)).filter
    (fun entity => IsMatchingPNR f entity), rfl, rfl, ?_, ?_⟩
  · refine ⟨(r.pnrs.entries.filter (fun e : (_ : String) × PNR => IsMatchingPNR f e.2)).map
      (fun e => e.1), ?_, ?_, ?_⟩
    · have hnd : (r.pnrs.entries.map (fun e => e.1)).Nodup := r.pnrs.nodupKeys
      exact hnd.sublist (List.Sublist.map _ (List.filter_sublist _))
    · intro k
      simp only [List.mem_map, List.mem_filter]
      constructor
      · rintro ⟨e, ⟨he, hm⟩, rfl⟩
        exact ⟨e.2, lookup_of_mem_entries _ e he, hm⟩
      · rintro ⟨p, hp, hm⟩
        exact ⟨⟨k, p⟩, ⟨mem_entries_of_lookup _ k p hp, hm⟩, rfl⟩
    · rw [List.filter_map, List.map_map, List.map_map]
      apply List.map_congr_left
      intro e he
      simp only [Function.comp]
      exact (lookup_of_mem_entries _ e (List.mem_filter.1 he).1).symm
  · intro hf
    subst hf
    have hall : ∀ p : PNR, IsMatchingPNR emptyFilter p = true := by
      intro p
      simp [IsMatchingPNR, emptyFilter]
    constructor
    · simp [hall]
    · intro k p hp
      simp only [List.mem_filter, List.mem_map]
      exact ⟨⟨⟨k, p⟩, mem_entries_of_lookup _ k p hp, rfl⟩, hall p⟩

/-- Witness for C19: listing the repository of `TestTerminatePNRRequest` with
the empty filter returns its one PNR. -/
theorem GetPNRs_exactly_matching_witness :
    ∃ out, (NewRMTUsecase "piu1" inMemory).GetPNRs repoAck emptyFilter = (repoAck, .ok out) ∧
      out.length = repoAck.pnrs.entries.length ∧ ackRequest ∈ out := by
  obtain ⟨out, h1, -, -, h2⟩ := GetPNRs_exactly_matching "piu1" repoAck emptyFilter
  exact ⟨out, h1, (h2 rfl).1, (h2 rfl).2 "someId" ackRequest lookup_repoAck⟩

end GetPNRs

section Invariant

open RMTUsecase

/-- A step that rewrites at most the PNR row and the GC row of one key, and
only adds PIUs, keeps the invariant if the new row is in order. -/
theorem Inv_update (r r' : InMemoryRepository) (id : String) (p' : PNR) (hinv : Inv r)
    (hp : r'.pnrs.lookup id = some p')
    (hrow : RowOK r'.pius r'.gcMetadatas id p')
    (hpn : ∀ k, k ≠ id → r'.pnrs.lookup k = r.pnrs.lookup k)
    (hgc : ∀ k, k ≠ id → r'.gcMetadatas.lookup k = r.gcMetadatas.lookup k)
    (hpiu : ∀ k, (r.pius.lookup k).isSome = true → (r'.pius.lookup k).isSome = true) :
    Inv r' := by
  constructor
  · intro k p hk
    by_cases hkid : k = id
    · subst hkid
      rw [hp] at hk
      cases hk
      exact hrow
    · rw [hpn k hkid] at hk
      obtain ⟨h1, h2, h3, h4, h5, h6, h7⟩ := hinv.1 k p hk
      exact ⟨h1, h2, by rw [hgc k hkid]; exact h3, h4, h5, h6, hpiu _ h7⟩
  · intro k hk
    by_cases hkid : k = id
    · subst hkid
      simp [hp]
    · rw [hgc k hkid] at hk
      rw [hpn k hkid]
      exact hinv.2 k hk

/-- A step that only adds or rewrites PIUs keeps the invariant. -/
theorem Inv_pius (r : InMemoryRepository) (pius' : Table PIU) (hinv : Inv r)
    (hpiu : ∀ k, (r.pius.lookup k).isSome = true → (pius'.lookup k).isSome = true) :
    Inv { r with pius := pius' } := by
  constructor
  · intro k p hk
    obtain ⟨h1, h2, h3, h4, h5, h6, h7⟩ := hinv.1 k p hk
    exact ⟨h1, h2, h3, h4, h5, h6, hpiu _ h7⟩
  · exact hinv.2

theorem SetPIUInfo_effect (caller : String) (r : InMemoryRepository) (input : PIUInfo) :
    ∃ piu, ((NewRMTUsecase caller inMemory).SetPIUInfo r input).1
        = { r with pius := r.pius.insert caller piu } ∧
      (piu = NewPIUFromPIUInfo caller input ∨
        ∃ u, r.pius.lookup caller = some u ∧ piu = UpdatePIUFromPIUInfo u input) := by
  cases hl : r.pius.lookup caller with
  | none =>
    exact ⟨NewPIUFromPIUInfo caller input, by
      simp [SetPIUInfo, NewRMTUsecase, inMemory, InMemoryRepository.PIUExists,
        InMemoryRepository.InsertPIU, hl], Or.inl rfl⟩
  | some u =>
    exact ⟨UpdatePIUFromPIUInfo u input, by
      simp [SetPIUInfo, NewRMTUsecase, inMemory, InMemoryRepository.PIUExists,
        InMemoryRepository.GetPIU, InMemoryRepository.UpdatePIU, hl], Or.inr ⟨u, rfl, rfl⟩⟩

theorem NewPNRRequest_cases (caller : String) (r : InMemoryRepository)
    (input : NewPNRRequestInput) :
    ((NewRMTUsecase caller inMemory).NewPNRRequest r input).1 = r ∨
    (r.pnrs.lookup input.Id = none ∧ (r.gcMetadatas.lookup input.Id).isSome = true ∧
      ∃ p, ((NewRMTUsecase caller inMemory).NewPNRRequest r input).1
        = { r with pnrs := r.pnrs.insert input.Id p }) ∨
    (r.pnrs.lookup input.Id = none ∧ r.gcMetadatas.lookup input.Id = none ∧
      caller ≠ input.RespondingPIU ∧ (r.pius.lookup input.RespondingPIU).isSome = true ∧
      ((NewRMTUsecase caller inMemory).NewPNRRequest r input).1
        = { pius := r.pius
            pnrs := r.pnrs.insert input.Id
              { Id := input.Id
                RequestingPIU := caller
                RespondingPIU := input.RespondingPIU
                RequestTimestamp := input.RequestTimestamp
                ResponseTimestamp := Time.zero
                State := RequestStatePending
                RequestData := OptionalMessage input.RequestData
                ResponseData := ""
                PNRHashes := [] }
            gcMetadatas := r.gcMetadatas.insert input.Id
              { Id := input.Id, CreationTimestamp := input.RequestTimestamp } }) := by
  by_cases h1 : caller = input.RespondingPIU
  · left
    simp [NewPNRRequest, NewRMTUsecase, isThisPIU, h1]
  cases h2 : r.pius.lookup input.RespondingPIU with
  | none =>
    left
    simp [NewPNRRequest, NewRMTUsecase, isThisPIU, h1, inMemory_GetPIU_eq, h2]
  | some piu =>
    cases h3 : r.pnrs.lookup input.Id with
    | some p =>
      left
      simp [NewPNRRequest, NewRMTUsecase, isThisPIU, h1, inMemory_GetPIU_eq, h2,
        inMemory_InsertPNR_eq, h3]
    | none =>
      cases h4 : r.gcMetadatas.lookup input.Id with
      | some g =>
        right; left
        refine ⟨rfl, rfl,
          { Id := input.Id
            RequestingPIU := caller
            RespondingPIU := input.RespondingPIU
            RequestTimestamp := input.RequestTimestamp
            ResponseTimestamp := Time.zero
            State := RequestStatePending
            RequestData := OptionalMessage input.RequestData
            ResponseData := ""
            PNRHashes := [] }, ?_⟩
        simp [NewPNRRequest, NewRMTUsecase, isThisPIU, h1, inMemory_GetPIU_eq, h2,
          inMemory_InsertPNR_eq, h3, inMemory_InsertGCMetadata_eq, h4]
      | none =>
        right; right
        refine ⟨rfl, rfl, h1, rfl, ?_⟩
        simp [NewPNRRequest, NewRMTUsecase, isThisPIU, h1, inMemory_GetPIU_eq, h2,
          inMemory_InsertPNR_eq, h3, inMemory_InsertGCMetadata_eq, h4]

theorem ConfirmPNR_cases (caller : String) (r : InMemoryRepository) (input : ConfirmPNRInput) :
    ((NewRMTUsecase caller inMemory).ConfirmPNR r input).1 = r ∨
    ∃ p, r.pnrs.lookup input.Id = some p ∧
      (NewRMTUsecase caller inMemory).confirmPNRSwitch p = none ∧
      ((NewRMTUsecase caller inMemory).ConfirmPNR r input).1
        = { r with pnrs := r.pnrs.insert input.Id (confirmedRow p) } := by
  cases hl : r.pnrs.lookup input.Id with
  | none =>
    left
    simp [ConfirmPNR, NewRMTUsecase, inMemory_GetPNR_eq, hl]
  | some p =>
    have hupd := fun q => inMemory_UpdatePNR_of_lookup r input.Id p q hl
    simp only [ConfirmPNR, NewRMTUsecase, inMemory_GetPNR_eq, hl, hupd]
    split
    · exact Or.inl rfl
    · split
      · exact Or.inl rfl
      · rename_i hsw
        right
        refine ⟨p, rfl, hsw, ?_⟩
        by_cases hc : GetConfirmedState p.State = RequestStateAckConfirmed
            ∨ GetConfirmedState p.State = RequestStateNackConfirmed
        · simp [hc, confirmedRow, inMemory_PurgePNRData_of_lookup]
        · simp [hc, confirmedRow]

theorem submitPNRResponse_cases (lib : Libs) (caller : String) (response : RequestState)
    (r : InMemoryRepository) (input : SubmitPNRResponseInput) :
    (((NewRMTUsecase caller inMemory).submitPNRResponse lib response r input).1 = r ∧
      ((NewRMTUsecase caller inMemory).submitPNRResponse lib response r input).2 ≠ .ok {}) ∨
    (∃ p g hashes, r.pnrs.lookup input.Id = some p ∧ r.gcMetadatas.lookup input.Id = some g ∧
      r.gcMetadatas.lookup p.Id = none ∧
      ((NewRMTUsecase caller inMemory).submitPNRResponse lib response r input).1
        = { pius := r.pius
            pnrs := r.pnrs.insert input.Id
              { p with
                ResponseTimestamp := input.ResponseTimestamp
                State := response
                ResponseData := OptionalMessage input.ResponseData
                PNRHashes := hashes }
            gcMetadatas := r.gcMetadatas }) ∨
    (∃ p g hashes ts, r.pnrs.lookup input.Id = some p ∧
      p.State = RequestStatePendingConfirmed ∧
      r.gcMetadatas.lookup input.Id = some g ∧
      ((NewRMTUsecase caller inMemory).submitPNRResponse lib response r input).2 = .ok {} ∧
      ((NewRMTUsecase caller inMemory).submitPNRResponse lib response r input).1
        = { pius := r.pius
            pnrs := r.pnrs.insert input.Id
              { p with
                ResponseTimestamp := input.ResponseTimestamp
                State := response
                ResponseData := OptionalMessage input.ResponseData
                PNRHashes := hashes }
            gcMetadatas := r.gcMetadatas.insert p.Id { g with CreationTimestamp := ts } }) := by
  cases hl : r.pnrs.lookup input.Id with
  | none =>
    left
    simp [submitPNRResponse, NewRMTUsecase, inMemory_GetPNR_eq, hl]
  | some p =>
    have hupd := fun q => inMemory_UpdatePNR_of_lookup r input.Id p q hl
    by_cases h1 : caller = p.RespondingPIU
    swap
    · left
      simp [submitPNRResponse, NewRMTUsecase, inMemory_GetPNR_eq, hl, isThisPIU, h1]
    by_cases h2 : p.State = RequestStatePendingConfirmed
    swap
    · left
      simp [submitPNRResponse, NewRMTUsecase, inMemory_GetPNR_eq, hl, isThisPIU, h1, h2]
    cases hg : r.gcMetadatas.lookup input.Id with
    | none =>
      left
      simp [submitPNRResponse, NewRMTUsecase, inMemory_GetPNR_eq, hl, isThisPIU, h1, h2,
        inMemory_GetGCMetadata_eq, hg]
    | some gc =>
      cases hloop : submitPNRResponseLoop lib
          (lib.gjson_Array (lib.gjson_Get (OptionalMessage input.ResponseData) pnrJSONKey)) []
          gc.CreationTimestamp with
      | error e =>
        left
        simp [submitPNRResponse, NewRMTUsecase, inMemory_GetPNR_eq, hl, isThisPIU, h1, h2,
          inMemory_GetGCMetadata_eq, hg, hloop]
      | ok res =>
        obtain ⟨hashes, ts⟩ := res
        cases hg2 : r.gcMetadatas.lookup p.Id with
        | none =>
          right; left
          refine ⟨p, gc, hashes, rfl, rfl, hg2, ?_⟩
          simp [submitPNRResponse, NewRMTUsecase, inMemory_GetPNR_eq, hl, isThisPIU, h1, h2,
            inMemory_GetGCMetadata_eq, hg, hloop, hupd, inMemory_UpdateGCMetadata_eq, hg2]
        | some g2 =>
          right; right
          refine ⟨p, gc, hashes, ts, rfl, h2, rfl, ?_, ?_⟩
          · simp [submitPNRResponse, NewRMTUsecase, inMemory_GetPNR_eq, hl, isThisPIU, h1, h2,
              inMemory_GetGCMetadata_eq, hg, hloop, hupd, inMemory_UpdateGCMetadata_eq, hg2]
          · simp [submitPNRResponse, NewRMTUsecase, inMemory_GetPNR_eq, hl, isThisPIU, h1, h2,
              inMemory_GetGCMetadata_eq, hg, hloop, hupd, inMemory_UpdateGCMetadata_eq, hg2]

theorem Inv_init : Inv NewInMemoryRepository := by
  constructor
  · intro k p hk
    simp [NewInMemoryRepository] at hk
  · intro k hk
    simp [NewInMemoryRepository] at hk

theorem confirmPNRSwitch_none {σ : Type} (u : RMTUsecase σ) (p : PNR)
    (h : u.confirmPNRSwitch p = none) (hn : IsNamedState p.State) :
    p.State = RequestStatePending ∨ p.State = RequestStateAck ∨ p.State = RequestStateNack := by
  rcases hn with hs | hs | hs | hs | hs | hs | hs
  · exact Or.inl hs
  · simp [confirmPNRSwitch, hs] at h
  · exact Or.inr (Or.inl hs)
  · simp [confirmPNRSwitch, hs] at h
  · exact Or.inr (Or.inr hs)
  · simp [confirmPNRSwitch, hs] at h
  · simp [confirmPNRSwitch, hs, RequestStateTerminated, RequestStatePendingConfirmed,
      RequestStateAckConfirmed, RequestStateNackConfirmed] at h

theorem RowOK_confirmedRow (pius : Table PIU) (gc : Table GCMetadata) (k : String) (p : PNR)
    (hrow : RowOK pius gc k p)
    (hs : p.State = RequestStatePending ∨ p.State = RequestStateAck
      ∨ p.State = RequestStateNack) :
    RowOK pius gc k (confirmedRow p) := by
  obtain ⟨id, rq, rs, t1, t2, st, d1, d2, hashes⟩ := p
  obtain ⟨h1, h2, h3, h4, h5, h6, h7⟩ := hrow
  simp only at h1 h3 h5 h6 h7 hs
  rcases hs with hs | hs | hs <;> subst hs
  · have hgc : (gc.lookup k).isSome = true := h3.2 (by decide)
    have hh := h5 (Or.inl rfl)
    simp [confirmedRow, GetConfirmedState, RowOK, IsNamedState, HasData, h1, hgc, hh, h6, h7,
      RequestStatePending, RequestStatePendingConfirmed, RequestStateAck,
      RequestStateAckConfirmed, RequestStateNack, RequestStateNackConfirmed,
      RequestStateTerminated]
  · have hgc : (gc.lookup k).isSome = true := h3.2 (by decide)
    simp [confirmedRow, GetConfirmedState, RowOK, IsNamedState, HasData, h1, hgc, h6, h7,
      RequestStatePending, RequestStatePendingConfirmed, RequestStateAck,
      RequestStateAckConfirmed, RequestStateNack, RequestStateNackConfirmed,
      RequestStateTerminated]
  · have hgc : (gc.lookup k).isSome = true := h3.2 (by decide)
    simp [confirmedRow, GetConfirmedState, RowOK, IsNamedState, HasData, h1, hgc, h6, h7,
      RequestStatePending, RequestStatePendingConfirmed, RequestStateAck,
      RequestStateAckConfirmed, RequestStateNack, RequestStateNackConfirmed,
      RequestStateTerminated]

theorem RowOK_terminatedRow (pius : Table PIU) (gc gc' : Table GCMetadata) (k : String)
    (p : PNR) (hrow : RowOK pius gc k p) (hg : gc'.lookup k = none) :
    RowOK pius gc' k (terminatedRow p) := by
  obtain ⟨h1, h2, h3, h4, h5, h6, h7⟩ := hrow
  simp [terminatedRow, RowOK, IsNamedState, HasData, h1, hg, h6, h7,
    RequestStatePending, RequestStatePendingConfirmed, RequestStateAck,
    RequestStateAckConfirmed, RequestStateNack, RequestStateNackConfirmed,
    RequestStateTerminated]

theorem RowOK_response (pius : Table PIU) (gc gc' : Table GCMetadata) (k : String) (p : PNR)
    (response : RequestState) (ts : Time) (data : String) (hashes : List String)
    (hrow : RowOK pius gc k p)
    (hresp : response = RequestStateAck ∨ response = RequestStateNack)
    (hg : (gc'.lookup k).isSome = true) :
    RowOK pius gc' k
      { p with ResponseTimestamp := ts, State := response, ResponseData := data,
               PNRHashes := hashes } := by
  obtain ⟨h1, h2, h3, h4, h5, h6, h7⟩ := hrow
  rcases hresp with hr | hr <;> subst hr <;>
    simp [RowOK, IsNamedState, HasData, h1, hg, h6, h7,
      RequestStatePending, RequestStatePendingConfirmed, RequestStateAck,
      RequestStateAckConfirmed, RequestStateNack, RequestStateNackConfirmed,
      RequestStateTerminated]

theorem lookup_insert_isSome_mono {V : Type} (t : Table V) (a : String) (v : V) (k : String)
    (h : (t.lookup k).isSome = true) : ((t.insert a v).lookup k).isSome = true := by
  by_cases hk : k = a
  · subst hk
    simp [AList.lookup_insert]
  · rw [AList.lookup_insert_ne hk]
    exact h

theorem submitPNRResponse_Inv (lib : Libs) (caller : String) (response : RequestState)
    (hresp : response = RequestStateAck ∨ response = RequestStateNack)
    (r : InMemoryRepository) (input : SubmitPNRResponseInput) (hinv : Inv r) :
    Inv ((NewRMTUsecase caller inMemory).submitPNRResponse lib response r input).1 := by
  rcases submitPNRResponse_cases lib caller response r input with
    ⟨h, -⟩ | ⟨p, g, hashes, hl, hg, hg2, -⟩ | ⟨p, g, hashes, ts, hl, hst, hg, -, h⟩
  · rw [h]
    exact hinv
  · have hid := (hinv.1 _ p hl).1
    rw [hid, hg] at hg2
    cases hg2
  · have hrow := hinv.1 _ p hl
    have hid := hrow.1
    rw [h, hid]
    refine Inv_update r _ input.Id _ hinv (AList.lookup_insert _) ?_
      (fun k hk => AList.lookup_insert_ne hk) (fun k hk => AList.lookup_insert_ne hk)
      (fun k hk => hk)
    have hg' : ((r.gcMetadatas.insert input.Id
        { g with CreationTimestamp := ts }).lookup input.Id).isSome = true := by
      rw [AList.lookup_insert]
      rfl
    have hp' : ({ p with Id := input.Id } : PNR) = p := by
      rw [← hid]
    have hrow' : RowOK r.pius r.gcMetadatas input.Id { p with Id := input.Id } := by
      rw [hp']
      exact hrow
    exact RowOK_response _ _ _ _ _ _ _ _ _ hrow' hresp hg'

/-- Every usecase operation keeps the invariant. -/
theorem invoke_Inv (lib : Libs) (caller : String) (r : InMemoryRepository) (op : Op)
    (hinv : Inv r) : Inv (invoke lib caller r op).1 := by
  cases op with
  | SetPIUInfo input =>
    obtain ⟨piu, h, -⟩ := SetPIUInfo_effect caller r input
    simp only [invoke, h]
    exact Inv_pius r _ hinv (fun k hk => lookup_insert_isSome_mono _ _ _ _ hk)
  | GetPIUs input => exact hinv
  | GetPNRs input => exact hinv
  | NewPNRRequest input =>
    simp only [invoke]
    rcases NewPNRRequest_cases caller r input with
      h | ⟨hl, hg, -⟩ | ⟨hl, hg, hne, hpiu, h⟩
    · rw [h]
      exact hinv
    · have := hinv.2 _ hg
      rw [hl] at this
      cases this
    · rw [h]
      refine Inv_update r _ input.Id _ hinv (AList.lookup_insert _) ?_
        (fun k hk => AList.lookup_insert_ne hk) (fun k hk => AList.lookup_insert_ne hk)
        (fun k hk => hk)
      simp [RowOK, IsNamedState, HasData, hne, hpiu, AList.lookup_insert,
        RequestStatePending, RequestStatePendingConfirmed, RequestStateAck,
        RequestStateAckConfirmed, RequestStateNack, RequestStateNackConfirmed,
        RequestStateTerminated]
  | SubmitPNRResponseAck input =>
    exact submitPNRResponse_Inv lib caller _ (Or.inl rfl) r input hinv
  | SubmitPNRResponseNack input =>
    exact submitPNRResponse_Inv lib caller _ (Or.inr rfl) r input hinv
  | ConfirmPNR input =>
    simp only [invoke]
    rcases ConfirmPNR_cases caller r input with h | ⟨p, hl, hsw, h⟩
    · rw [h]
      exact hinv
    · have hrow := hinv.1 _ p hl
      rw [h]
      refine Inv_update r _ input.Id _ hinv (AList.lookup_insert _) ?_
        (fun k hk => AList.lookup_insert_ne hk) (fun k _ => rfl) (fun k hk => hk)
      exact RowOK_confirmedRow _ _ _ _ hrow (confirmPNRSwitch_none _ p hsw hrow.2.1)
  | TerminatePNRRequest input =>
    simp only [invoke]
    rcases TerminatePNRRequest_cases caller r input with
      ⟨_, h⟩ | ⟨p, _, _, _, h⟩ | ⟨p, hl, _, hg, h⟩ | ⟨p, g, hl, _, hg, h⟩
    · rw [h]
      exact hinv
    · rw [h]
      exact hinv
    · rw [h]
      refine Inv_update r _ input.Id _ hinv (AList.lookup_insert _) ?_
        (fun k hk => AList.lookup_insert_ne hk) (fun k _ => rfl) (fun k hk => hk)
      exact RowOK_terminatedRow _ _ _ _ _ (hinv.1 _ p hl) hg
    · rw [h]
      refine Inv_update r _ input.Id _ hinv (AList.lookup_insert _) ?_
        (fun k hk => AList.lookup_insert_ne hk) (fun k hk => AList.lookup_erase_ne hk)
        (fun k hk => hk)
      exact RowOK_terminatedRow _ _ _ _ _ (hinv.1 _ p hl) (AList.lookup_erase _ _)

theorem Reachable_Inv (lib : Libs) (r : InMemoryRepository) (h : Reachable lib r) : Inv r := by
  induction h with
  | init => exact Inv_init
  | step caller op _ ih => exact invoke_Inv lib caller _ op ih

theorem Steps_Inv (lib : Libs) (r r' : InMemoryRepository) (hinv : Inv r)
    (h : Steps lib r r') : Inv r' := by
  induction h with
  | refl => exact hinv
  | step caller op _ ih => exact invoke_Inv lib caller _ op ih

theorem Reachable_runCalls (lib : Libs) (calls : List (String × Op)) :
    ∀ r, Reachable lib r → Reachable lib (runCalls lib calls r) := by
  induction calls with
  | nil => exact fun r h => h
  | cons c rest ih =>
    intro r h
    obtain ⟨caller, op⟩ := c
    exact ih _ (Reachable.step caller op h)

/-- Counterexample to C14: after the happy path up to `AckConfirmed` the GC row
of the PNR is still stored (`ConfirmPNR` purges the payload but does not delete
the GC row). -/
theorem gc_row_iff_counterexample :
    Reachable noRecordLibs (runCalls noRecordLibs ackConfirmedCalls NewInMemoryRepository) ∧
    ((runCalls noRecordLibs ackConfirmedCalls NewInMemoryRepository).pnrs.lookup "pnr1").map
        PNR.State = some RequestStateAckConfirmed ∧
    ((runCalls noRecordLibs ackConfirmedCalls NewInMemoryRepository).pnrs.lookup "pnr1").map
        PNR.Id = some "pnr1" ∧
    ((runCalls noRecordLibs ackConfirmedCalls NewInMemoryRepository).gcMetadatas.lookup
        "pnr1").isSome = true :=
  ⟨Reachable_runCalls _ _ _ Reachable.init, by decide, by decide, by decide⟩

/-- C14 (amended): in every state reachable from the empty in-memory
repository, for every stored PNR a GC row with the PNR's id exists if and only
if the PNR's state is `Pending`, `PendingConfirmed`, `Ack`, `Nack`,
`AckConfirmed` or `NackConfirmed`; no GC row exists for a `Terminated` PNR. -/
theorem Reachable_gc_row_iff (lib : Libs) (r : InMemoryRepository) (h : Reachable lib r)
    (k : String) (p : PNR) (hp : r.pnrs.lookup k = some p) :
    ((r.gcMetadatas.lookup p.Id).isSome = true ↔
      (p.State = RequestStatePending ∨ p.State = RequestStatePendingConfirmed ∨
       p.State = RequestStateAck ∨ p.State = RequestStateNack ∨
       p.State = RequestStateAckConfirmed ∨ p.State = RequestStateNackConfirmed)) ∧
    (p.State = RequestStateTerminated → r.gcMetadatas.lookup p.Id = none) := by
  obtain ⟨h1, h2, h3, -⟩ := (Reachable_Inv lib r h).1 k p hp
  rw [h1]
  constructor
  · rw [h3]
    constructor
    · intro hne
      rcases h2 with hs | hs | hs | hs | hs | hs | hs
      · exact Or.inl hs
      · exact Or.inr (Or.inl hs)
      · exact Or.inr (Or.inr (Or.inl hs))
      · exact Or.inr (Or.inr (Or.inr (Or.inr (Or.inl hs))))
      · exact Or.inr (Or.inr (Or.inr (Or.inl hs)))
      · exact Or.inr (Or.inr (Or.inr (Or.inr (Or.inr hs))))
      · exact absurd hs hne
    · intro hs hterm
      rw [hterm] at hs
      revert hs
      decide
  · intro hterm
    have : ¬ (r.gcMetadatas.lookup k).isSome = true := fun hg => (h3.1 hg) hterm
    simpa using this

/-- Witness for C14: the PNR of the happy path, `AckConfirmed`, has its GC row. -/
theorem Reachable_gc_row_iff_witness :
    ((runCalls noRecordLibs ackConfirmedCalls NewInMemoryRepository).gcMetadatas.lookup
        "pnr1").isSome = true :=
  (Reachable_gc_row_iff noRecordLibs
    (runCalls noRecordLibs ackConfirmedCalls NewInMemoryRepository)
    (Reachable_runCalls _ _ _ Reachable.init) "pnr1" ackConfirmedPNR (by decide)).1.2
    (by decide)

/-- Counterexample to C15: a request created without a payload is `Pending`
(a state with data) while both payload fields are empty. -/
theorem HasData_iff_payload_counterexample :
    Reachable noRecordLibs (runCalls noRecordLibs emptyPayloadCalls NewInMemoryRepository) ∧
    ∃ p, (runCalls noRecordLibs emptyPayloadCalls NewInMemoryRepository).pnrs.lookup "pnr1"
        = some p ∧
      ¬ (HasData p.State = true ↔ (p.RequestData ≠ "" ∨ p.ResponseData ≠ "")) :=
  ⟨Reachable_runCalls _ _ _ Reachable.init,
    { Id := "pnr1"
      RequestingPIU := "piu1"
      RespondingPIU := "piu2"
      RequestTimestamp := MiddleTimestamp
      ResponseTimestamp := Time.zero
      State := RequestStatePending
      RequestData := ""
      ResponseData := ""
      PNRHashes := [] }, by decide, by decide⟩

/-- C15 (amended): in every reachable state, every stored PNR with a non-empty
`RequestData` or `ResponseData` is in a state with `HasData`; equivalently, in
the states without data (`AckConfirmed`, `NackConfirmed`, `Terminated`) both
payload fields are empty. -/
theorem Reachable_payload_HasData (lib : Libs) (r : InMemoryRepository)
    (h : Reachable lib r) (k : String) (p : PNR) (hp : r.pnrs.lookup k = some p) :
    ((p.RequestData ≠ "" ∨ p.ResponseData ≠ "") → HasData p.State = true) ∧
    (HasData p.State = false → p.RequestData = "" ∧ p.ResponseData = "") ∧
    (p.State = RequestStateAckConfirmed ∨ p.State = RequestStateNackConfirmed ∨
      p.State = RequestStateTerminated → p.RequestData = "" ∧ p.ResponseData = "") := by
  obtain ⟨-, -, -, h4, -⟩ := (Reachable_Inv lib r h).1 k p hp
  refine ⟨?_, h4, ?_⟩
  · intro hne
    by_contra hd
    have hd' : HasData p.State = false := by simpa using hd
    obtain ⟨e1, e2⟩ := h4 hd'
    rcases hne with hne | hne
    · exact hne e1
    · exact hne e2
  · intro hs
    apply h4
    simp only [HasData]
    rw [if_pos hs]

/-- Witness for C15: after the happy path the `AckConfirmed` PNR has no payload. -/
theorem Reachable_payload_HasData_witness :
    (runCalls noRecordLibs ackConfirmedCalls NewInMemoryRepository).pnrs.lookup "pnr1"
      = some ackConfirmedPNR ∧
    ackConfirmedPNR.RequestData = "" ∧ ackConfirmedPNR.ResponseData = "" :=
  have hp : (runCalls noRecordLibs ackConfirmedCalls NewInMemoryRepository).pnrs.lookup "pnr1"
      = some ackConfirmedPNR := by decide
  ⟨hp, (Reachable_payload_HasData noRecordLibs
    (runCalls noRecordLibs ackConfirmedCalls NewInMemoryRepository)
    (Reachable_runCalls _ _ _ Reachable.init) "pnr1" ackConfirmedPNR hp).2.2 (Or.inl rfl)⟩

theorem NoData_of_lookup_eq (r r' : InMemoryRepository) (id : String)
    (h : r'.pnrs.lookup id = r.pnrs.lookup id) (hn : NoData r id) : NoData r' id := by
  obtain ⟨p, hp, hd⟩ := hn
  exact ⟨p, by rw [h]; exact hp, hd⟩

theorem submitPNRResponse_NoData (lib : Libs) (caller : String) (response : RequestState)
    (r : InMemoryRepository) (input : SubmitPNRResponseInput) (id : String) (hinv : Inv r)
    (hn : NoData r id) :
    NoData ((NewRMTUsecase caller inMemory).submitPNRResponse lib response r input).1 id := by
  rcases submitPNRResponse_cases lib caller response r input with
    ⟨h, -⟩ | ⟨p, g, hashes, hl, hg, hg2, -⟩ | ⟨p, g, hashes, ts, hl, hst, hg, -, h⟩
  · rw [h]
    exact hn
  · have hid := (hinv.1 _ p hl).1
    rw [hid, hg] at hg2
    cases hg2
  · rw [h]
    by_cases hk : id = input.Id
    · obtain ⟨p0, hp0, hd⟩ := hn
      rw [hk, hl] at hp0
      cases hp0
      rw [hst] at hd
      exact absurd hd (by decide)
    · exact NoData_of_lookup_eq r _ id (AList.lookup_insert_ne hk) hn

/-- A PNR in a state without data stays in a state without data. -/
theorem invoke_NoData (lib : Libs) (caller : String) (r : InMemoryRepository) (op : Op)
    (id : String) (hinv : Inv r) (hn : NoData r id) : NoData (invoke lib caller r op).1 id := by
  cases op with
  | SetPIUInfo input =>
    obtain ⟨piu, h, -⟩ := SetPIUInfo_effect caller r input
    simp only [invoke, h]
    exact hn
  | GetPIUs input => exact hn
  | GetPNRs input => exact hn
  | NewPNRRequest input =>
    simp only [invoke]
    rcases NewPNRRequest_cases caller r input with
      h | ⟨hl, hg, -⟩ | ⟨hl, hg, hne, hpiu, h⟩
    · rw [h]
      exact hn
    · have := hinv.2 _ hg
      rw [hl] at this
      cases this
    · rw [h]
      have hk : id ≠ input.Id := by
        rintro rfl
        obtain ⟨p0, hp0, -⟩ := hn
        rw [hl] at hp0
        cases hp0
      exact NoData_of_lookup_eq r _ id (AList.lookup_insert_ne hk) hn
  | SubmitPNRResponseAck input => exact submitPNRResponse_NoData lib caller _ r input id hinv hn
  | SubmitPNRResponseNack input => exact submitPNRResponse_NoData lib caller _ r input id hinv hn
  | ConfirmPNR input =>
    simp only [invoke]
    rcases ConfirmPNR_cases caller r input with h | ⟨p, hl, hsw, h⟩
    · rw [h]
      exact hn
    · rw [h]
      by_cases hk : id = input.Id
      · obtain ⟨p0, hp0, hd⟩ := hn
        rw [hk, hl] at hp0
        cases hp0
        rcases confirmPNRSwitch_none _ p hsw (hinv.1 _ p hl).2.1 with hs | hs | hs <;>
          · rw [hs] at hd
            exact absurd hd (by decide)
      · exact NoData_of_lookup_eq r _ id (AList.lookup_insert_ne hk) hn
  | TerminatePNRRequest input =>
    simp only [invoke]
    have hterm : ∀ (p : PNR) (gc : Table GCMetadata),
        NoData { pius := r.pius
                 pnrs := r.pnrs.insert input.Id
                   { p with
                     State := RequestStateTerminated, RequestData := "", ResponseData := "" }
                 gcMetadatas := gc } id := by
      intro p gc
      by_cases hk : id = input.Id
      · subst hk
        exact ⟨_, AList.lookup_insert _, by
          show HasData RequestStateTerminated = false
          decide⟩
      · exact NoData_of_lookup_eq r _ id (AList.lookup_insert_ne hk) hn
    rcases TerminatePNRRequest_cases caller r input with
      ⟨_, h⟩ | ⟨p, _, _, _, h⟩ | ⟨p, hl, _, hg, h⟩ | ⟨p, g, hl, _, hg, h⟩
    · rw [h]
      exact hn
    · rw [h]
      exact hn
    · rw [h]
      exact hterm p _
    · rw [h]
      exact hterm p _

theorem Steps_NoData (lib : Libs) (r r' : InMemoryRepository) (id : String) (hinv : Inv r)
    (hn : NoData r id) (h : Steps lib r r') : Inv r' ∧ NoData r' id := by
  induction h with
  | refl => exact ⟨hinv, hn⟩
  | step caller op _ ih => exact ⟨invoke_Inv lib caller _ op ih.1, invoke_NoData lib caller _ op id ih.1 ih.2⟩

/-- C16 (amended): over the in-memory repository, where all callers share one
store, once a PNR has reached `AckConfirmed` or `NackConfirmed` (in a state
reachable from the empty repository), then after any further sequence of
usecase operations by any callers, every `GetPNRs` result shows that PNR with
empty `RequestData` and `ResponseData`, in one of the states `AckConfirmed`,
`NackConfirmed`, `Terminated`. -/
theorem purged_payload_never_reappears (lib : Libs) (r r' : InMemoryRepository) (id : String)
    (hr : Reachable lib r)
    (hc : ∃ p, r.pnrs.lookup id = some p ∧
      (p.State = RequestStateAckConfirmed ∨ p.State = RequestStateNackConfirmed))
    (hsteps : Steps lib r r') (caller : String) (f : PNRFilter) (out : List PNR)
    (hout : ((NewRMTUsecase caller inMemory).GetPNRs r' f).2 = .ok out)
    (q : PNR) (hq : q ∈ out) (hid : q.Id = id) :
    q.RequestData = "" ∧ q.ResponseData = "" ∧
      (q.State = RequestStateAckConfirmed ∨ q.State = RequestStateNackConfirmed ∨
        q.State = RequestStateTerminated) := by
  have hn : NoData r id := by
    obtain ⟨p, hp, hs⟩ := hc
    refine ⟨p, hp, ?_⟩
    rcases hs with hs | hs <;>
      · rw [hs]
        decide
  obtain ⟨hinv', p', hp', hd'⟩ := Steps_NoData lib r r' id (Reachable_Inv lib r hr) hn hsteps
  have hout' : out = (r'.pnrs.entries.map (fun e : (_ : String) × PNR => e.2)).filter
      (fun entity => IsMatchingPNR f entity) := by
    have : ((NewRMTUsecase caller inMemory).GetPNRs r' f).2
        = .ok ((r'.pnrs.entries.map (fun e : (_ : String) × PNR => e.2)).filter
            (fun entity => IsMatchingPNR f entity)) := rfl
    rw [this] at hout
    exact (Except.ok.inj hout).symm
  rw [hout'] at hq
  obtain ⟨e, he, rfl⟩ := List.mem_map.1 (List.mem_filter.1 hq).1
  have hlk := lookup_of_mem_entries _ e he
  have hrow := hinv'.1 _ _ hlk
  have hkey : e.1 = id := hrow.1.symm.trans hid
  rw [hkey, hp'] at hlk
  cases hlk
  obtain ⟨e1, e2⟩ := hrow.2.2.2.1 hd'
  refine ⟨e1, e2, ?_⟩
  by_contra hne
  have : HasData e.2.State = true := by
    simp only [HasData]
    rw [if_neg hne]
  rw [this] at hd'
  cases hd'

/-- Witness for C16 (amended): after the happy path over the in-memory
repository, `piu2` terminates the PNR; `piu1` still sees it without payload. -/
theorem purged_payload_never_reappears_witness :
    ((NewRMTUsecase "piu1" inMemory).GetPNRs
        (invoke noRecordLibs "piu2"
          (runCalls noRecordLibs ackConfirmedCalls NewInMemoryRepository)
          (.TerminatePNRRequest ⟨"pnr1"⟩)).1 emptyFilter).2
      = .ok [{ ackConfirmedPNR with State := RequestStateTerminated }] ∧
    ackConfirmedPNR.RequestData = "" ∧ ackConfirmedPNR.ResponseData = "" :=
  have hout : ((NewRMTUsecase "piu1" inMemory).GetPNRs
        (invoke noRecordLibs "piu2"
          (runCalls noRecordLibs ackConfirmedCalls NewInMemoryRepository)
          (.TerminatePNRRequest ⟨"pnr1"⟩)).1 emptyFilter).2
      = .ok [{ ackConfirmedPNR with State := RequestStateTerminated }] := by decide
  have h := purged_payload_never_reappears noRecordLibs
    (runCalls noRecordLibs ackConfirmedCalls NewInMemoryRepository)
    (invoke noRecordLibs "piu2"
      (runCalls noRecordLibs ackConfirmedCalls NewInMemoryRepository)
      (.TerminatePNRRequest ⟨"pnr1"⟩)).1 "pnr1"
    (Reachable_runCalls _ _ _ Reachable.init)
    ⟨ackConfirmedPNR, by decide, Or.inl rfl⟩
    (Steps.step "piu2" (.TerminatePNRRequest ⟨"pnr1"⟩) Steps.refl)
    "piu1" emptyFilter [{ ackConfirmedPNR with State := RequestStateTerminated }]
    hout { ackConfirmedPNR with State := RequestStateTerminated }
    (List.mem_singleton.2 rfl) rfl
  ⟨hout, h.1, h.2.1⟩

theorem UpdatePIUFromPIUInfo_Id (u : PIU) (input : PIUInfo) :
    (UpdatePIUFromPIUInfo u input).Id = u.Id := by
  unfold UpdatePIUFromPIUInfo
  by_cases h1 : input.Name = "" <;> by_cases h2 : input.AdminEmail = "" <;> simp [h1, h2]

/-- The PIU table after an operation: unchanged, or the caller's row written by
`SetPIUInfo`. -/
theorem invoke_pius (lib : Libs) (caller : String) (r : InMemoryRepository) (op : Op) :
    (invoke lib caller r op).1.pius = r.pius ∨
    ∃ piu, (invoke lib caller r op).1.pius = r.pius.insert caller piu ∧
      (piu.Id = caller ∨ ∃ u, r.pius.lookup caller = some u ∧ piu.Id = u.Id) := by
  cases op with
  | SetPIUInfo input =>
    obtain ⟨piu, h, hp⟩ := SetPIUInfo_effect caller r input
    right
    refine ⟨piu, by simp only [invoke, h], ?_⟩
    rcases hp with hp | ⟨u, hu, hp⟩
    · left
      rw [hp]
      rfl
    · right
      exact ⟨u, hu, by rw [hp, UpdatePIUFromPIUInfo_Id]⟩
  | GetPIUs input => exact Or.inl rfl
  | GetPNRs input => exact Or.inl rfl
  | NewPNRRequest input =>
    left
    simp only [invoke]
    rcases NewPNRRequest_cases caller r input with h | ⟨_, _, p, h⟩ | ⟨_, _, _, _, h⟩ <;>
      rw [h]
  | SubmitPNRResponseAck input =>
    left
    simp only [invoke, SubmitPNRResponseAck]
    rcases submitPNRResponse_cases lib caller RequestStateAck r input with
      ⟨h, -⟩ | ⟨p, g, hashes, _, _, _, h⟩ | ⟨p, g, hashes, ts, _, _, _, _, h⟩ <;> rw [h]
  | SubmitPNRResponseNack input =>
    left
    simp only [invoke, SubmitPNRResponseNack]
    rcases submitPNRResponse_cases lib caller RequestStateNack r input with
      ⟨h, -⟩ | ⟨p, g, hashes, _, _, _, h⟩ | ⟨p, g, hashes, ts, _, _, _, _, h⟩ <;> rw [h]
  | ConfirmPNR input =>
    left
    simp only [invoke]
    rcases ConfirmPNR_cases caller r input with h | ⟨p, _, _, h⟩ <;> rw [h]
  | TerminatePNRRequest input =>
    left
    simp only [invoke]
    rcases TerminatePNRRequest_cases caller r input with
      ⟨_, h⟩ | ⟨p, _, _, _, h⟩ | ⟨p, _, _, _, h⟩ | ⟨p, g, _, _, _, h⟩ <;> rw [h]

theorem invoke_PiuInv (lib : Libs) (caller : String) (r : InMemoryRepository) (op : Op)
    (hinv : PiuInv r) : PiuInv (invoke lib caller r op).1 := by
  rcases invoke_pius lib caller r op with h | ⟨piu, h, hp⟩
  · intro k u hk
    rw [h] at hk
    exact hinv k u hk
  · intro k u hk
    rw [h] at hk
    by_cases hkc : k = caller
    · subst hkc
      rw [AList.lookup_insert] at hk
      cases hk
      rcases hp with hp | ⟨u0, hu0, hp⟩
      · exact hp
      · rw [hp]
        exact hinv _ u0 hu0
    · rw [AList.lookup_insert_ne hkc] at hk
      exact hinv k u hk

theorem Reachable_PiuInv (lib : Libs) (r : InMemoryRepository) (h : Reachable lib r) :
    PiuInv r := by
  induction h with
  | init =>
    intro k u hk
    simp [NewInMemoryRepository] at hk
  | step caller op _ ih => exact invoke_PiuInv lib caller _ op ih

/-- C18: in every state reachable from the empty repository, every PNR returned
by `GetPNRs` has a requesting PIU different from its responding PIU, and its
responding PIU is the id of a stored PIU. -/
theorem Reachable_GetPNRs_parties (lib : Libs) (r : InMemoryRepository) (h : Reachable lib r)
    (caller : String) (f : PNRFilter) (out : List PNR)
    (hout : ((NewRMTUsecase caller inMemory).GetPNRs r f).2 = .ok out)
    (q : PNR) (hq : q ∈ out) :
    q.RequestingPIU ≠ q.RespondingPIU ∧
      ∃ u, r.pius.lookup q.RespondingPIU = some u ∧ u.Id = q.RespondingPIU := by
  have hout' : out = (r.pnrs.entries.map (fun e : (_ : String) × PNR => e.2)).filter
      (fun entity => IsMatchingPNR f entity) := by
    have : ((NewRMTUsecase caller inMemory).GetPNRs r f).2
        = .ok ((r.pnrs.entries.map (fun e : (_ : String) × PNR => e.2)).filter
            (fun entity => IsMatchingPNR f entity)) := rfl
    rw [this] at hout
    exact (Except.ok.inj hout).symm
  rw [hout'] at hq
  obtain ⟨e, he, rfl⟩ := List.mem_map.1 (List.mem_filter.1 hq).1
  obtain ⟨-, -, -, -, -, h6, h7⟩ := (Reachable_Inv lib r h).1 _ _ (lookup_of_mem_entries _ e he)
  refine ⟨h6, ?_⟩
  cases hu : r.pius.lookup e.2.RespondingPIU with
  | none => simp [hu] at h7
  | some u => exact ⟨u, rfl, Reachable_PiuInv lib r h _ u hu⟩

/-- Witness for C18: the PNR listed after the happy path. -/
theorem Reachable_GetPNRs_parties_witness :
    ackConfirmedPNR.RequestingPIU ≠ ackConfirmedPNR.RespondingPIU ∧
      ∃ u, (runCalls noRecordLibs ackConfirmedCalls NewInMemoryRepository).pius.lookup
        ackConfirmedPNR.RespondingPIU = some u ∧ u.Id = ackConfirmedPNR.RespondingPIU :=
  Reachable_GetPNRs_parties noRecordLibs
    (runCalls noRecordLibs ackConfirmedCalls NewInMemoryRepository)
    (Reachable_runCalls _ _ _ Reachable.init) "piu1" emptyFilter [ackConfirmedPNR]
    (by decide) ackConfirmedPNR (List.mem_singleton.2 rfl)

theorem confirmedRow_PNRHashes (p : PNR) : (confirmedRow p).PNRHashes = p.PNRHashes := by
  unfold confirmedRow
  split <;> rfl

theorem ConfirmPNR_PNRHashes (caller : String) (r : InMemoryRepository)
    (input : ConfirmPNRInput) (k : String) :
    (((NewRMTUsecase caller inMemory).ConfirmPNR r input).1.pnrs.lookup k).map PNR.PNRHashes
      = (r.pnrs.lookup k).map PNR.PNRHashes := by
  rcases ConfirmPNR_cases caller r input with h | ⟨p, hl, -, h⟩
  · rw [h]
  · rw [h]
    by_cases hk : k = input.Id
    · subst hk
      simp [AList.lookup_insert, hl, confirmedRow_PNRHashes]
    · simp only [AList.lookup_insert_ne hk]

theorem TerminatePNRRequest_PNRHashes (caller : String) (r : InMemoryRepository)
    (input : TerminatePNRRequestInput) (k : String) :
    (((NewRMTUsecase caller inMemory).TerminatePNRRequest r input).1.pnrs.lookup k).map
        PNR.PNRHashes
      = (r.pnrs.lookup k).map PNR.PNRHashes := by
  rcases TerminatePNRRequest_cases caller r input with
    ⟨_, h⟩ | ⟨p, _, _, _, h⟩ | ⟨p, hl, _, _, h⟩ | ⟨p, g, hl, _, _, h⟩
  · rw [h]
  · rw [h]
  · rw [h]
    by_cases hk : k = input.Id
    · subst hk
      simp [AList.lookup_insert, hl]
    · simp only [AList.lookup_insert_ne hk]
  · rw [h]
    by_cases hk : k = input.Id
    · subst hk
      simp [AList.lookup_insert, hl]
    · simp only [AList.lookup_insert_ne hk]

theorem HashInv_of_map (r r' : InMemoryRepository) (ids ids' : List String)
    (hsub : ∀ k, k ∉ ids' → k ∉ ids)
    (hmap : ∀ k p', r'.pnrs.lookup k = some p' → k ∉ ids' →
      p'.PNRHashes = [] ∨ ∃ p, r.pnrs.lookup k = some p ∧ p.PNRHashes = p'.PNRHashes)
    (hh : HashInv r ids) : HashInv r' ids' := by
  intro k p' hk hnot
  rcases hmap k p' hk hnot with h | ⟨p, hp, he⟩
  · exact h
  · rw [← he]
    exact hh k p hp (hsub k hnot)

theorem HashInv_of_hashes_eq (r r' : InMemoryRepository) (ids : List String)
    (hmap : ∀ k, (r'.pnrs.lookup k).map PNR.PNRHashes = (r.pnrs.lookup k).map PNR.PNRHashes)
    (hh : HashInv r ids) : HashInv r' ids := by
  refine HashInv_of_map r r' ids ids (fun _ h => h) ?_ hh
  intro k p' hk _
  right
  have := hmap k
  rw [hk] at this
  cases hp : r.pnrs.lookup k with
  | none => simp [hp] at this
  | some p =>
    rw [hp] at this
    exact ⟨p, rfl, (Option.some.inj this).symm⟩

theorem submitPNRResponse_HashInv (lib : Libs) (caller : String) (response : RequestState)
    (r : InMemoryRepository) (input : SubmitPNRResponseInput) (ids : List String)
    (hinv : Inv r) (hh : HashInv r ids) :
    HashInv ((NewRMTUsecase caller inMemory).submitPNRResponse lib response r input).1
      ((if errorOf ((NewRMTUsecase caller inMemory).submitPNRResponse lib response r input).2
          = none then [input.Id] else []) ++ ids) := by
  rcases submitPNRResponse_cases lib caller response r input with
    ⟨h, -⟩ | ⟨p, g, hashes, hl, hg, hg2, -⟩ | ⟨p, g, hashes, ts, hl, hst, hg, hok, h⟩
  · rw [h]
    intro k p hk hnot
    exact hh k p hk (fun hmem => hnot (List.mem_append_right _ hmem))
  · have hid := (hinv.1 _ p hl).1
    rw [hid, hg] at hg2
    cases hg2
  · rw [h, hok]
    simp only [errorOf, if_true]
    intro k p' hk hnot
    have hne : k ≠ input.Id := by
      rintro rfl
      exact hnot (by simp)
    have hnot' : k ∉ ids := fun hmem => hnot (by simp [hmem])
    rw [AList.lookup_insert_ne hne] at hk
    exact hh k p' hk hnot'

theorem invoke_HashInv (lib : Libs) (caller : String) (r : InMemoryRepository) (op : Op)
    (ids : List String) (hinv : Inv r) (hh : HashInv r ids) :
    HashInv (invoke lib caller r op).1 (respondedId lib caller r op ++ ids) := by
  cases op with
  | SetPIUInfo input =>
    obtain ⟨piu, h, -⟩ := SetPIUInfo_effect caller r input
    simp only [invoke, respondedId, List.nil_append, h]
    exact hh
  | GetPIUs input => exact hh
  | GetPNRs input => exact hh
  | NewPNRRequest input =>
    simp only [invoke, respondedId, List.nil_append]
    rcases NewPNRRequest_cases caller r input with
      h | ⟨hl, hg, -⟩ | ⟨hl, hg, hne, hpiu, h⟩
    · rw [h]
      exact hh
    · have := hinv.2 _ hg
      rw [hl] at this
      cases this
    · rw [h]
      intro k p' hk hnot
      by_cases hkid : k = input.Id
      · subst hkid
        rw [AList.lookup_insert] at hk
        cases hk
        rfl
      · rw [AList.lookup_insert_ne hkid] at hk
        exact hh k p' hk hnot
  | SubmitPNRResponseAck input =>
    exact submitPNRResponse_HashInv lib caller _ r input ids hinv hh
  | SubmitPNRResponseNack input =>
    exact submitPNRResponse_HashInv lib caller _ r input ids hinv hh
  | ConfirmPNR input =>
    simp only [invoke, respondedId, List.nil_append]
    exact HashInv_of_hashes_eq r _ ids (ConfirmPNR_PNRHashes caller r input) hh
  | TerminatePNRRequest input =>
    simp only [invoke, respondedId, List.nil_append]
    exact HashInv_of_hashes_eq r _ ids (TerminatePNRRequest_PNRHashes caller r input) hh

theorem ReachableResponded_Reachable (lib : Libs) (r : InMemoryRepository) (ids : List String)
    (h : ReachableResponded lib r ids) : Reachable lib r := by
  induction h with
  | init => exact Reachable.init
  | step caller op _ ih => exact Reachable.step caller op ih

theorem ReachableResponded_HashInv (lib : Libs) (r : InMemoryRepository) (ids : List String)
    (h : ReachableResponded lib r ids) : HashInv r ids := by
  induction h with
  | init =>
    intro k p hk
    simp [NewInMemoryRepository] at hk
  | step caller op hprev ih =>
    exact invoke_HashInv lib caller _ op _
      (Reachable_Inv lib _ (ReachableResponded_Reachable lib _ _ hprev)) ih

/-- C17: in every reachable state, with `ids` the ids on which a response
submission has succeeded so far, every stored PNR whose id is not in `ids` has
an empty `PNRHashes`; in particular every PNR in state `Pending` or
`PendingConfirmed` has. `ConfirmPNR` and `TerminatePNRRequest` never change
the `PNRHashes` of any stored PNR, in any repository state. -/
theorem hashes_empty_before_response (lib : Libs) (r : InMemoryRepository)
    (ids : List String) (h : ReachableResponded lib r ids) :
    (∀ k p, r.pnrs.lookup k = some p →
      (k ∉ ids → p.PNRHashes = []) ∧
      (p.State = RequestStatePending ∨ p.State = RequestStatePendingConfirmed →
        p.PNRHashes = [])) ∧
    (∀ (r0 : InMemoryRepository) (caller : String) (input : ConfirmPNRInput) (k : String),
      (((NewRMTUsecase caller inMemory).ConfirmPNR r0 input).1.pnrs.lookup k).map PNR.PNRHashes
        = (r0.pnrs.lookup k).map PNR.PNRHashes) ∧
    (∀ (r0 : InMemoryRepository) (caller : String) (input : TerminatePNRRequestInput)
        (k : String),
      (((NewRMTUsecase caller inMemory).TerminatePNRRequest r0 input).1.pnrs.lookup k).map
          PNR.PNRHashes
        = (r0.pnrs.lookup k).map PNR.PNRHashes) := by
  refine ⟨?_, fun r0 caller input k => ConfirmPNR_PNRHashes caller r0 input k,
    fun r0 caller input k => TerminatePNRRequest_PNRHashes caller r0 input k⟩
  intro k p hp
  exact ⟨ReachableResponded_HashInv lib r ids h k p hp,
    ((Reachable_Inv lib r (ReachableResponded_Reachable lib r ids h)).1 k p hp).2.2.2.2.1⟩

/-- Witness for C17: `piu2` registers and `piu1` sends a request; no response
has been submitted and the stored PNR has no hashes. -/
theorem hashes_empty_before_response_witness :
    (invoke noRecordLibs "piu1"
        (invoke noRecordLibs "piu2" NewInMemoryRepository
          (.SetPIUInfo ⟨"PIU 2", "admin@piu2.org"⟩)).1
        (.NewPNRRequest someNewRequest)).1.pnrs.lookup "pnr1" = some pendingPNR ∧
    pendingPNR.PNRHashes = [] :=
  have hp : (invoke noRecordLibs "piu1"
        (invoke noRecordLibs "piu2" NewInMemoryRepository
          (.SetPIUInfo ⟨"PIU 2", "admin@piu2.org"⟩)).1
        (.NewPNRRequest someNewRequest)).1.pnrs.lookup "pnr1" = some pendingPNR := by decide
  ⟨hp, ((hashes_empty_before_response noRecordLibs _ _
    (ReachableResponded.step "piu1" (.NewPNRRequest someNewRequest)
      (ReachableResponded.step "piu2" (.SetPIUInfo ⟨"PIU 2", "admin@piu2.org"⟩)
        ReachableResponded.init))).1 "pnr1" pendingPNR hp).1 (by decide)⟩

end Invariant

section Entities

/-- C21: `GetConfirmedState` is idempotent on every state value, the seven named
states and any other string alike. -/
theorem GetConfirmedState_idempotent (s : RequestState) :
    GetConfirmedState (GetConfirmedState s) = GetConfirmedState s := by
  unfold GetConfirmedState
  by_cases h1 : s = RequestStatePending
  · subst h1
    decide
  by_cases h2 : s = RequestStateAck
  · subst h2
    decide
  by_cases h3 : s = RequestStateNack
  · subst h3
    decide
  simp [h1, h2, h3]

/-- C22: `HasData` is true for `Pending`, `PendingConfirmed`, `Ack`, `Nack` and
false for `AckConfirmed`, `NackConfirmed`, `Terminated`; for the seven named
states `HasData (GetConfirmedState s)` is false exactly when `s` is `Ack`,
`Nack`, `AckConfirmed`, `NackConfirmed` or `Terminated`. -/
theorem HasData_table :
    HasData RequestStatePending = true ∧ HasData RequestStatePendingConfirmed = true ∧
    HasData RequestStateAck = true ∧ HasData RequestStateNack = true ∧
    HasData RequestStateAckConfirmed = false ∧ HasData RequestStateNackConfirmed = false ∧
    HasData RequestStateTerminated = false ∧
    (∀ s, IsNamedState s →
      (HasData (GetConfirmedState s) = false ↔
        (s = RequestStateAck ∨ s = RequestStateNack ∨ s = RequestStateAckConfirmed ∨
          s = RequestStateNackConfirmed ∨ s = RequestStateTerminated))) := by
  refine ⟨by decide, by decide, by decide, by decide, by decide, by decide, by decide, ?_⟩
  intro s hs
  rcases hs with h | h | h | h | h | h | h <;> subst h <;> decide

/-- Witness for C22: the named state `Ack`. -/
theorem HasData_table_witness :
    HasData (GetConfirmedState RequestStateAck) = false :=
  (HasData_table.2.2.2.2.2.2.2 RequestStateAck (Or.inr (Or.inr (Or.inl rfl)))).2
    (Or.inl rfl)

end Entities

section InMemoryStore

open RMTUsecase

/-- C23: over the in-memory repository `SetPIUInfo` always succeeds; when no
PIU is stored under the caller's id it stores the PIU with the caller's id and
the name and e-mail of `info`; otherwise the stored PIU keeps its `Id` and has
`Name` (and `AdminEmail`) replaced by the value of `info` exactly when that
value is not empty. Every other PIU, the PNRs and the GC rows are unchanged. -/
theorem SetPIUInfo_upsert (caller : String) (r : InMemoryRepository) (info : PIUInfo) :
    ((NewRMTUsecase caller inMemory).SetPIUInfo r info).2 = .ok {} ∧
    (r.pius.lookup caller = none →
      ((NewRMTUsecase caller inMemory).SetPIUInfo r info).1.pius.lookup caller
        = some { Id := caller, Name := info.Name, AdminEmail := info.AdminEmail }) ∧
    (∀ u, r.pius.lookup caller = some u →
      ((NewRMTUsecase caller inMemory).SetPIUInfo r info).1.pius.lookup caller
        = some { Id := u.Id
                 Name := if info.Name ≠ "" then info.Name else u.Name
                 AdminEmail := if info.AdminEmail ≠ "" then info.AdminEmail
                   else u.AdminEmail }) ∧
    (∀ k, k ≠ caller →
      ((NewRMTUsecase caller inMemory).SetPIUInfo r info).1.pius.lookup k = r.pius.lookup k) ∧
    ((NewRMTUsecase caller inMemory).SetPIUInfo r info).1.pnrs = r.pnrs ∧
    ((NewRMTUsecase caller inMemory).SetPIUInfo r info).1.gcMetadatas = r.gcMetadatas := by
  cases hl : r.pius.lookup caller with
  | none =>
    have h : (NewRMTUsecase caller inMemory).SetPIUInfo r info
        = ({ r with pius := r.pius.insert caller (NewPIUFromPIUInfo caller info) }, .ok {}) := by
      simp [SetPIUInfo, NewRMTUsecase, inMemory, InMemoryRepository.PIUExists,
        InMemoryRepository.InsertPIU, hl]
    rw [h]
    refine ⟨rfl, fun _ => AList.lookup_insert _, ?_, fun k hk => AList.lookup_insert_ne hk,
      rfl, rfl⟩
    intro u hu
    cases hu
  | some u =>
    have h : (NewRMTUsecase caller inMemory).SetPIUInfo r info
        = ({ r with pius := r.pius.insert caller (UpdatePIUFromPIUInfo u info) }, .ok {}) := by
      simp [SetPIUInfo, NewRMTUsecase, inMemory, InMemoryRepository.PIUExists,
        InMemoryRepository.GetPIU, InMemoryRepository.UpdatePIU, hl]
    rw [h]
    refine ⟨rfl, ?_, ?_, fun k hk => AList.lookup_insert_ne hk, rfl, rfl⟩
    · intro hnone
      cases hnone
    · intro u' hu'
      cases hu'
      simp only [AList.lookup_insert]
      unfold UpdatePIUFromPIUInfo
      by_cases h1 : info.Name = "" <;> by_cases h2 : info.AdminEmail = "" <;> simp [h1, h2]

/-- Witness for C23: `piu1` changes its name only (`TestSetPIUInfoUpdate` with
an empty e-mail). -/
theorem SetPIUInfo_upsert_witness :
    ((NewRMTUsecase "piu1" inMemory).SetPIUInfo repoPIUs ⟨"testing PIU", ""⟩).1.pius.lookup
        "piu1"
      = some { Id := "piu1", Name := "testing PIU", AdminEmail := "admin@piu1.org" } :=
  (SetPIUInfo_upsert "piu1" repoPIUs ⟨"testing PIU", ""⟩).2.2.1
    ⟨"piu1", "PIU 1", "admin@piu1.org"⟩ (by decide)

/-- C24: in the in-memory repository, for each of the three tables, `Insert`
succeeds exactly when the key is absent and `Update` exactly when it is
present (the key of a GC row is `pnr.Id`); a successful call stores the value
under the key, and a failing call returns the repository unchanged. -/
theorem inMemory_insert_update (r : InMemoryRepository) (id : String) (piu : PIU) (pnr : PNR)
    (gcPnr : PNR) (gc : GCMetadata) :
    (((r.InsertPIU id piu).2 = none ↔ r.pius.lookup id = none) ∧
      ((r.InsertPIU id piu).2 = none → (r.InsertPIU id piu).1.pius.lookup id = some piu) ∧
      ((r.InsertPIU id piu).2 ≠ none → (r.InsertPIU id piu).1 = r)) ∧
    (((r.UpdatePIU id piu).2 = none ↔ (r.pius.lookup id).isSome = true) ∧
      ((r.UpdatePIU id piu).2 = none → (r.UpdatePIU id piu).1.pius.lookup id = some piu) ∧
      ((r.UpdatePIU id piu).2 ≠ none → (r.UpdatePIU id piu).1 = r)) ∧
    (((r.InsertPNR id pnr).2 = none ↔ r.pnrs.lookup id = none) ∧
      ((r.InsertPNR id pnr).2 = none → (r.InsertPNR id pnr).1.pnrs.lookup id = some pnr) ∧
      ((r.InsertPNR id pnr).2 ≠ none → (r.InsertPNR id pnr).1 = r)) ∧
    (((r.UpdatePNR id pnr).2 = none ↔ (r.pnrs.lookup id).isSome = true) ∧
      ((r.UpdatePNR id pnr).2 = none → (r.UpdatePNR id pnr).1.pnrs.lookup id = some pnr) ∧
      ((r.UpdatePNR id pnr).2 ≠ none → (r.UpdatePNR id pnr).1 = r)) ∧
    (((r.InsertGCMetadata gcPnr gc).2 = none ↔ r.gcMetadatas.lookup gcPnr.Id = none) ∧
      ((r.InsertGCMetadata gcPnr gc).2 = none →
        (r.InsertGCMetadata gcPnr gc).1.gcMetadatas.lookup gcPnr.Id = some gc) ∧
      ((r.InsertGCMetadata gcPnr gc).2 ≠ none → (r.InsertGCMetadata gcPnr gc).1 = r)) ∧
    (((r.UpdateGCMetadata gcPnr gc).2 = none ↔ (r.gcMetadatas.lookup gcPnr.Id).isSome = true) ∧
      ((r.UpdateGCMetadata gcPnr gc).2 = none →
        (r.UpdateGCMetadata gcPnr gc).1.gcMetadatas.lookup gcPnr.Id = some gc) ∧
      ((r.UpdateGCMetadata gcPnr gc).2 ≠ none → (r.UpdateGCMetadata gcPnr gc).1 = r)) := by
  refine ⟨?_, ?_, ?_, ?_, ?_, ?_⟩
  · cases h : r.pius.lookup id <;> simp [InMemoryRepository.InsertPIU, h]
  · cases h : r.pius.lookup id <;> simp [InMemoryRepository.UpdatePIU, h]
  · cases h : r.pnrs.lookup id <;> simp [InMemoryRepository.InsertPNR, h]
  · cases h : r.pnrs.lookup id <;> simp [InMemoryRepository.UpdatePNR, h]
  · cases h : r.gcMetadatas.lookup gcPnr.Id <;> simp [InMemoryRepository.InsertGCMetadata, h]
  · cases h : r.gcMetadatas.lookup gcPnr.Id <;> simp [InMemoryRepository.UpdateGCMetadata, h]

/-- Witness for C24: inserting `ackRequest` again under its id fails and
changes nothing (`TestInsertPNRAlreadyExists`). -/
theorem inMemory_insert_update_witness :
    (repoAck.InsertPNR "someId" (someRequest RequestStatePending)).1 = repoAck :=
  (inMemory_insert_update repoAck "someId" ⟨"", "", ""⟩ (someRequest RequestStatePending)
    ackRequest ⟨"", Time.zero⟩).2.2.1.2.2 (by decide)

/-- C26: in the in-memory repository `PurgePNRData` on a stored PNR succeeds,
leaves it with both payload fields empty and every other field unchanged,
leaves every other row and table unchanged, and purging again changes nothing;
on a missing id it returns an error and the repository is unchanged. -/
theorem PurgePNRData_effect (r : InMemoryRepository) (id : String) :
    (∀ p, r.pnrs.lookup id = some p →
      (r.PurgePNRData id).2 = none ∧
      (r.PurgePNRData id).1.pnrs.lookup id
        = some { p with RequestData := "", ResponseData := "" } ∧
      (∀ k, k ≠ id → (r.PurgePNRData id).1.pnrs.lookup k = r.pnrs.lookup k) ∧
      (r.PurgePNRData id).1.pius = r.pius ∧
      (r.PurgePNRData id).1.gcMetadatas = r.gcMetadatas ∧
      ((r.PurgePNRData id).1.PurgePNRData id).2 = none ∧
      ((r.PurgePNRData id).1.PurgePNRData id).1 = (r.PurgePNRData id).1) ∧
    (r.pnrs.lookup id = none →
      (∃ e, (r.PurgePNRData id).2 = some e) ∧ (r.PurgePNRData id).1 = r) := by
  constructor
  · intro p hp
    have h1 : r.PurgePNRData id
        = ({ pius := r.pius
             pnrs := r.pnrs.insert id { p with RequestData := "", ResponseData := "" }
             gcMetadatas := r.gcMetadatas }, none) := by
      simp [InMemoryRepository.PurgePNRData, InMemoryRepository.GetPNR,
        InMemoryRepository.UpdatePNR, hp]
    have h2 : InMemoryRepository.PurgePNRData
          { pius := r.pius
            pnrs := r.pnrs.insert id { p with RequestData := "", ResponseData := "" }
            gcMetadatas := r.gcMetadatas } id
        = ({ pius := r.pius
             pnrs := r.pnrs.insert id { p with RequestData := "", ResponseData := "" }
             gcMetadatas := r.gcMetadatas }, none) := by
      simp [InMemoryRepository.PurgePNRData, InMemoryRepository.GetPNR,
        InMemoryRepository.UpdatePNR, AList.lookup_insert, AList.insert_insert]
    rw [h1]
    refine ⟨rfl, AList.lookup_insert _, fun k hk => AList.lookup_insert_ne hk, rfl, rfl, ?_, ?_⟩
    · simp only [h2]
    · simp only [h2]
  · intro hn
    simp [InMemoryRepository.PurgePNRData, InMemoryRepository.GetPNR, hn]

/-- Witness for C26: purging `ackRequest` (`TestPurgePNRData`). -/
theorem PurgePNRData_effect_witness :
    (repoAck.PurgePNRData "someId").1.pnrs.lookup "someId"
      = some { ackRequest with RequestData := "", ResponseData := "" } :=
  ((PurgePNRData_effect repoAck "someId").1 ackRequest lookup_repoAck).2.1

end InMemoryStore

/-! ### The private-collection adapter -/

section PrivateCollections

theorem CreateCompositeKey_ok {env : Env} {objectType id : String} {key : CompositeKey}
    (h : CreateCompositeKey env objectType id = .ok key) :
    key = { objectType := objectType, id := id } := by
  unfold CreateCompositeKey at h
  split_ifs at h
  cases h
  rfl

theorem PutPrivateData_ok {env : Env} {l : Ledger} {c : String} {k : CompositeKey} {v : Bytes}
    (h : (l.PutPrivateData env c k v).2 = none) :
    (l.PutPrivateData env c k v).1 =
      { state := l.state, privateData := l.privateData.insert (c, k) v } := by
  unfold Ledger.PutPrivateData at h ⊢
  split
  · rename_i heq; rw [heq] at h; simp at h
  · rfl

theorem PutPrivateData_error {env : Env} {l : Ledger} {c : String} {k : CompositeKey}
    {v : Bytes} {err : Error} (h : (l.PutPrivateData env c k v).2 = some err) :
    (l.PutPrivateData env c k v).1 = l := by
  unfold Ledger.PutPrivateData at h ⊢
  split
  · rfl
  · rename_i heq; rw [heq] at h; simp at h

theorem putToBoth_ok {r : PrivateDataRepository} {l : Ledger} {rc : String}
    {k : CompositeKey} {v : Bytes}
    (h : (r.putToBothPrivateCollections l rc k v).2 = none) :
    (r.putToBothPrivateCollections l rc k v).1 =
      { state := l.state
        privateData := (l.privateData.insert (rc, k) v).insert (r.localData, k) v } := by
  unfold PrivateDataRepository.putToBothPrivateCollections at h ⊢
  cases h1 : (l.PutPrivateData r.env rc k v).2 with
  | some err =>
    have e : l.PutPrivateData r.env rc k v = ((l.PutPrivateData r.env rc k v).1, some err) := by
      rw [← h1]
    rw [e] at h
    simp at h
  | none =>
    have e : l.PutPrivateData r.env rc k v =
        ({ state := l.state, privateData := l.privateData.insert (rc, k) v }, none) := by
      rw [← PutPrivateData_ok h1, ← h1]
    rw [e] at h ⊢
    simp only at h ⊢
    rw [PutPrivateData_ok h]

theorem lookup_insert_both (t : AList (fun _ : String × CompositeKey => Bytes))
    (rc lc : String) (k : CompositeKey) (v : Bytes) :
    ((t.insert (rc, k) v).insert (lc, k) v).lookup (lc, k) = some v
      ∧ ((t.insert (rc, k) v).insert (lc, k) v).lookup (rc, k) = some v := by
  refine ⟨AList.lookup_insert _, ?_⟩
  by_cases e : rc = lc
  · rw [e]; exact AList.lookup_insert _
  · rw [AList.lookup_insert_ne (by intro h; exact e (congrArg Prod.fst h))]
    exact AList.lookup_insert _

theorem lookup_insert_both_ne (t : AList (fun _ : String × CompositeKey => Bytes))
    (rc lc c : String) (k k' : CompositeKey) (v : Bytes) (h : k' ≠ k ∨ (c ≠ rc ∧ c ≠ lc)) :
    ((t.insert (rc, k) v).insert (lc, k) v).lookup (c, k') = t.lookup (c, k') := by
  have h1 : (c, k') ≠ (lc, k) := by
    intro e
    rcases h with h | h
    · exact h (congrArg Prod.snd e)
    · exact h.2 (congrArg Prod.fst e)
  have h2 : (c, k') ≠ (rc, k) := by
    intro e
    rcases h with h | h
    · exact h (congrArg Prod.snd e)
    · exact h.1 (congrArg Prod.fst e)
  rw [AList.lookup_insert_ne h1, AList.lookup_insert_ne h2]

theorem putToBoth_eq_none {r : PrivateDataRepository} {l l1 : Ledger} {rc : String}
    {k : CompositeKey} {v : Bytes}
    (h : r.putToBothPrivateCollections l rc k v = (l1, none)) :
    l1 = { state := l.state
           privateData := (l.privateData.insert (rc, k) v).insert (r.localData, k) v } := by
  have h1 : (r.putToBothPrivateCollections l rc k v).2 = none := by rw [h]
  have h2 := putToBoth_ok h1
  rw [h] at h2
  exact h2

/-- A successful `InsertPNR` is four writes: the metadata to the remote and the
local collection, then the payload to both. -/
theorem InsertPNR_ok {r : PrivateDataRepository} {l : Ledger} {id : String} {pnr : PNR}
    (h : (r.InsertPNR l id pnr).2 = none) :
    ∃ metaModel dataModel,
      pnrEntityToMetaModel r.env pnr = .ok metaModel ∧
      pnrEntityToDataModel r.env pnr = .ok dataModel ∧
      (r.InsertPNR l id pnr).1 =
        { state := l.state
          privateData :=
            (((l.privateData.insert
                (getCollectionName (getRemotePIU pnr r.piuId), ⟨pnrMetaObjectType, id⟩)
                metaModel).insert (r.localData, ⟨pnrMetaObjectType, id⟩) metaModel).insert
                (getCollectionName (getRemotePIU pnr r.piuId), ⟨pnrDataObjectType, id⟩)
                dataModel).insert (r.localData, ⟨pnrDataObjectType, id⟩) dataModel } := by
  revert h
  unfold PrivateDataRepository.InsertPNR
  split_ifs with hex
  · simp
  split
  · simp
  rename_i metaKey hmk
  split
  · simp
  rename_i dataKey hdk
  split
  · simp
  rename_i metaModel hmm
  split
  · simp
  rename_i dataModel hdm
  have e1 := CreateCompositeKey_ok hmk
  have e2 := CreateCompositeKey_ok hdk
  subst e1 e2
  simp only
  split
  · simp
  rename_i l1 hput
  have e3 := putToBoth_eq_none hput
  subst e3
  intro h
  rw [putToBoth_ok h]
  exact ⟨metaModel, dataModel, hmm, hdm, rfl⟩

theorem PutPrivateData_frame (env : Env) (l : Ledger) (c : String) (k : CompositeKey)
    (v : Bytes) :
    (l.PutPrivateData env c k v).1.state = l.state
      ∧ ∀ ck, ck ≠ (c, k) →
          (l.PutPrivateData env c k v).1.privateData.lookup ck = l.privateData.lookup ck := by
  unfold Ledger.PutPrivateData
  split
  · exact ⟨rfl, fun _ _ => rfl⟩
  · exact ⟨rfl, fun ck h => AList.lookup_insert_ne h⟩

theorem DelPrivateData_frame (env : Env) (l : Ledger) (c : String) (k : CompositeKey) :
    (l.DelPrivateData env c k).1.state = l.state
      ∧ ∀ ck, ck ≠ (c, k) →
          (l.DelPrivateData env c k).1.privateData.lookup ck = l.privateData.lookup ck := by
  unfold Ledger.DelPrivateData
  split
  · exact ⟨rfl, fun _ _ => rfl⟩
  · exact ⟨rfl, fun ck h => AList.lookup_erase_ne h⟩

theorem PurgePrivateData_frame (env : Env) (l : Ledger) (c : String) (k : CompositeKey) :
    (l.PurgePrivateData env c k).1.state = l.state
      ∧ ∀ ck, ck ≠ (c, k) →
          (l.PurgePrivateData env c k).1.privateData.lookup ck = l.privateData.lookup ck := by
  unfold Ledger.PurgePrivateData
  split
  · exact ⟨rfl, fun _ _ => rfl⟩
  · exact ⟨rfl, fun ck h => AList.lookup_erase_ne h⟩

theorem putToBoth_frame (r : PrivateDataRepository) (l : Ledger) (rc : String)
    (k : CompositeKey) (v : Bytes) :
    (r.putToBothPrivateCollections l rc k v).1.state = l.state
      ∧ ∀ c k', k' ≠ k ∨ (c ≠ rc ∧ c ≠ r.localData) →
          (r.putToBothPrivateCollections l rc k v).1.privateData.lookup (c, k')
            = l.privateData.lookup (c, k') := by
  have ne1 : ∀ c k', k' ≠ k ∨ (c ≠ rc ∧ c ≠ r.localData) → (c, k') ≠ (rc, k) := by
    intro c k' h e
    rcases h with h | h
    · exact h (congrArg Prod.snd e)
    · exact h.1 (congrArg Prod.fst e)
  have ne2 : ∀ c k', k' ≠ k ∨ (c ≠ rc ∧ c ≠ r.localData) → (c, k') ≠ (r.localData, k) := by
    intro c k' h e
    rcases h with h | h
    · exact h (congrArg Prod.snd e)
    · exact h.2 (congrArg Prod.fst e)
  have f1 := PutPrivateData_frame r.env l rc k v
  unfold PrivateDataRepository.putToBothPrivateCollections
  split
  · rename_i l1 err heq
    rw [heq] at f1
    exact ⟨f1.1, fun c k' h => f1.2 _ (ne1 c k' h)⟩
  · rename_i l1 heq
    rw [heq] at f1
    have f2 := PutPrivateData_frame r.env l1 r.localData k v
    exact ⟨f2.1.trans f1.1, fun c k' h => (f2.2 _ (ne2 c k' h)).trans (f1.2 _ (ne1 c k' h))⟩

theorem getPNRMeta_key {r : PrivateDataRepository} {l : Ledger} {id : String}
    {key : CompositeKey} {m : pnrMeta} (h : r.getPNRMeta l id = .ok (key, m)) :
    key = ⟨pnrMetaObjectType, id⟩ := by
  unfold PrivateDataRepository.getPNRMeta at h
  split at h
  · cases h
  rename_i metaKey hk
  split at h
  · cases h
  split at h
  · cases h
  cases h
  exact CreateCompositeKey_ok hk

theorem getPNRData_key {r : PrivateDataRepository} {l : Ledger} {id : String}
    {key : CompositeKey} {d : pnrData} (h : r.getPNRData l id = .ok (key, d)) :
    key = ⟨pnrDataObjectType, id⟩ := by
  unfold PrivateDataRepository.getPNRData at h
  split at h
  · cases h
  rename_i dataKey hk
  split at h
  · cases h
  split at h
  · cases h
  cases h
  exact CreateCompositeKey_ok hk

/-- A successful `UpdatePNR` writes the metadata to both collections, and the
payload to both exactly when the state stored before the call has data. -/
theorem UpdatePNR_ok {r : PrivateDataRepository} {l : Ledger} {id : String} {pnr : PNR}
    (h : (r.UpdatePNR l id pnr).2 = none) :
    ∃ old metaModel,
      r.getPNRMeta l id = .ok (⟨pnrMetaObjectType, id⟩, old) ∧
      pnrEntityToMetaModel r.env pnr = .ok metaModel ∧
      ((HasData old.State = false ∧
          (r.UpdatePNR l id pnr).1 =
            { state := l.state
              privateData :=
                (l.privateData.insert
                  (getCollectionName (getRemotePIU pnr r.piuId), ⟨pnrMetaObjectType, id⟩)
                  metaModel).insert (r.localData, ⟨pnrMetaObjectType, id⟩) metaModel })
        ∨ (HasData old.State = true ∧ ∃ dataModel,
            pnrEntityToDataModel r.env pnr = .ok dataModel ∧
            (r.UpdatePNR l id pnr).1 =
              { state := l.state
                privateData :=
                  (((l.privateData.insert
                    (getCollectionName (getRemotePIU pnr r.piuId), ⟨pnrMetaObjectType, id⟩)
                    metaModel).insert (r.localData, ⟨pnrMetaObjectType, id⟩) metaModel).insert
                    (getCollectionName (getRemotePIU pnr r.piuId), ⟨pnrDataObjectType, id⟩)
                    dataModel).insert (r.localData, ⟨pnrDataObjectType, id⟩) dataModel })) := by
  revert h
  unfold PrivateDataRepository.UpdatePNR
  split_ifs with hex
  · simp
  split
  · simp
  rename_i metaKey old hmeta
  have e1 := getPNRMeta_key hmeta
  subst e1
  split
  · simp
  rename_i metaModel hmm
  simp only
  split
  · simp
  rename_i l1 hput
  have e3 := putToBoth_eq_none hput
  subst e3
  split_ifs with hd
  · intro _
    refine ⟨old, metaModel, hmeta, hmm, Or.inl ⟨?_, rfl⟩⟩
    simpa using hd
  · split
    · simp
    rename_i dataKey dataEntity hdata
    have e4 := getPNRData_key hdata
    subst e4
    split
    · simp
    rename_i dataModel hdm
    intro h
    rw [putToBoth_ok h]
    refine ⟨old, metaModel, hmeta, hmm, Or.inr ⟨?_, dataModel, hdm, rfl⟩⟩
    simpa using hd

/-- Whatever its outcome, an `UpdatePNR` over a stored state without data
changes no key other than the metadata key. -/
theorem UpdatePNR_frame {r : PrivateDataRepository} {l : Ledger} {id : String} {pnr : PNR}
    {key : CompositeKey} {old : pnrMeta} (hmeta : r.getPNRMeta l id = .ok (key, old))
    (hd : HasData old.State = false) :
    (r.UpdatePNR l id pnr).1.state = l.state
      ∧ ∀ c k, k ≠ ⟨pnrMetaObjectType, id⟩ →
          (r.UpdatePNR l id pnr).1.privateData.lookup (c, k) = l.privateData.lookup (c, k) := by
  have e1 := getPNRMeta_key hmeta
  subst e1
  unfold PrivateDataRepository.UpdatePNR
  split_ifs with hex
  · exact ⟨rfl, fun _ _ _ => rfl⟩
  rw [hmeta]
  simp only
  split
  · exact ⟨rfl, fun _ _ _ => rfl⟩
  rename_i metaModel hmm
  have f := putToBoth_frame r l (getCollectionName (getRemotePIU pnr r.piuId))
    ⟨pnrMetaObjectType, id⟩ metaModel
  split
  · rename_i l1 err hput
    rw [hput] at f
    exact ⟨f.1, fun c k hk => f.2 c k (Or.inl hk)⟩
  · rename_i l1 hput
    rw [hput] at f
    simp only [hd, Bool.not_false, if_true]
    exact ⟨f.1, fun c k hk => f.2 c k (Or.inl hk)⟩

/-- A successful `InsertGCMetadata` writes the GC row to both collections. -/
theorem InsertGCMetadata_ok {r : PrivateDataRepository} {l : Ledger} {pnr : PNR}
    {gc : GCMetadata} (h : (r.InsertGCMetadata l pnr gc).2 = none) :
    ∃ model,
      gcMetadataEntityToModel r.env gc = .ok model ∧
      (r.InsertGCMetadata l pnr gc).1 =
        { state := l.state
          privateData :=
            (l.privateData.insert
              (getCollectionName (getRemotePIU pnr r.piuId), ⟨gcMetadataObjectType, pnr.Id⟩)
              model).insert (r.localData, ⟨gcMetadataObjectType, pnr.Id⟩) model } := by
  revert h
  unfold PrivateDataRepository.InsertGCMetadata
  split_ifs with hex
  · simp
  split
  · simp
  rename_i key hk
  have e1 := CreateCompositeKey_ok hk
  subst e1
  split
  · simp
  rename_i model hm
  simp only
  split
  · simp
  rename_i l1 hput
  have e3 := putToBoth_eq_none hput
  subst e3
  intro _
  exact ⟨model, hm, rfl⟩

/-- A successful `UpdateGCMetadata` writes the GC row to both collections. -/
theorem UpdateGCMetadata_ok {r : PrivateDataRepository} {l : Ledger} {pnr : PNR}
    {gc : GCMetadata} (h : (r.UpdateGCMetadata l pnr gc).2 = none) :
    ∃ model,
      gcMetadataEntityToModel r.env gc = .ok model ∧
      (r.UpdateGCMetadata l pnr gc).1 =
        { state := l.state
          privateData :=
            (l.privateData.insert
              (getCollectionName (getRemotePIU pnr r.piuId), ⟨gcMetadataObjectType, pnr.Id⟩)
              model).insert (r.localData, ⟨gcMetadataObjectType, pnr.Id⟩) model } := by
  revert h
  unfold PrivateDataRepository.UpdateGCMetadata
  split_ifs with hex
  · simp
  split
  · simp
  rename_i key hk
  have e1 := CreateCompositeKey_ok hk
  subst e1
  split
  · simp
  rename_i model hm
  simp only
  split
  · simp
  rename_i l1 hput
  have e3 := putToBoth_eq_none hput
  subst e3
  intro _
  exact ⟨model, hm, rfl⟩

theorem InsertPNR_ok_keys {r : PrivateDataRepository} {l : Ledger} {id : String} {pnr : PNR}
    (h : (r.InsertPNR l id pnr).2 = none) :
    getPNRMetaCompositeKey r.env id = .ok ⟨pnrMetaObjectType, id⟩
      ∧ getPNRDataCompositeKey r.env id = .ok ⟨pnrDataObjectType, id⟩ := by
  revert h
  unfold PrivateDataRepository.InsertPNR
  split_ifs with hex
  · simp
  split
  · simp
  rename_i metaKey hmk
  split
  · simp
  rename_i dataKey hdk
  have e1 := CreateCompositeKey_ok hmk
  have e2 := CreateCompositeKey_ok hdk
  subst e1 e2
  intro _
  exact ⟨hmk, hdk⟩

theorem pnrEntitiesToEntity_projections (p : PNR) :
    pnrEntitiesToEntity (pnrEntityToMetaEntity p) (pnrEntityToDataEntity p) = p := by
  cases p
  rfl

theorem getRemotePIU_eq (pnr : PNR) (caller : String) :
    getRemotePIU pnr caller
      = if caller = pnr.RequestingPIU then pnr.RespondingPIU else pnr.RequestingPIU := by
  unfold getRemotePIU
  by_cases h : pnr.RequestingPIU = caller
  · rw [if_pos h, if_pos h.symm]
  · rw [if_neg h, if_neg (fun e => h e.symm)]

/-- C27, counterexample: for a caller that is neither party of the PNR (here
`piu3`, for a request from `piu2` to `piu1`) the code returns the requester,
where the claim gives the responder. -/
theorem getRemotePIU_counterexample :
    getRemotePIU (someRequest RequestStatePending) "piu3" = "piu2"
      ∧ specRemotePIU (someRequest RequestStatePending) "piu3" = "piu1" := by
  decide

/-- C27 (amended): `getRemotePIU(pnr, caller)` returns `pnr.RespondingPIU` if the
caller is `pnr.RequestingPIU` and `pnr.RequestingPIU` otherwise; for a caller
that is one of the two parties this is the rule of the specification (the
requester if the caller is the responder, else the responder), and for a
caller that is neither party of a PNR with two different parties it is not. -/
theorem getRemotePIU_rule (pnr : PNR) (caller : String) :
    getRemotePIU pnr caller
        = (if caller = pnr.RequestingPIU then pnr.RespondingPIU else pnr.RequestingPIU)
      ∧ (caller = pnr.RequestingPIU ∨ caller = pnr.RespondingPIU →
          getRemotePIU pnr caller = specRemotePIU pnr caller)
      ∧ (caller ≠ pnr.RequestingPIU → caller ≠ pnr.RespondingPIU →
          pnr.RequestingPIU ≠ pnr.RespondingPIU →
          getRemotePIU pnr caller ≠ specRemotePIU pnr caller) := by
  refine ⟨getRemotePIU_eq pnr caller, ?_, ?_⟩
  · intro h
    rw [getRemotePIU_eq]
    unfold specRemotePIU
    by_cases h1 : caller = pnr.RequestingPIU
    · by_cases h2 : caller = pnr.RespondingPIU
      · rw [if_pos h1, if_pos h2, ← h1, ← h2]
      · rw [if_pos h1, if_neg h2]
    · have h2 : caller = pnr.RespondingPIU := h.resolve_left h1
      rw [if_neg h1, if_pos h2]
  · intro h1 h2 h3
    rw [getRemotePIU_eq]
    unfold specRemotePIU
    rw [if_neg h1, if_neg h2]
    exact h3

theorem getRemotePIU_rule_witness :
    ("piu1" = (someRequest RequestStatePending).RequestingPIU
        ∨ "piu1" = (someRequest RequestStatePending).RespondingPIU)
      ∧ getRemotePIU (someRequest RequestStatePending) "piu1"
          = specRemotePIU (someRequest RequestStatePending) "piu1"
      ∧ getRemotePIU (someRequest RequestStatePending) "piu3"
          ≠ specRemotePIU (someRequest RequestStatePending) "piu3" :=
  ⟨by decide,
   (getRemotePIU_rule (someRequest RequestStatePending) "piu1").2.1 (by decide),
   (getRemotePIU_rule (someRequest RequestStatePending) "piu3").2.2
     (by decide) (by decide) (by decide)⟩

theorem storedView_of_noData (p : PNR) (h : HasData p.State = false) :
    storedView p
      = pnrEntitiesToEntity (pnrEntityToMetaEntity p) { RequestData := "", ResponseData := "" } := by
  unfold storedView
  rw [h]
  rfl

theorem storedView_of_data (p : PNR) (h : HasData p.State = true) : storedView p = p := by
  unfold storedView
  rw [h]
  rfl

/-- After a successful `InsertPNR(id, p)` on a host whose reads of the local
collection do not fail and a codec that round-trips the two projections of
`p`, `GetPNR(id)` returns `p` with the payload only when the state has data. -/
theorem GetPNR_after_InsertPNR {r : PrivateDataRepository} {l : Ledger} {id : String}
    {p : PNR} (hins : (r.InsertPNR l id p).2 = none)
    (hread : ∀ k, r.env.getPrivateDataError r.localData k = none)
    (hmeta : RoundTrips r.env.marshalPNRMeta r.env.unmarshalPNRMeta (pnrEntityToMetaEntity p))
    (hdata : RoundTrips r.env.marshalPNRData r.env.unmarshalPNRData (pnrEntityToDataEntity p)) :
    r.GetPNR (r.InsertPNR l id p).1 id = .ok (storedView p) := by
  obtain ⟨metaModel, dataModel, hmm, hdm, hl⟩ := InsertPNR_ok hins
  obtain ⟨hmk, hdk⟩ := InsertPNR_ok_keys hins
  have hne : pnrMetaObjectType ≠ pnrDataObjectType := by decide
  have n1 : (r.localData, (⟨pnrMetaObjectType, id⟩ : CompositeKey))
      ≠ (r.localData, ⟨pnrDataObjectType, id⟩) := by
    intro e
    exact hne (congrArg (fun x => x.2.objectType) e)
  have n2 : (r.localData, (⟨pnrMetaObjectType, id⟩ : CompositeKey))
      ≠ (getCollectionName (getRemotePIU p r.piuId), ⟨pnrDataObjectType, id⟩) := by
    intro e
    exact hne (congrArg (fun x => x.2.objectType) e)
  have gm : r.getPNRMeta (r.InsertPNR l id p).1 id
      = .ok (⟨pnrMetaObjectType, id⟩, pnrEntityToMetaEntity p) := by
    rw [hl]
    unfold PrivateDataRepository.getPNRMeta Ledger.GetPrivateData
    rw [hmk]
    simp only [hread]
    rw [AList.lookup_insert_ne n1, AList.lookup_insert_ne n2, AList.lookup_insert]
    have := hmeta metaModel hmm
    unfold metaModelToMetaEntity modelBytes
    simp only [Option.getD_some]
    rw [this]
  have gd : r.getPNRData (r.InsertPNR l id p).1 id
      = .ok (⟨pnrDataObjectType, id⟩, pnrEntityToDataEntity p) := by
    rw [hl]
    unfold PrivateDataRepository.getPNRData Ledger.GetPrivateData
    rw [hdk]
    simp only [hread]
    rw [AList.lookup_insert]
    have := hdata dataModel hdm
    unfold dataModelToDataEntity modelBytes
    simp only [Option.getD_some]
    rw [this]
  unfold PrivateDataRepository.GetPNR
  rw [gm]
  simp only
  have hs : (pnrEntityToMetaEntity p).State = p.State := rfl
  rw [hs]
  cases hd : HasData p.State
  · simp only [Bool.not_false, if_true]
    rw [storedView_of_noData p hd]
  · simp only [Bool.not_true, Bool.false_eq_true, if_false]
    rw [gd]
    simp only
    rw [pnrEntitiesToEntity_projections, storedView_of_data p hd]

theorem roundTrips_of_eq {α : Type} {marshal : α → Except Error Bytes}
    {unmarshal : Bytes → Except Error α} {x : α} (b0 : Bytes) (h1 : marshal x = .ok b0)
    (h2 : unmarshal b0 = .ok x) : RoundTrips marshal unmarshal x := by
  intro b h
  rw [h1] at h
  cases h
  exact h2

theorem writtenToBoth_one (l : Ledger) (lc rc : String) (k : CompositeKey) (v : Bytes) :
    WrittenToBoth lc rc [(k, v)] l
      { state := l.state, privateData := (l.privateData.insert (rc, k) v).insert (lc, k) v } := by
  refine ⟨?_, rfl, ?_⟩
  · intro kv hkv
    rw [List.mem_singleton] at hkv
    subst hkv
    exact lookup_insert_both _ rc lc k v
  · intro c k' h
    apply lookup_insert_both_ne
    rcases h with h | h
    · left
      intro e
      exact h (by simp [e])
    · exact Or.inr ⟨h.2, h.1⟩

theorem writtenToBoth_two (l : Ledger) (lc rc : String) (k1 k2 : CompositeKey) (v1 v2 : Bytes)
    (hne : k1 ≠ k2) :
    WrittenToBoth lc rc [(k1, v1), (k2, v2)] l
      { state := l.state
        privateData := (((l.privateData.insert (rc, k1) v1).insert (lc, k1) v1).insert
          (rc, k2) v2).insert (lc, k2) v2 } := by
  refine ⟨?_, rfl, ?_⟩
  · intro kv hkv
    simp only [List.mem_cons, List.mem_singleton, List.not_mem_nil, or_false] at hkv
    rcases hkv with hkv | hkv
    · subst hkv
      constructor
      · show AList.lookup (lc, k1) _ = some v1
        rw [lookup_insert_both_ne _ rc lc lc k2 k1 v2 (Or.inl hne)]
        exact (lookup_insert_both _ rc lc k1 v1).1
      · show AList.lookup (rc, k1) _ = some v1
        rw [lookup_insert_both_ne _ rc lc rc k2 k1 v2 (Or.inl hne)]
        exact (lookup_insert_both _ rc lc k1 v1).2
    · subst hkv
      exact lookup_insert_both _ rc lc k2 v2
  · intro c k' h
    have h1 : k' ≠ k1 ∨ (c ≠ rc ∧ c ≠ lc) := by
      rcases h with h | h
      · left
        intro e
        exact h (by simp [e])
      · exact Or.inr ⟨h.2, h.1⟩
    have h2 : k' ≠ k2 ∨ (c ≠ rc ∧ c ≠ lc) := by
      rcases h with h | h
      · left
        intro e
        exact h (by simp [e])
      · exact Or.inr ⟨h.2, h.1⟩
    show AList.lookup (c, k') _ = _
    rw [lookup_insert_both_ne _ rc lc c k2 k' v2 h2, lookup_insert_both_ne _ rc lc c k1 k' v1 h1]

/-- C25, counterexample: on the empty ledger, with a codec that round-trips
both projections of the PNR, `InsertPNR("pnr1", p)` succeeds for a `p` in state
`Terminated` that carries a request payload, and `GetPNR("pnr1")` then returns
`p` with the payload emptied, which is not `p`. -/
theorem InsertPNR_GetPNR_counterexample :
    fixtureRepository.PNRExists emptyLedger "pnr1" = .ok false
      ∧ RoundTrips fixtureEnv.marshalPNRMeta fixtureEnv.unmarshalPNRMeta
          (pnrEntityToMetaEntity terminatedWithPayload)
      ∧ RoundTrips fixtureEnv.marshalPNRData fixtureEnv.unmarshalPNRData
          (pnrEntityToDataEntity terminatedWithPayload)
      ∧ (fixtureRepository.InsertPNR emptyLedger "pnr1" terminatedWithPayload).2 = none
      ∧ fixtureRepository.GetPNR
          (fixtureRepository.InsertPNR emptyLedger "pnr1" terminatedWithPayload).1 "pnr1"
          = .ok { terminatedWithPayload with RequestData := "" }
      ∧ fixtureRepository.GetPNR
          (fixtureRepository.InsertPNR emptyLedger "pnr1" terminatedWithPayload).1 "pnr1"
          ≠ .ok terminatedWithPayload :=
  ⟨by decide, roundTrips_of_eq [11] (by decide) (by decide),
   roundTrips_of_eq [20] (by decide) (by decide), by decide, by decide, by decide⟩

/-- C25 (amended): over the private-collection adapter, on a host whose reads of
the caller's collection do not fail and with a codec that round-trips the
metadata and the payload of `p`, after `InsertPNR(id, p)` succeeds `GetPNR(id)`
succeeds and returns `p` exactly when `HasData(p.State)`; in the states
`AckConfirmed`, `NackConfirmed` and `Terminated` it returns `p` with
`requestData` and `responseData` empty. -/
theorem InsertPNR_GetPNR_round_trip (r : PrivateDataRepository) (l : Ledger) (id : String)
    (p : PNR) (hins : (r.InsertPNR l id p).2 = none)
    (hread : ∀ k, r.env.getPrivateDataError r.localData k = none)
    (hmeta : RoundTrips r.env.marshalPNRMeta r.env.unmarshalPNRMeta (pnrEntityToMetaEntity p))
    (hdata : RoundTrips r.env.marshalPNRData r.env.unmarshalPNRData (pnrEntityToDataEntity p)) :
    (HasData p.State = true → r.GetPNR (r.InsertPNR l id p).1 id = .ok p)
      ∧ (HasData p.State = false →
          r.GetPNR (r.InsertPNR l id p).1 id
            = .ok { p with RequestData := "", ResponseData := "" }) := by
  have h := GetPNR_after_InsertPNR hins hread hmeta hdata
  constructor
  · intro hd
    rw [h, storedView_of_data p hd]
  · intro hd
    rw [h, storedView_of_noData p hd]
    rfl

theorem InsertPNR_GetPNR_round_trip_witness :
    (fixtureRepository.InsertPNR emptyLedger "pnr1" pendingPNR).2 = none
      ∧ HasData pendingPNR.State = true
      ∧ fixtureRepository.GetPNR (fixtureRepository.InsertPNR emptyLedger "pnr1" pendingPNR).1
          "pnr1" = .ok pendingPNR :=
  ⟨by decide, by decide,
   (InsertPNR_GetPNR_round_trip fixtureRepository emptyLedger "pnr1" pendingPNR (by decide)
      (fun _ => rfl) (roundTrips_of_eq [10] (by decide) (by decide))
      (roundTrips_of_eq [20] (by decide) (by decide))).1 (by decide)⟩

theorem metaKey_ne_dataKey (id : String) :
    (⟨pnrMetaObjectType, id⟩ : CompositeKey) ≠ ⟨pnrDataObjectType, id⟩ := by
  intro e
  have h : pnrMetaObjectType = pnrDataObjectType := congrArg CompositeKey.objectType e
  exact absurd h (by decide)

/-- C28: over the private-collection adapter, after a successful shared write
every key written by the call holds the same bytes in the caller's local
collection and in the collection of `getRemotePIU(pnr, caller)`, and nothing
else changes: `InsertPNR` writes the `pnrMeta(id)` and `pnrData(id)` keys,
`UpdatePNR` the `pnrMeta(id)` key and, when the stored state has data, the
`pnrData(id)` key, `InsertGCMetadata` and `UpdateGCMetadata` the `gc(pnr.Id)`
key; the bytes are the encodings of the projections of the PNR, or of the GC
row. -/
theorem shared_writes_identical (r : PrivateDataRepository) (l : Ledger) (id : String)
    (pnr : PNR) (gc : GCMetadata) :
    ((r.InsertPNR l id pnr).2 = none →
        ∃ metaModel dataModel,
          pnrEntityToMetaModel r.env pnr = .ok metaModel ∧
          pnrEntityToDataModel r.env pnr = .ok dataModel ∧
          WrittenToBoth r.localData (getCollectionName (getRemotePIU pnr r.piuId))
            [(⟨pnrMetaObjectType, id⟩, metaModel), (⟨pnrDataObjectType, id⟩, dataModel)]
            l (r.InsertPNR l id pnr).1)
      ∧ ((r.UpdatePNR l id pnr).2 = none →
        ∃ old metaModel,
          r.getPNRMeta l id = .ok (⟨pnrMetaObjectType, id⟩, old) ∧
          pnrEntityToMetaModel r.env pnr = .ok metaModel ∧
          ((HasData old.State = false ∧
              WrittenToBoth r.localData (getCollectionName (getRemotePIU pnr r.piuId))
                [(⟨pnrMetaObjectType, id⟩, metaModel)] l (r.UpdatePNR l id pnr).1)
            ∨ (HasData old.State = true ∧ ∃ dataModel,
                pnrEntityToDataModel r.env pnr = .ok dataModel ∧
                WrittenToBoth r.localData (getCollectionName (getRemotePIU pnr r.piuId))
                  [(⟨pnrMetaObjectType, id⟩, metaModel), (⟨pnrDataObjectType, id⟩, dataModel)]
                  l (r.UpdatePNR l id pnr).1)))
      ∧ ((r.InsertGCMetadata l pnr gc).2 = none →
        ∃ model,
          gcMetadataEntityToModel r.env gc = .ok model ∧
          WrittenToBoth r.localData (getCollectionName (getRemotePIU pnr r.piuId))
            [(⟨gcMetadataObjectType, pnr.Id⟩, model)] l (r.InsertGCMetadata l pnr gc).1)
      ∧ ((r.UpdateGCMetadata l pnr gc).2 = none →
        ∃ model,
          gcMetadataEntityToModel r.env gc = .ok model ∧
          WrittenToBoth r.localData (getCollectionName (getRemotePIU pnr r.piuId))
            [(⟨gcMetadataObjectType, pnr.Id⟩, model)] l (r.UpdateGCMetadata l pnr gc).1) := by
  refine ⟨?_, ?_, ?_, ?_⟩
  · intro h
    obtain ⟨metaModel, dataModel, hmm, hdm, hl⟩ := InsertPNR_ok h
    refine ⟨metaModel, dataModel, hmm, hdm, ?_⟩
    rw [hl]
    exact writtenToBoth_two l _ _ _ _ _ _ (metaKey_ne_dataKey id)
  · intro h
    obtain ⟨old, metaModel, hmeta, hmm, hcase⟩ := UpdatePNR_ok h
    refine ⟨old, metaModel, hmeta, hmm, ?_⟩
    rcases hcase with ⟨hd, hl⟩ | ⟨hd, dataModel, hdm, hl⟩
    · left
      refine ⟨hd, ?_⟩
      rw [hl]
      exact writtenToBoth_one l _ _ _ _
    · right
      refine ⟨hd, dataModel, hdm, ?_⟩
      rw [hl]
      exact writtenToBoth_two l _ _ _ _ _ _ (metaKey_ne_dataKey id)
  · intro h
    obtain ⟨model, hm, hl⟩ := InsertGCMetadata_ok h
    refine ⟨model, hm, ?_⟩
    rw [hl]
    exact writtenToBoth_one l _ _ _ _
  · intro h
    obtain ⟨model, hm, hl⟩ := UpdateGCMetadata_ok h
    refine ⟨model, hm, ?_⟩
    rw [hl]
    exact writtenToBoth_one l _ _ _ _

theorem shared_writes_identical_witness :
    ((fixtureRepository.InsertPNR emptyLedger "pnr1" pendingPNR).2 = none
        ∧ (fixtureRepository.UpdatePNR ledgerPending "pnr1" ackConfirmedPNR).2 = none
        ∧ (fixtureRepository.InsertGCMetadata
            (fixtureRepository.InsertPNR emptyLedger "pnr1" pendingPNR).1 pendingPNR
            pendingGC).2 = none
        ∧ (fixtureRepository.UpdateGCMetadata ledgerPending pendingPNR pendingGC).2 = none)
      ∧ (∃ metaModel dataModel,
          pnrEntityToMetaModel fixtureEnv pendingPNR = .ok metaModel ∧
          pnrEntityToDataModel fixtureEnv pendingPNR = .ok dataModel ∧
          WrittenToBoth "piu1Collection" "piu2Collection"
            [(⟨"pnrMeta", "pnr1"⟩, metaModel), (⟨"pnrData", "pnr1"⟩, dataModel)]
            emptyLedger (fixtureRepository.InsertPNR emptyLedger "pnr1" pendingPNR).1)
      ∧ (∃ old metaModel, fixtureRepository.getPNRMeta ledgerPending "pnr1"
            = .ok (⟨"pnrMeta", "pnr1"⟩, old) ∧ HasData old.State = true ∧
          ∃ dataModel, WrittenToBoth "piu1Collection" "piu2Collection"
            [(⟨"pnrMeta", "pnr1"⟩, metaModel), (⟨"pnrData", "pnr1"⟩, dataModel)]
            ledgerPending (fixtureRepository.UpdatePNR ledgerPending "pnr1" ackConfirmedPNR).1)
      ∧ (∃ model, WrittenToBoth "piu1Collection" "piu2Collection" [(⟨"gc", "pnr1"⟩, model)]
            (fixtureRepository.InsertPNR emptyLedger "pnr1" pendingPNR).1
            (fixtureRepository.InsertGCMetadata
              (fixtureRepository.InsertPNR emptyLedger "pnr1" pendingPNR).1 pendingPNR
              pendingGC).1)
      ∧ (∃ model, WrittenToBoth "piu1Collection" "piu2Collection" [(⟨"gc", "pnr1"⟩, model)]
            ledgerPending
            (fixtureRepository.UpdateGCMetadata ledgerPending pendingPNR pendingGC).1) := by
  refine ⟨⟨by decide, by decide, by decide, by decide⟩, ?_, ?_, ?_, ?_⟩
  · exact (shared_writes_identical fixtureRepository emptyLedger "pnr1" pendingPNR pendingGC).1
      (by decide)
  · obtain ⟨old, metaModel, hmeta, _, hcase⟩ :=
      (shared_writes_identical fixtureRepository ledgerPending "pnr1" ackConfirmedPNR
        pendingGC).2.1 (by decide)
    have hold : fixtureRepository.getPNRMeta ledgerPending "pnr1"
        = .ok (⟨"pnrMeta", "pnr1"⟩, pnrEntityToMetaEntity pendingPNR) := by decide
    have e : old = pnrEntityToMetaEntity pendingPNR := by
      have h2 := hmeta.symm.trans hold
      injection h2 with h3
      injection h3
    subst e
    rcases hcase with ⟨hd, _⟩ | ⟨hd, dataModel, _, hw⟩
    · exact absurd hd (by decide)
    · exact ⟨_, metaModel, hmeta, hd, dataModel, hw⟩
  · obtain ⟨model, _, hw⟩ :=
      (shared_writes_identical fixtureRepository
        (fixtureRepository.InsertPNR emptyLedger "pnr1" pendingPNR).1 "pnr1" pendingPNR
        pendingGC).2.2.1 (by decide)
    exact ⟨model, hw⟩
  · obtain ⟨model, _, hw⟩ :=
      (shared_writes_identical fixtureRepository ledgerPending "pnr1" pendingPNR
        pendingGC).2.2.2 (by decide)
    exact ⟨model, hw⟩

/-- C29: in the private-collection adapter, with `old` the metadata stored
locally before the call, an `UpdatePNR(id, pnr)` that returns no error has
rewritten the `pnrMeta(id)` key in both collections, and has written the
`pnrData(id)` key if and only if `HasData(old.State)`: if so the key holds the
new payload in both collections, if not it is as before. When the old state is
`AckConfirmed`, `NackConfirmed` or `Terminated`, no key but `pnrMeta(id)` is
changed in any collection, whatever the call returns and whatever payload the
new `pnr` carries, so an absent payload key stays absent. -/
theorem UpdatePNR_payload_rule (r : PrivateDataRepository) (l : Ledger) (id : String)
    (pnr : PNR) (key : CompositeKey) (old : pnrMeta)
    (hmeta : r.getPNRMeta l id = .ok (key, old)) :
    ((r.UpdatePNR l id pnr).2 = none →
        (∃ metaModel, pnrEntityToMetaModel r.env pnr = .ok metaModel ∧
          HoldsInBoth (r.UpdatePNR l id pnr).1 r.localData
            (getCollectionName (getRemotePIU pnr r.piuId)) ⟨pnrMetaObjectType, id⟩ metaModel)
        ∧ (HasData old.State = true →
            ∃ dataModel, pnrEntityToDataModel r.env pnr = .ok dataModel ∧
              HoldsInBoth (r.UpdatePNR l id pnr).1 r.localData
                (getCollectionName (getRemotePIU pnr r.piuId)) ⟨pnrDataObjectType, id⟩
                dataModel))
      ∧ (HasData old.State = false →
          ∀ c k, k ≠ ⟨pnrMetaObjectType, id⟩ →
            (r.UpdatePNR l id pnr).1.privateData.lookup (c, k) = l.privateData.lookup (c, k))
      ∧ (old.State = RequestStateAckConfirmed ∨ old.State = RequestStateNackConfirmed
            ∨ old.State = RequestStateTerminated →
          ∀ c, (r.UpdatePNR l id pnr).1.privateData.lookup (c, ⟨pnrDataObjectType, id⟩)
            = l.privateData.lookup (c, ⟨pnrDataObjectType, id⟩)) := by
  refine ⟨?_, ?_, ?_⟩
  · intro h
    obtain ⟨old', metaModel, hmeta', hmm, hcase⟩ := UpdatePNR_ok h
    have e : old' = old := by
      have h2 := hmeta'.symm.trans hmeta
      injection h2 with h3
      injection h3
    subst e
    rcases hcase with ⟨hd, hl⟩ | ⟨hd, dataModel, hdm, hl⟩
    · refine ⟨⟨metaModel, hmm, ?_⟩, ?_⟩
      · rw [hl]
        exact (writtenToBoth_one l _ _ _ _).1 _ (List.mem_singleton.mpr rfl)
      · intro hd'
        rw [hd] at hd'
        cases hd'
    · have hw := writtenToBoth_two l r.localData (getCollectionName (getRemotePIU pnr r.piuId))
        ⟨pnrMetaObjectType, id⟩ ⟨pnrDataObjectType, id⟩ metaModel dataModel
        (metaKey_ne_dataKey id)
      rw [← hl] at hw
      refine ⟨⟨metaModel, hmm, ?_⟩, ?_⟩
      · exact hw.1 (⟨pnrMetaObjectType, id⟩, metaModel) (by simp)
      · intro _
        exact ⟨dataModel, hdm, hw.1 (⟨pnrDataObjectType, id⟩, dataModel) (by simp)⟩
  · intro hd
    exact (UpdatePNR_frame hmeta hd).2
  · intro hs c
    have hd : HasData old.State = false := by
      unfold HasData
      rw [if_pos hs]
    exact (UpdatePNR_frame hmeta hd).2 c _ (fun e => metaKey_ne_dataKey id e.symm)

theorem UpdatePNR_payload_rule_witness :
    fixtureRepository.getPNRMeta ledgerAckConfirmed "pnr1"
        = .ok (⟨"pnrMeta", "pnr1"⟩, pnrEntityToMetaEntity ackConfirmedPNR)
      ∧ (fixtureRepository.UpdatePNR ledgerAckConfirmed "pnr1" pendingPNR).2 = none
      ∧ pendingPNR.RequestData ≠ ""
      ∧ ledgerAckConfirmed.privateData.lookup ("piu1Collection", ⟨"pnrData", "pnr1"⟩) = none
      ∧ (∀ c, (fixtureRepository.UpdatePNR ledgerAckConfirmed "pnr1"
            pendingPNR).1.privateData.lookup (c, ⟨pnrDataObjectType, "pnr1"⟩)
          = ledgerAckConfirmed.privateData.lookup (c, ⟨pnrDataObjectType, "pnr1"⟩))
      ∧ (∃ metaModel, pnrEntityToMetaModel fixtureEnv pendingPNR = .ok metaModel ∧
          HoldsInBoth (fixtureRepository.UpdatePNR ledgerAckConfirmed "pnr1" pendingPNR).1
            "piu1Collection" "piu2Collection" ⟨"pnrMeta", "pnr1"⟩ metaModel) :=
  ⟨by decide, by decide, by decide, by decide,
   (UpdatePNR_payload_rule fixtureRepository ledgerAckConfirmed "pnr1" pendingPNR
      ⟨"pnrMeta", "pnr1"⟩ (pnrEntityToMetaEntity ackConfirmedPNR)
      (by decide)).2.2 (by decide),
   ((UpdatePNR_payload_rule fixtureRepository ledgerAckConfirmed "pnr1" pendingPNR
      ⟨"pnrMeta", "pnr1"⟩ (pnrEntityToMetaEntity ackConfirmedPNR)
      (by decide)).1 (by decide)).1⟩

theorem OnlyCollectionChanged.refl (c : String) (l : Ledger) : OnlyCollectionChanged c l l :=
  ⟨rfl, fun _ _ _ => rfl⟩

theorem OnlyCollectionChanged.trans {c : String} {l1 l2 l3 : Ledger}
    (h1 : OnlyCollectionChanged c l1 l2) (h2 : OnlyCollectionChanged c l2 l3) :
    OnlyCollectionChanged c l1 l3 :=
  ⟨h2.1.trans h1.1, fun c' k hc => (h2.2 c' k hc).trans (h1.2 c' k hc)⟩

theorem OnlyCollectionChanged_put (env : Env) (l : Ledger) (c : String) (k : CompositeKey)
    (v : Bytes) : OnlyCollectionChanged c l (l.PutPrivateData env c k v).1 :=
  ⟨(PutPrivateData_frame env l c k v).1, fun _ _ hc =>
    (PutPrivateData_frame env l c k v).2 _ (fun e => hc (congrArg Prod.fst e))⟩

theorem OnlyCollectionChanged_del (env : Env) (l : Ledger) (c : String) (k : CompositeKey) :
    OnlyCollectionChanged c l (l.DelPrivateData env c k).1 :=
  ⟨(DelPrivateData_frame env l c k).1, fun _ _ hc =>
    (DelPrivateData_frame env l c k).2 _ (fun e => hc (congrArg Prod.fst e))⟩

theorem OnlyCollectionChanged_purge (env : Env) (l : Ledger) (c : String) (k : CompositeKey) :
    OnlyCollectionChanged c l (l.PurgePrivateData env c k).1 :=
  ⟨(PurgePrivateData_frame env l c k).1, fun _ _ hc =>
    (PurgePrivateData_frame env l c k).2 _ (fun e => hc (congrArg Prod.fst e))⟩

theorem UpdateLocalPNR_local (r : PrivateDataRepository) (l : Ledger) (id : String)
    (pnr : PNR) : OnlyCollectionChanged r.localData l (r.UpdateLocalPNR l id pnr).1 := by
  unfold PrivateDataRepository.UpdateLocalPNR
  split_ifs with hex
  · exact OnlyCollectionChanged.refl _ _
  split
  · exact OnlyCollectionChanged.refl _ _
  rename_i metaKey old hmeta
  split
  · exact OnlyCollectionChanged.refl _ _
  rename_i metaModel hmm
  have f1 := OnlyCollectionChanged_put r.env l r.localData metaKey metaModel
  split
  · rename_i l1 err hput
    rw [hput] at f1
    exact f1
  · rename_i l1 hput
    rw [hput] at f1
    split_ifs with hd
    · exact f1
    split
    · exact f1
    rename_i dataKey dataEntity hdata
    split
    · exact f1
    rename_i dataModel hdm
    exact f1.trans (OnlyCollectionChanged_put r.env l1 r.localData dataKey dataModel)

theorem PurgeLocalPNRData_local (r : PrivateDataRepository) (l : Ledger) (id : String) :
    OnlyCollectionChanged r.localData l (r.PurgeLocalPNRData l id).1 := by
  unfold PrivateDataRepository.PurgeLocalPNRData
  split_ifs with hex
  · exact OnlyCollectionChanged.refl _ _
  split
  · exact OnlyCollectionChanged.refl _ _
  rename_i dataKey hdk
  have f1 := OnlyCollectionChanged_purge r.env l r.localData dataKey
  split
  · rename_i l1 err hp
    rw [hp] at f1
    exact f1
  · rename_i l1 hp
    rw [hp] at f1
    exact f1

theorem DeleteLocalGCMetadata_local (r : PrivateDataRepository) (l : Ledger) (id : String) :
    OnlyCollectionChanged r.localData l (r.DeleteLocalGCMetadata l id).1 := by
  unfold PrivateDataRepository.DeleteLocalGCMetadata
  split_ifs with hex
  · exact OnlyCollectionChanged.refl _ _
  split
  · exact OnlyCollectionChanged.refl _ _
  rename_i key hk
  have f1 := OnlyCollectionChanged_del r.env l r.localData key
  split
  · rename_i l1 err hp
    rw [hp] at f1
    exact f1
  · rename_i l1 hp
    rw [hp] at f1
    exact f1

/-- Whatever it returns, `TerminatePNRRequest` over the adapter changes nothing
outside the adapter's local collection. -/
theorem TerminatePNRRequest_local (r : PrivateDataRepository) (piuId : String) (l : Ledger)
    (input : TerminatePNRRequestInput) :
    OnlyCollectionChanged r.localData l
      ((NewRMTUsecase piuId (privateData r)).TerminatePNRRequest l input).1 := by
  unfold RMTUsecase.TerminatePNRRequest NewRMTUsecase privateData
  simp only
  split
  · exact OnlyCollectionChanged.refl _ _
  rename_i pnr hget
  split_ifs with hparty
  · exact OnlyCollectionChanged.refl _ _
  have f1 := UpdateLocalPNR_local r l input.Id { pnr with State := RequestStateTerminated }
  split
  · rename_i l1 err h1
    rw [h1] at f1
    exact f1
  rename_i l1 h1
  rw [h1] at f1
  have f2 := PurgeLocalPNRData_local r l1 input.Id
  split
  · rename_i l2 err h2
    rw [h2] at f2
    exact f1.trans f2
  rename_i l2 h2
  rw [h2] at f2
  have f3 := DeleteLocalGCMetadata_local r l2 input.Id
  split
  · rename_i l3 err h3
    rw [h3] at f3
    exact (f1.trans f2).trans f3
  · rename_i l3 h3
    rw [h3] at f3
    exact (f1.trans f2).trans f3

theorem GetPrivateData_same {c : String} {l1 l2 : Ledger} (h : SameCollection c l1 l2)
    (env : Env) (k : CompositeKey) : l1.GetPrivateData env c k = l2.GetPrivateData env c k := by
  unfold Ledger.GetPrivateData
  rw [h k]

theorem PutPrivateData_same {c : String} {l1 l2 : Ledger} (h : SameCollection c l1 l2)
    (env : Env) (k : CompositeKey) (v : Bytes) :
    (l1.PutPrivateData env c k v).2 = (l2.PutPrivateData env c k v).2
      ∧ SameCollection c (l1.PutPrivateData env c k v).1 (l2.PutPrivateData env c k v).1 := by
  unfold Ledger.PutPrivateData
  cases env.putPrivateDataError c k with
  | some err => exact ⟨rfl, h⟩
  | none =>
    refine ⟨rfl, fun k' => ?_⟩
    by_cases e : k' = k
    · subst e
      simp only [AList.lookup_insert]
    · have ne : (c, k') ≠ (c, k) := fun e' => e (congrArg Prod.snd e')
      simp only [AList.lookup_insert_ne ne]
      exact h k'

theorem DelPrivateData_same {c : String} {l1 l2 : Ledger} (h : SameCollection c l1 l2)
    (env : Env) (k : CompositeKey) :
    (l1.DelPrivateData env c k).2 = (l2.DelPrivateData env c k).2
      ∧ SameCollection c (l1.DelPrivateData env c k).1 (l2.DelPrivateData env c k).1 := by
  unfold Ledger.DelPrivateData
  cases env.delPrivateDataError c k with
  | some err => exact ⟨rfl, h⟩
  | none =>
    refine ⟨rfl, fun k' => ?_⟩
    by_cases e : k' = k
    · subst e
      simp only [AList.lookup_erase]
    · have ne : (c, k') ≠ (c, k) := fun e' => e (congrArg Prod.snd e')
      simp only [AList.lookup_erase_ne ne]
      exact h k'

theorem PurgePrivateData_same {c : String} {l1 l2 : Ledger} (h : SameCollection c l1 l2)
    (env : Env) (k : CompositeKey) :
    (l1.PurgePrivateData env c k).2 = (l2.PurgePrivateData env c k).2
      ∧ SameCollection c (l1.PurgePrivateData env c k).1 (l2.PurgePrivateData env c k).1 := by
  unfold Ledger.PurgePrivateData
  cases env.purgePrivateDataError c k with
  | some err => exact ⟨rfl, h⟩
  | none =>
    refine ⟨rfl, fun k' => ?_⟩
    by_cases e : k' = k
    · subst e
      simp only [AList.lookup_erase]
    · have ne : (c, k') ≠ (c, k) := fun e' => e (congrArg Prod.snd e')
      simp only [AList.lookup_erase_ne ne]
      exact h k'

theorem getPNRMeta_same {r : PrivateDataRepository} {l1 l2 : Ledger}
    (h : SameCollection r.localData l1 l2) (id : String) :
    r.getPNRMeta l1 id = r.getPNRMeta l2 id := by
  unfold PrivateDataRepository.getPNRMeta
  split
  · rfl
  rw [GetPrivateData_same h]

theorem getPNRData_same {r : PrivateDataRepository} {l1 l2 : Ledger}
    (h : SameCollection r.localData l1 l2) (id : String) :
    r.getPNRData l1 id = r.getPNRData l2 id := by
  unfold PrivateDataRepository.getPNRData
  split
  · rfl
  rw [GetPrivateData_same h]

theorem PNRExists_same {r : PrivateDataRepository} {l1 l2 : Ledger}
    (h : SameCollection r.localData l1 l2) (id : String) :
    r.PNRExists l1 id = r.PNRExists l2 id := by
  unfold PrivateDataRepository.PNRExists
  split
  · rfl
  rw [GetPrivateData_same h]

theorem GCMetadataExists_same {r : PrivateDataRepository} {l1 l2 : Ledger}
    (h : SameCollection r.localData l1 l2) (id : String) :
    r.GCMetadataExists l1 id = r.GCMetadataExists l2 id := by
  unfold PrivateDataRepository.GCMetadataExists
  split
  · rfl
  rw [GetPrivateData_same h]

theorem GetPNR_same {r : PrivateDataRepository} {l1 l2 : Ledger}
    (h : SameCollection r.localData l1 l2) (id : String) :
    r.GetPNR l1 id = r.GetPNR l2 id := by
  unfold PrivateDataRepository.GetPNR
  rw [getPNRMeta_same h, getPNRData_same h]

theorem UpdateLocalPNR_same {r : PrivateDataRepository} {l1 l2 : Ledger}
    (h : SameCollection r.localData l1 l2) (id : String) (pnr : PNR) :
    (r.UpdateLocalPNR l1 id pnr).2 = (r.UpdateLocalPNR l2 id pnr).2
      ∧ SameCollection r.localData (r.UpdateLocalPNR l1 id pnr).1
          (r.UpdateLocalPNR l2 id pnr).1 := by
  unfold PrivateDataRepository.UpdateLocalPNR
  rw [PNRExists_same h, getPNRMeta_same h]
  split_ifs with hex
  · exact ⟨rfl, h⟩
  cases hm : r.getPNRMeta l2 id with
  | error err => exact ⟨rfl, h⟩
  | ok km =>
    obtain ⟨metaKey, old⟩ := km
    simp only
    cases hmm : pnrEntityToMetaModel r.env pnr with
    | error err => exact ⟨rfl, h⟩
    | ok metaModel =>
      simp only
      have p := PutPrivateData_same h r.env metaKey metaModel
      cases hp1 : l1.PutPrivateData r.env r.localData metaKey metaModel with
      | mk l1' e1 =>
      cases hp2 : l2.PutPrivateData r.env r.localData metaKey metaModel with
      | mk l2' e2 =>
      rw [hp1, hp2] at p
      obtain ⟨pe, ps⟩ := p
      simp only at pe ps
      subst pe
      cases e1 with
      | some err => exact ⟨rfl, ps⟩
      | none =>
        simp only
        rw [getPNRData_same ps]
        split_ifs with hd
        · exact ⟨rfl, ps⟩
        cases hdt : r.getPNRData l2' id with
        | error err => exact ⟨rfl, ps⟩
        | ok kd =>
          obtain ⟨dataKey, dataEntity⟩ := kd
          simp only
          cases hdm : pnrEntityToDataModel r.env pnr with
          | error err => exact ⟨rfl, ps⟩
          | ok dataModel => exact PutPrivateData_same ps r.env dataKey dataModel

theorem PurgeLocalPNRData_same {r : PrivateDataRepository} {l1 l2 : Ledger}
    (h : SameCollection r.localData l1 l2) (id : String) :
    (r.PurgeLocalPNRData l1 id).2 = (r.PurgeLocalPNRData l2 id).2
      ∧ SameCollection r.localData (r.PurgeLocalPNRData l1 id).1
          (r.PurgeLocalPNRData l2 id).1 := by
  unfold PrivateDataRepository.PurgeLocalPNRData
  rw [PNRExists_same h]
  split_ifs with hex
  · exact ⟨rfl, h⟩
  cases hk : getPNRDataCompositeKey r.env id with
  | error err => exact ⟨rfl, h⟩
  | ok dataKey =>
    simp only
    have p := PurgePrivateData_same h r.env dataKey
    cases hp1 : l1.PurgePrivateData r.env r.localData dataKey with
    | mk l1' e1 =>
    cases hp2 : l2.PurgePrivateData r.env r.localData dataKey with
    | mk l2' e2 =>
    rw [hp1, hp2] at p
    obtain ⟨pe, ps⟩ := p
    simp only at pe ps
    subst pe
    cases e1 with
    | some err => exact ⟨rfl, ps⟩
    | none => exact ⟨rfl, ps⟩

theorem DeleteLocalGCMetadata_same {r : PrivateDataRepository} {l1 l2 : Ledger}
    (h : SameCollection r.localData l1 l2) (id : String) :
    (r.DeleteLocalGCMetadata l1 id).2 = (r.DeleteLocalGCMetadata l2 id).2
      ∧ SameCollection r.localData (r.DeleteLocalGCMetadata l1 id).1
          (r.DeleteLocalGCMetadata l2 id).1 := by
  unfold PrivateDataRepository.DeleteLocalGCMetadata
  rw [GCMetadataExists_same h]
  split_ifs with hex
  · exact ⟨rfl, h⟩
  cases hk : getGCMetatadaCompositeKey r.env id with
  | error err => exact ⟨rfl, h⟩
  | ok key =>
    simp only
    have p := DelPrivateData_same h r.env key
    cases hp1 : l1.DelPrivateData r.env r.localData key with
    | mk l1' e1 =>
    cases hp2 : l2.DelPrivateData r.env r.localData key with
    | mk l2' e2 =>
    rw [hp1, hp2] at p
    obtain ⟨pe, ps⟩ := p
    simp only at pe ps
    subst pe
    cases e1 with
    | some err => exact ⟨rfl, ps⟩
    | none => exact ⟨rfl, ps⟩

/-- The outcome of `TerminatePNRRequest` over the adapter depends on the ledger
only through the adapter's local collection. -/
theorem TerminatePNRRequest_same {r : PrivateDataRepository} (piuId : String)
    {l1 l2 : Ledger} (h : SameCollection r.localData l1 l2)
    (input : TerminatePNRRequestInput) :
    ((NewRMTUsecase piuId (privateData r)).TerminatePNRRequest l1 input).2
        = ((NewRMTUsecase piuId (privateData r)).TerminatePNRRequest l2 input).2
      ∧ SameCollection r.localData
          ((NewRMTUsecase piuId (privateData r)).TerminatePNRRequest l1 input).1
          ((NewRMTUsecase piuId (privateData r)).TerminatePNRRequest l2 input).1 := by
  unfold RMTUsecase.TerminatePNRRequest NewRMTUsecase privateData
  simp only
  rw [GetPNR_same h]
  cases hg : r.GetPNR l2 input.Id with
  | error err => exact ⟨rfl, h⟩
  | ok pnr =>
    simp only
    split_ifs with hparty
    · exact ⟨rfl, h⟩
    have p1 := UpdateLocalPNR_same h input.Id { pnr with State := RequestStateTerminated }
    cases hu1 : r.UpdateLocalPNR l1 input.Id { pnr with State := RequestStateTerminated } with
    | mk a1 e1 =>
    cases hu2 : r.UpdateLocalPNR l2 input.Id { pnr with State := RequestStateTerminated } with
    | mk a2 e2 =>
    rw [hu1, hu2] at p1
    obtain ⟨pe1, ps1⟩ := p1
    simp only at pe1 ps1
    subst pe1
    cases e1 with
    | some err => exact ⟨rfl, ps1⟩
    | none =>
      simp only
      have p2 := PurgeLocalPNRData_same ps1 input.Id
      cases hq1 : r.PurgeLocalPNRData a1 input.Id with
      | mk b1 f1 =>
      cases hq2 : r.PurgeLocalPNRData a2 input.Id with
      | mk b2 f2 =>
      rw [hq1, hq2] at p2
      obtain ⟨pe2, ps2⟩ := p2
      simp only at pe2 ps2
      subst pe2
      cases f1 with
      | some err => exact ⟨rfl, ps2⟩
      | none =>
        simp only
        have p3 := DeleteLocalGCMetadata_same ps2 input.Id
        cases hd1 : r.DeleteLocalGCMetadata b1 input.Id with
        | mk c1 g1 =>
        cases hd2 : r.DeleteLocalGCMetadata b2 input.Id with
        | mk c2 g2 =>
        rw [hd1, hd2] at p3
        obtain ⟨pe3, ps3⟩ := p3
        simp only at pe3 ps3
        subst pe3
        cases g1 with
        | some err => exact ⟨rfl, ps3⟩
        | none => exact ⟨rfl, ps3⟩

/-- C30: over the private-collection adapter, `RMTUsecase.TerminatePNRRequest`
reads and writes only keys of the caller's local collection. For every host
behaviour, ledger and input, whether the call succeeds or fails: the public
state and every key of every other collection are the same before and after
the call; and on a ledger that agrees with this one on the caller's collection
the call returns the same result and leaves the same caller's collection. -/
theorem TerminatePNRRequest_local_only (env : Env) (caller : String) (l : Ledger)
    (input : TerminatePNRRequestInput) :
    OnlyCollectionChanged (getCollectionName caller) l
        ((LedgerUsecaseFactory.New env caller).TerminatePNRRequest l input).1
      ∧ ∀ l2, SameCollection (getCollectionName caller) l l2 →
          ((LedgerUsecaseFactory.New env caller).TerminatePNRRequest l2 input).2
              = ((LedgerUsecaseFactory.New env caller).TerminatePNRRequest l input).2
            ∧ SameCollection (getCollectionName caller)
                ((LedgerUsecaseFactory.New env caller).TerminatePNRRequest l input).1
                ((LedgerUsecaseFactory.New env caller).TerminatePNRRequest l2 input).1 := by
  refine ⟨TerminatePNRRequest_local (NewPrivateDataRepository env caller) caller l input, ?_⟩
  intro l2 h
  have hs := @TerminatePNRRequest_same (NewPrivateDataRepository env caller) caller l l2 h input
  exact ⟨hs.1.symm, hs.2⟩

theorem TerminatePNRRequest_local_only_witness :
    ((LedgerUsecaseFactory.New fixtureEnv "piu1").TerminatePNRRequest ledgerPending
        ⟨"pnr1"⟩).2 = .ok {}
      ∧ "piu2Collection" ≠ getCollectionName "piu1"
      ∧ ((LedgerUsecaseFactory.New fixtureEnv "piu1").TerminatePNRRequest ledgerPending
          ⟨"pnr1"⟩).1.privateData.lookup ("piu1Collection", ⟨"pnrData", "pnr1"⟩) = none
      ∧ ledgerPending.privateData.lookup ("piu2Collection", ⟨"pnrData", "pnr1"⟩) = some [20]
      ∧ ((LedgerUsecaseFactory.New fixtureEnv "piu1").TerminatePNRRequest ledgerPending
          ⟨"pnr1"⟩).1.privateData.lookup ("piu2Collection", ⟨"pnrData", "pnr1"⟩)
          = ledgerPending.privateData.lookup ("piu2Collection", ⟨"pnrData", "pnr1"⟩)
      ∧ SameCollection (getCollectionName "piu1") ledgerPending ledgerPendingPeerPurged
      ∧ ((LedgerUsecaseFactory.New fixtureEnv "piu1").TerminatePNRRequest
          ledgerPendingPeerPurged ⟨"pnr1"⟩).2
          = ((LedgerUsecaseFactory.New fixtureEnv "piu1").TerminatePNRRequest ledgerPending
              ⟨"pnr1"⟩).2 :=
  have hsame : SameCollection (getCollectionName "piu1") ledgerPending
      ledgerPendingPeerPurged := fun k =>
    ((PurgePrivateData_frame fixtureEnv ledgerPending "piu2Collection" ⟨"pnrData", "pnr1"⟩).2
      (getCollectionName "piu1", k)
      (fun e => absurd (show getCollectionName "piu1" = "piu2Collection" from
        congrArg Prod.fst e) (by decide))).symm
  ⟨by decide, by decide, by decide, by decide,
   (TerminatePNRRequest_local_only fixtureEnv "piu1" ledgerPending ⟨"pnr1"⟩).1.2
     "piu2Collection" ⟨"pnrData", "pnr1"⟩ (by decide),
   hsame,
   ((TerminatePNRRequest_local_only fixtureEnv "piu1" ledgerPending ⟨"pnr1"⟩).2
     ledgerPendingPeerPurged hsame).1⟩

end PrivateCollections

/-! ### The filter and the metadata-only projection -/

section Filter

/-- C37: `IsMatchingPNR` does not depend on the payload. PNRs that agree on
`requestTimestamp`, `state`, `requestingPIU` and `respondingPIU` match the same
filters; so the metadata-only projection of a PNR (empty `requestData` and
`responseData`), which the private-collection `GetPNRs` filters, matches a
filter exactly when the PNR with any payload does, and filtering a list of
PNRs by their projections selects the same PNRs as filtering the full
records. -/
theorem IsMatchingPNR_payload_independent (f : PNRFilter) (p q : PNR)
    (h1 : p.RequestTimestamp = q.RequestTimestamp) (h2 : p.State = q.State)
    (h3 : p.RequestingPIU = q.RequestingPIU) (h4 : p.RespondingPIU = q.RespondingPIU) :
    IsMatchingPNR f p = IsMatchingPNR f q
      ∧ (∀ d, IsMatchingPNR f
            (pnrEntitiesToEntity (pnrEntityToMetaEntity p) { RequestData := "", ResponseData := "" })
          = IsMatchingPNR f (pnrEntitiesToEntity (pnrEntityToMetaEntity p) d))
      ∧ IsMatchingPNR f
            (pnrEntitiesToEntity (pnrEntityToMetaEntity p) { RequestData := "", ResponseData := "" })
          = IsMatchingPNR f p
      ∧ ∀ ps : List PNR,
          ps.filter (fun x => IsMatchingPNR f
            (pnrEntitiesToEntity (pnrEntityToMetaEntity x)
              { RequestData := "", ResponseData := "" }))
          = ps.filter (IsMatchingPNR f) := by
  refine ⟨?_, fun d => rfl, rfl, fun ps => rfl⟩
  unfold IsMatchingPNR
  rw [h1, h2, h3, h4]

theorem IsMatchingPNR_payload_independent_witness :
    pendingPNR.RequestData ≠ ({ pendingPNR with RequestData := "" } : PNR).RequestData
      ∧ IsMatchingPNR emptyFilter pendingPNR
          = IsMatchingPNR emptyFilter { pendingPNR with RequestData := "" } :=
  ⟨by decide,
   (IsMatchingPNR_payload_independent emptyFilter pendingPNR
      { pendingPNR with RequestData := "" } rfl rfl rfl rfl).1⟩

end Filter

/-! ### Confirmation of a PNR in an unnamed state -/

section ConfirmUnnamed

open RMTUsecase

theorem GetConfirmedState_of_not_named (s : RequestState) (hs : ¬ IsNamedState s) :
    GetConfirmedState s = s := by
  unfold IsNamedState at hs
  unfold GetConfirmedState
  rw [if_neg (fun h => hs (Or.inl h)), if_neg (fun h => hs (Or.inr (Or.inr (Or.inl h)))),
    if_neg (fun h => hs (Or.inr (Or.inr (Or.inr (Or.inr (Or.inl h))))))]

theorem confirmPNRSwitch_of_not_named {σ : Type} (u : RMTUsecase σ) (p : PNR)
    (hs : ¬ IsNamedState p.State) : u.confirmPNRSwitch p = none := by
  unfold IsNamedState at hs
  unfold confirmPNRSwitch
  rw [if_neg (by tauto), if_neg (by tauto), if_neg (by tauto), if_neg (by tauto)]

/-- C35, counterexample: a PNR stored with the empty string as its state; the
responder `piu1` confirms it and `ConfirmPNR` reports success. -/
theorem ConfirmPNR_unnamed_state_counterexample :
    (repoWith "").pnrs.lookup "someId" = some (someRequest "")
      ∧ ¬ IsNamedState (someRequest "").State
      ∧ (someRequest "").RespondingPIU = "piu1"
      ∧ ((NewRMTUsecase "piu1" inMemory).ConfirmPNR (repoWith "") ⟨"someId"⟩).2 = .ok {} := by
  refine ⟨lookup_repoWith "", ?_, rfl, by decide⟩
  unfold IsNamedState
  decide

/-- C35 (amended): for a stored PNR whose state is none of the seven named
states, `ConfirmPNR` invoked by its requester or responder reports success and
stores the PNR back unchanged (the switch has no case for such a state and
`GetConfirmedState` returns it as it is); invoked by any other caller it fails
with `InvalidArgument` and writes nothing. No state reachable from the empty
repository by usecase operations stores such a PNR. -/
theorem ConfirmPNR_unnamed_state (caller : String) (r : InMemoryRepository)
    (input : ConfirmPNRInput) (p : PNR) (hl : r.pnrs.lookup input.Id = some p)
    (hs : ¬ IsNamedState p.State) :
    ((caller = p.RequestingPIU ∨ caller = p.RespondingPIU) →
        (NewRMTUsecase caller inMemory).ConfirmPNR r input
          = ({ r with pnrs := r.pnrs.insert input.Id p }, .ok {}))
      ∧ (caller ≠ p.RequestingPIU → caller ≠ p.RespondingPIU →
          ∃ e, (NewRMTUsecase caller inMemory).ConfirmPNR r input = (r, .error e)
            ∧ e.hasCode Status.InvalidArgument)
      ∧ ∀ lib, ¬ Reachable lib r := by
  have hupd := fun q => inMemory_UpdatePNR_of_lookup r input.Id p q hl
  have hsw := confirmPNRSwitch_of_not_named (NewRMTUsecase caller inMemory) p hs
  have hg := GetConfirmedState_of_not_named p.State hs
  have hn1 : p.State ≠ RequestStateAckConfirmed :=
    fun h => hs (Or.inr (Or.inr (Or.inr (Or.inl h))))
  have hn2 : p.State ≠ RequestStateNackConfirmed :=
    fun h => hs (Or.inr (Or.inr (Or.inr (Or.inr (Or.inr (Or.inl h))))))
  refine ⟨?_, ?_, ?_⟩
  · intro hparty
    have hp : (!(NewRMTUsecase caller inMemory).isThisPIU p.RequestingPIU
        && !(NewRMTUsecase caller inMemory).isThisPIU p.RespondingPIU) = false := by
      rcases hparty with h | h <;> simp [isThisPIU, NewRMTUsecase, h]
    unfold ConfirmPNR
    simp only [NewRMTUsecase] at hp hsw ⊢
    rw [inMemory_GetPNR_eq, hl]
    simp only [hp, hsw, hg, hupd, hn1, hn2, or_self, if_false, Bool.false_eq_true]
  · intro h1 h2
    have hp : (!(NewRMTUsecase caller inMemory).isThisPIU p.RequestingPIU
        && !(NewRMTUsecase caller inMemory).isThisPIU p.RespondingPIU) = true := by
      simp [isThisPIU, NewRMTUsecase, h1, h2]
    unfold ConfirmPNR
    simp only [NewRMTUsecase] at hp ⊢
    rw [inMemory_GetPNR_eq, hl]
    simp only [hp, if_true]
    exact ⟨_, rfl, _, rfl⟩
  · intro lib hr
    exact hs ((Reachable_Inv lib r hr).1 input.Id p hl).2.1

theorem ConfirmPNR_unnamed_state_witness :
    (repoWith "").pnrs.lookup "someId" = some (someRequest "")
      ∧ ¬ IsNamedState (someRequest "").State
      ∧ ("piu1" = (someRequest "").RequestingPIU ∨ "piu1" = (someRequest "").RespondingPIU)
      ∧ (NewRMTUsecase "piu1" inMemory).ConfirmPNR (repoWith "") ⟨"someId"⟩
          = ({ repoWith "" with
                pnrs := (repoWith "").pnrs.insert "someId" (someRequest "") }, .ok {}) :=
  have hs : ¬ IsNamedState (someRequest "").State := by
    unfold IsNamedState
    decide
  ⟨lookup_repoWith "", hs, Or.inr rfl,
   (ConfirmPNR_unnamed_state "piu1" (repoWith "") ⟨"someId"⟩ (someRequest "")
      (lookup_repoWith "") hs).1 (Or.inr rfl)⟩

end ConfirmUnnamed

/-! ### The life cycle of a PNR over the in-memory repository -/

section LifeCycle

open RMTUsecase

theorem submitPNRResponse_pnrs (lib : Libs) (caller : String) (response : RequestState)
    (r : InMemoryRepository) (input : SubmitPNRResponseInput) :
    ((NewRMTUsecase caller inMemory).submitPNRResponse lib response r input).1.pnrs = r.pnrs ∨
    ∃ p q, r.pnrs.lookup input.Id = some p ∧ p.State = RequestStatePendingConfirmed ∧
      q.State = response ∧ q.RequestTimestamp = p.RequestTimestamp ∧
      ((NewRMTUsecase caller inMemory).submitPNRResponse lib response r input).1.pnrs
        = r.pnrs.insert input.Id q := by
  cases hl : r.pnrs.lookup input.Id with
  | none =>
    left
    simp [submitPNRResponse, NewRMTUsecase, inMemory_GetPNR_eq, hl]
  | some p =>
    by_cases h2 : p.State = RequestStatePendingConfirmed
    swap
    · left
      by_cases h1 : caller = p.RespondingPIU
      · simp [submitPNRResponse, NewRMTUsecase, inMemory_GetPNR_eq, hl, isThisPIU, h1, h2]
      · simp [submitPNRResponse, NewRMTUsecase, inMemory_GetPNR_eq, hl, isThisPIU, h1]
    rcases submitPNRResponse_cases lib caller response r input with
      ⟨h, -⟩ | ⟨p', g, hashes, hl', _, _, h⟩ | ⟨p', g, hashes, ts, hl', _, _, _, h⟩
    · left
      rw [h]
    · right
      rw [hl] at hl'
      cases hl'
      exact ⟨p, { p with
          ResponseTimestamp := input.ResponseTimestamp
          State := response
          ResponseData := OptionalMessage input.ResponseData
          PNRHashes := hashes }, rfl, h2, rfl, rfl, by rw [h]⟩
    · right
      rw [hl] at hl'
      cases hl'
      exact ⟨p, { p with
          ResponseTimestamp := input.ResponseTimestamp
          State := response
          ResponseData := OptionalMessage input.ResponseData
          PNRHashes := hashes }, rfl, h2, rfl, rfl, by rw [h]⟩

/-- What one invocation does to the PNR table: nothing, or one row is written,
which is a new row under a key not stored before, the confirmed row, a
response to a `PendingConfirmed` row, or the terminated row. -/
theorem invoke_pnrs (lib : Libs) (caller : String) (r : InMemoryRepository) (op : Op) :
    (invoke lib caller r op).1.pnrs = r.pnrs ∨
    ∃ id q, (invoke lib caller r op).1.pnrs = r.pnrs.insert id q ∧
      (r.pnrs.lookup id = none ∨
        ∃ p, r.pnrs.lookup id = some p ∧
          ((q = confirmedRow p ∧ (NewRMTUsecase caller inMemory).confirmPNRSwitch p = none)
            ∨ (p.State = RequestStatePendingConfirmed ∧
                (q.State = RequestStateAck ∨ q.State = RequestStateNack) ∧
                q.RequestTimestamp = p.RequestTimestamp)
            ∨ q = terminatedRow p)) := by
  cases op with
  | SetPIUInfo input =>
    obtain ⟨piu, h, -⟩ := SetPIUInfo_effect caller r input
    left
    simp only [invoke, h]
  | GetPIUs input => exact Or.inl rfl
  | GetPNRs input => exact Or.inl rfl
  | NewPNRRequest input =>
    simp only [invoke]
    rcases NewPNRRequest_cases caller r input with h | ⟨hl, _, p, h⟩ | ⟨hl, _, _, _, h⟩
    · left
      rw [h]
    · right
      exact ⟨input.Id, p, by rw [h], Or.inl hl⟩
    · right
      exact ⟨input.Id, _, by rw [h], Or.inl hl⟩
  | SubmitPNRResponseAck input =>
    simp only [invoke, SubmitPNRResponseAck]
    rcases submitPNRResponse_pnrs lib caller RequestStateAck r input with
      h | ⟨p, q, hl, hs, hq, ht, h⟩
    · exact Or.inl h
    · exact Or.inr ⟨input.Id, q, h, Or.inr ⟨p, hl, Or.inr (Or.inl ⟨hs, Or.inl hq, ht⟩)⟩⟩
  | SubmitPNRResponseNack input =>
    simp only [invoke, SubmitPNRResponseNack]
    rcases submitPNRResponse_pnrs lib caller RequestStateNack r input with
      h | ⟨p, q, hl, hs, hq, ht, h⟩
    · exact Or.inl h
    · exact Or.inr ⟨input.Id, q, h, Or.inr ⟨p, hl, Or.inr (Or.inl ⟨hs, Or.inr hq, ht⟩)⟩⟩
  | ConfirmPNR input =>
    simp only [invoke]
    rcases ConfirmPNR_cases caller r input with h | ⟨p, hl, hsw, h⟩
    · left
      rw [h]
    · right
      exact ⟨input.Id, confirmedRow p, by rw [h], Or.inr ⟨p, hl, Or.inl ⟨rfl, hsw⟩⟩⟩
  | TerminatePNRRequest input =>
    simp only [invoke]
    rcases TerminatePNRRequest_cases caller r input with
      ⟨_, h⟩ | ⟨p, _, _, _, h⟩ | ⟨p, hl, _, _, h⟩ | ⟨p, g, hl, _, _, h⟩
    · left
      rw [h]
    · left
      rw [h]
    · right
      exact ⟨input.Id, terminatedRow p, by rw [h]; rfl, Or.inr ⟨p, hl, Or.inr (Or.inr rfl)⟩⟩
    · right
      exact ⟨input.Id, terminatedRow p, by rw [h]; rfl, Or.inr ⟨p, hl, Or.inr (Or.inr rfl)⟩⟩

theorem invoke_pius_isSome (lib : Libs) (caller : String) (r : InMemoryRepository) (op : Op)
    (id : String) (h : (r.pius.lookup id).isSome = true) :
    ((invoke lib caller r op).1.pius.lookup id).isSome = true := by
  rcases invoke_pius lib caller r op with e | ⟨piu, e, -⟩
  · rw [e]
    exact h
  · rw [e]
    exact lookup_insert_isSome_mono _ _ _ _ h

theorem invoke_pnrs_isSome (lib : Libs) (caller : String) (r : InMemoryRepository) (op : Op)
    (id : String) (h : (r.pnrs.lookup id).isSome = true) :
    ((invoke lib caller r op).1.pnrs.lookup id).isSome = true := by
  rcases invoke_pnrs lib caller r op with e | ⟨k, q, e, -⟩
  · rw [e]
    exact h
  · rw [e]
    exact lookup_insert_isSome_mono _ _ _ _ h

/-- C33: no usecase operation removes a PIU or a PNR. For every repository
state, every caller and every usecase operation, whatever the call returns,
every PIU id and every PNR id stored before the call is stored after it; the
same holds after any sequence of usecase operations. -/
theorem no_operation_removes (lib : Libs) (caller : String) (r : InMemoryRepository)
    (op : Op) :
    (∀ id, (r.pius.lookup id).isSome = true →
        ((invoke lib caller r op).1.pius.lookup id).isSome = true)
      ∧ (∀ id, (r.pnrs.lookup id).isSome = true →
          ((invoke lib caller r op).1.pnrs.lookup id).isSome = true)
      ∧ ∀ r', Steps lib r r' →
          (∀ id, (r.pius.lookup id).isSome = true → (r'.pius.lookup id).isSome = true)
            ∧ (∀ id, (r.pnrs.lookup id).isSome = true → (r'.pnrs.lookup id).isSome = true) := by
  refine ⟨invoke_pius_isSome lib caller r op, invoke_pnrs_isSome lib caller r op, ?_⟩
  intro r' hs
  induction hs with
  | refl => exact ⟨fun _ h => h, fun _ h => h⟩
  | step caller' op' _ ih =>
    exact ⟨fun id h => invoke_pius_isSome lib caller' _ op' id (ih.1 id h),
      fun id h => invoke_pnrs_isSome lib caller' _ op' id (ih.2 id h)⟩

theorem no_operation_removes_witness :
    (repoAck.pnrs.lookup "someId").isSome = true
      ∧ (invoke noRecordLibs "piu1" repoAck (.TerminatePNRRequest ⟨"someId"⟩)).2 = none
      ∧ ((invoke noRecordLibs "piu1" repoAck
            (.TerminatePNRRequest ⟨"someId"⟩)).1.pnrs.lookup "someId").isSome = true :=
  ⟨by decide, by decide,
   (no_operation_removes noRecordLibs "piu1" repoAck (.TerminatePNRRequest ⟨"someId"⟩)).2.1
     "someId" (by decide)⟩

theorem confirmedRow_State (p : PNR) : (confirmedRow p).State = GetConfirmedState p.State := by
  unfold confirmedRow
  split <;> rfl

theorem GetConfirmedState_edge (s : RequestState) :
    GetConfirmedState s = s ∨ IsEdge s (GetConfirmedState s) := by
  unfold GetConfirmedState
  by_cases h1 : s = RequestStatePending
  · rw [if_pos h1]
    exact Or.inr (Or.inl ⟨h1, rfl⟩)
  rw [if_neg h1]
  by_cases h2 : s = RequestStateAck
  · rw [if_pos h2]
    exact Or.inr (Or.inr (Or.inr (Or.inr (Or.inl ⟨h2, rfl⟩))))
  rw [if_neg h2]
  by_cases h3 : s = RequestStateNack
  · rw [if_pos h3]
    exact Or.inr (Or.inr (Or.inr (Or.inr (Or.inr (Or.inl ⟨h3, rfl⟩)))))
  rw [if_neg h3]
  exact Or.inl rfl

theorem stateRank_le_three (s : RequestState) (h : s ≠ RequestStateTerminated) :
    stateRank s < 4 := by
  unfold stateRank
  split_ifs <;> omega

theorem stateRank_of_edge (s t : RequestState) (h : IsEdge s t) :
    t = s ∨ stateRank s < stateRank t := by
  rcases h with ⟨h1, h2⟩ | ⟨h1, h2⟩ | ⟨h1, h2⟩ | ⟨h1, h2⟩ | ⟨h1, h2⟩ | h2
  · subst h1 h2
    exact Or.inr (by decide)
  · subst h1 h2
    exact Or.inr (by decide)
  · subst h1 h2
    exact Or.inr (by decide)
  · subst h1 h2
    exact Or.inr (by decide)
  · subst h1 h2
    exact Or.inr (by decide)
  · subst h2
    by_cases hs : s = RequestStateTerminated
    · exact Or.inl hs.symm
    · right
      have h4 : stateRank RequestStateTerminated = 4 := by decide
      rw [h4]
      exact stateRank_le_three s hs

theorem confirmPNRSwitch_terminated {σ : Type} (u : RMTUsecase σ) (p : PNR)
    (hs : p.State = RequestStateTerminated) : u.confirmPNRSwitch p ≠ none := by
  simp [confirmPNRSwitch, hs, RequestStateTerminated, RequestStatePendingConfirmed,
    RequestStateAckConfirmed, RequestStateNackConfirmed]

theorem terminatedRow_of_terminated (p : PNR) (hs : p.State = RequestStateTerminated)
    (hd : p.RequestData = "" ∧ p.ResponseData = "") : terminatedRow p = p := by
  obtain ⟨id, rq, rs, t1, t2, st, d1, d2, hashes⟩ := p
  obtain ⟨e1, e2⟩ := hd
  simp only at hs e1 e2
  subst hs e1 e2
  rfl

/-- One invocation and one stored PNR: the PNR is still stored, its state is
unchanged or has moved along an edge, and a terminated PNR of a repository
that satisfies the invariant is unchanged. -/
theorem invoke_row (lib : Libs) (caller : String) (r : InMemoryRepository) (op : Op)
    (k : String) (p : PNR) (hl : r.pnrs.lookup k = some p) :
    ∃ q, (invoke lib caller r op).1.pnrs.lookup k = some q ∧
      (q.State = p.State ∨ IsEdge p.State q.State) ∧
      (Inv r → p.State = RequestStateTerminated → q = p) := by
  rcases invoke_pnrs lib caller r op with e | ⟨id, q, e, hq⟩
  · rw [e]
    exact ⟨p, hl, Or.inl rfl, fun _ _ => rfl⟩
  · rw [e]
    by_cases hk : k = id
    swap
    · rw [AList.lookup_insert_ne hk]
      exact ⟨p, hl, Or.inl rfl, fun _ _ => rfl⟩
    subst hk
    rw [AList.lookup_insert]
    refine ⟨q, rfl, ?_⟩
    rcases hq with hn | ⟨p', hp', hq⟩
    · rw [hl] at hn
      cases hn
    rw [hl] at hp'
    cases hp'
    rcases hq with ⟨hq, hsw⟩ | ⟨hs, hq, -⟩ | hq
    · subst hq
      rw [confirmedRow_State]
      refine ⟨GetConfirmedState_edge p.State, fun _ ht => ?_⟩
      exact absurd hsw (confirmPNRSwitch_terminated _ p ht)
    · constructor
      · right
        rcases hq with hq | hq
        · exact Or.inr (Or.inl ⟨hs, hq⟩)
        · exact Or.inr (Or.inr (Or.inl ⟨hs, hq⟩))
      · intro _ ht
        rw [hs] at ht
        exact absurd ht (by decide)
    · subst hq
      constructor
      · right
        exact Or.inr (Or.inr (Or.inr (Or.inr (Or.inr rfl))))
      · intro hinv ht
        have hrow := (hinv.1 k p hl).2.2.2.1
        exact terminatedRow_of_terminated p ht (hrow (by rw [ht]; decide))

theorem IsEdge_terminated (t : RequestState) (h : IsEdge RequestStateTerminated t) :
    t = RequestStateTerminated := by
  rcases h with ⟨h1, -⟩ | ⟨h1, -⟩ | ⟨h1, -⟩ | ⟨h1, -⟩ | ⟨h1, -⟩ | h2
  · exact absurd h1 (by decide)
  · exact absurd h1 (by decide)
  · exact absurd h1 (by decide)
  · exact absurd h1 (by decide)
  · exact absurd h1 (by decide)
  · exact h2

/-- C39: over the in-memory repository, for every repository state, caller and
usecase operation, a stored PNR is still stored after the call and its state is
either unchanged or has moved along one of the edges `Pending` to
`PendingConfirmed`, `PendingConfirmed` to `Ack` or `Nack`, `Ack` to
`AckConfirmed`, `Nack` to `NackConfirmed`, any state to `Terminated`. A
`Terminated` PNR stays `Terminated`, and in a repository that satisfies the
invariant of the reachable states (a terminated PNR has an empty payload) the
whole row, payload included, is unchanged. Over any sequence of operations the
state is unchanged or its rank has grown, so no earlier state comes back. -/
theorem state_changes_follow_edges (lib : Libs) (caller : String) (r : InMemoryRepository)
    (op : Op) (k : String) (p : PNR) (hl : r.pnrs.lookup k = some p) :
    (∃ q, (invoke lib caller r op).1.pnrs.lookup k = some q ∧
        (q.State = p.State ∨ IsEdge p.State q.State) ∧
        (p.State = RequestStateTerminated → q.State = RequestStateTerminated) ∧
        (Inv r → p.State = RequestStateTerminated → q = p))
      ∧ ∀ r', Steps lib r r' →
          ∃ q, r'.pnrs.lookup k = some q ∧
            (q.State = p.State ∨ stateRank p.State < stateRank q.State) ∧
            (p.State = RequestStateTerminated → q.State = RequestStateTerminated) ∧
            (Inv r → p.State = RequestStateTerminated → q = p) := by
  have one : ∀ (caller : String) (r : InMemoryRepository) (op : Op) (p : PNR),
      r.pnrs.lookup k = some p →
      ∃ q, (invoke lib caller r op).1.pnrs.lookup k = some q ∧
        (q.State = p.State ∨ IsEdge p.State q.State) ∧
        (p.State = RequestStateTerminated → q.State = RequestStateTerminated) ∧
        (Inv r → p.State = RequestStateTerminated → q = p) := by
    intro caller r op p hl
    obtain ⟨q, hq, he, hi⟩ := invoke_row lib caller r op k p hl
    refine ⟨q, hq, he, ?_, hi⟩
    intro ht
    rcases he with he | he
    · rw [he, ht]
    · rw [ht] at he
      exact IsEdge_terminated _ he
  refine ⟨one caller r op p hl, ?_⟩
  intro r' hs
  induction hs with
  | refl => exact ⟨p, hl, Or.inl rfl, fun h => h, fun _ _ => rfl⟩
  | step caller' op' hsteps ih =>
    obtain ⟨q, hq, hrank, hterm, hsame⟩ := ih
    obtain ⟨q', hq', he, ht', hi'⟩ := one caller' _ op' q hq
    refine ⟨q', hq', ?_, fun h => ht' (hterm h), ?_⟩
    · have hstep : q'.State = q.State ∨ stateRank q.State < stateRank q'.State := by
        rcases he with he | he
        · exact Or.inl he
        · exact stateRank_of_edge _ _ he
      rcases hstep with h1 | h1
      · rw [h1]
        exact hrank
      · right
        rcases hrank with h2 | h2
        · rw [← h2]
          exact h1
        · exact lt_trans h2 h1
    · intro hinv ht
      have hqp := hsame hinv ht
      subst hqp
      exact hi' (Steps_Inv lib r _ hinv hsteps) ht

theorem state_changes_follow_edges_witness :
    (repoWith RequestStatePending).pnrs.lookup "someId" = some (someRequest RequestStatePending)
      ∧ ∃ q, (invoke noRecordLibs "piu1" (repoWith RequestStatePending)
            (.ConfirmPNR ⟨"someId"⟩)).1.pnrs.lookup "someId" = some q ∧
          (q.State = (someRequest RequestStatePending).State
            ∨ IsEdge (someRequest RequestStatePending).State q.State) :=
  ⟨lookup_repoWith _,
   match (state_changes_follow_edges noRecordLibs "piu1" (repoWith RequestStatePending)
      (.ConfirmPNR ⟨"someId"⟩) "someId" (someRequest RequestStatePending)
      (lookup_repoWith _)).1 with
   | ⟨q, hq, he, _⟩ => ⟨q, hq, he⟩⟩

theorem SameRows_refl (r : InMemoryRepository) : SameRows r r :=
  fun _ => ⟨rfl, rfl, rfl⟩

theorem SameRows_of_eq {r r' : InMemoryRepository} (h : r' = r) : SameRows r r' := by
  rw [h]
  exact SameRows_refl r

theorem ConfirmPNR_error_unchanged (caller : String) (r : InMemoryRepository)
    (input : ConfirmPNRInput)
    (herr : errorOf ((NewRMTUsecase caller inMemory).ConfirmPNR r input).2 ≠ none) :
    ((NewRMTUsecase caller inMemory).ConfirmPNR r input).1 = r := by
  revert herr
  cases hl : r.pnrs.lookup input.Id with
  | none =>
    intro _
    simp [ConfirmPNR, NewRMTUsecase, inMemory_GetPNR_eq, hl]
  | some p =>
    have hupd := fun q => inMemory_UpdatePNR_of_lookup r input.Id p q hl
    simp only [ConfirmPNR, NewRMTUsecase, inMemory_GetPNR_eq, hl, hupd]
    split
    · intro _
      rfl
    · split
      · intro _
        rfl
      · by_cases hc : GetConfirmedState p.State = RequestStateAckConfirmed
            ∨ GetConfirmedState p.State = RequestStateNackConfirmed
        · simp [hc, inMemory_PurgePNRData_of_lookup, errorOf]
        · simp [hc, errorOf]

theorem NewPNRRequest_error_cases (caller : String) (r : InMemoryRepository)
    (input : NewPNRRequestInput)
    (herr : errorOf ((NewRMTUsecase caller inMemory).NewPNRRequest r input).2 ≠ none) :
    ((NewRMTUsecase caller inMemory).NewPNRRequest r input).1 = r ∨
      (r.pnrs.lookup input.Id = none ∧ (r.gcMetadatas.lookup input.Id).isSome = true) := by
  revert herr
  by_cases h1 : caller = input.RespondingPIU
  · intro _
    left
    simp [NewPNRRequest, NewRMTUsecase, isThisPIU, h1]
  cases h2 : r.pius.lookup input.RespondingPIU with
  | none =>
    intro _
    left
    simp [NewPNRRequest, NewRMTUsecase, isThisPIU, h1, inMemory_GetPIU_eq, h2]
  | some piu =>
    cases h3 : r.pnrs.lookup input.Id with
    | some p =>
      intro _
      left
      simp [NewPNRRequest, NewRMTUsecase, isThisPIU, h1, inMemory_GetPIU_eq, h2,
        inMemory_InsertPNR_eq, h3]
    | none =>
      cases h4 : r.gcMetadatas.lookup input.Id with
      | some g =>
        intro _
        exact Or.inr ⟨rfl, rfl⟩
      | none =>
        simp [NewPNRRequest, NewRMTUsecase, isThisPIU, h1, inMemory_GetPIU_eq, h2,
          inMemory_InsertPNR_eq, h3, inMemory_InsertGCMetadata_eq, h4, errorOf]

theorem submitPNRResponse_error_unchanged (lib : Libs) (caller : String)
    (response : RequestState) (r : InMemoryRepository) (input : SubmitPNRResponseInput)
    (hinv : Inv r)
    (herr : errorOf ((NewRMTUsecase caller inMemory).submitPNRResponse lib response r
      input).2 ≠ none) :
    ((NewRMTUsecase caller inMemory).submitPNRResponse lib response r input).1 = r := by
  rcases submitPNRResponse_cases lib caller response r input with
    ⟨h, -⟩ | ⟨p, g, hashes, hl, hg, hg2, -⟩ | ⟨p, g, hashes, ts, _, _, _, hok, -⟩
  · exact h
  · have hid := (hinv.1 input.Id p hl).1
    rw [hid, hg] at hg2
    cases hg2
  · rw [hok] at herr
    exact absurd rfl herr

/-- In a repository that satisfies the invariant, an invocation that returns an
error leaves every row of every table as it was. -/
theorem invoke_error_SameRows (lib : Libs) (caller : String) (r : InMemoryRepository)
    (op : Op) (hinv : Inv r) (herr : (invoke lib caller r op).2 ≠ none) :
    SameRows r (invoke lib caller r op).1 := by
  cases op with
  | SetPIUInfo input =>
    exfalso
    apply herr
    cases hl : r.pius.lookup caller with
    | none =>
      simp [invoke, errorOf, SetPIUInfo, NewRMTUsecase, inMemory, InMemoryRepository.PIUExists,
        InMemoryRepository.InsertPIU, hl]
    | some u =>
      simp [invoke, errorOf, SetPIUInfo, NewRMTUsecase, inMemory, InMemoryRepository.PIUExists,
        InMemoryRepository.GetPIU, InMemoryRepository.UpdatePIU, hl]
  | GetPIUs input => exact SameRows_of_eq rfl
  | GetPNRs input => exact SameRows_of_eq rfl
  | NewPNRRequest input =>
    simp only [invoke] at herr ⊢
    rcases NewPNRRequest_error_cases caller r input herr with h | ⟨hl, hg⟩
    · exact SameRows_of_eq h
    · have := hinv.2 _ hg
      rw [hl] at this
      cases this
  | SubmitPNRResponseAck input =>
    simp only [invoke, SubmitPNRResponseAck] at herr ⊢
    exact SameRows_of_eq (submitPNRResponse_error_unchanged lib caller _ r input hinv herr)
  | SubmitPNRResponseNack input =>
    simp only [invoke, SubmitPNRResponseNack] at herr ⊢
    exact SameRows_of_eq (submitPNRResponse_error_unchanged lib caller _ r input hinv herr)
  | ConfirmPNR input =>
    simp only [invoke] at herr ⊢
    exact SameRows_of_eq (ConfirmPNR_error_unchanged caller r input herr)
  | TerminatePNRRequest input =>
    simp only [invoke] at herr ⊢
    rcases TerminatePNRRequest_cases caller r input with
      ⟨_, h⟩ | ⟨p, _, _, _, h⟩ | ⟨p, hl, _, hg, h⟩ | ⟨p, g, _, _, _, h⟩
    · rw [h]
      exact SameRows_refl r
    · rw [h]
      exact SameRows_refl r
    · rw [h]
      have hrow := hinv.1 input.Id p hl
      have hterm : p.State = RequestStateTerminated := by
        by_contra hne
        have := hrow.2.2.1.mpr hne
        rw [hg] at this
        cases this
      have hsame : terminatedRow p = p :=
        terminatedRow_of_terminated p hterm (hrow.2.2.2.1 (by rw [hterm]; decide))
      unfold terminatedRow at hsame
      rw [hsame]
      intro k
      refine ⟨rfl, ?_, rfl⟩
      by_cases hk : k = input.Id
      · subst hk
        simp only [AList.lookup_insert, hl]
      · simp only [AList.lookup_insert_ne hk]
    · rw [h] at herr
      exact absurd rfl herr

/-- C38: in every state reachable from the empty in-memory repository by
usecase operations, the invariant holds (every stored row is stored under its
own id, every GC row has a PNR with the same id, a PNR without a GC row is
`Terminated` with an empty payload), and every usecase operation that returns
an error leaves the repository as it was: every key of the PIU, PNR and GC
tables holds the same value after the call as before. -/
theorem error_leaves_repository (lib : Libs) (r : InMemoryRepository)
    (hr : Reachable lib r) :
    Inv r ∧ ∀ caller op, (invoke lib caller r op).2 ≠ none →
      SameRows r (invoke lib caller r op).1 :=
  ⟨Reachable_Inv lib r hr,
   fun caller op herr => invoke_error_SameRows lib caller r op (Reachable_Inv lib r hr) herr⟩

theorem error_leaves_repository_witness :
    Reachable noRecordLibs
        (runCalls noRecordLibs (ackConfirmedCalls ++ [("piu1", .TerminatePNRRequest ⟨"pnr1"⟩)])
          NewInMemoryRepository)
      ∧ (invoke noRecordLibs "piu1"
          (runCalls noRecordLibs (ackConfirmedCalls ++ [("piu1", .TerminatePNRRequest ⟨"pnr1"⟩)])
            NewInMemoryRepository) (.TerminatePNRRequest ⟨"pnr1"⟩)).2
          = some (Error.wrap (Error.new "PNR GC metadata not found") Status.Internal)
      ∧ SameRows
          (runCalls noRecordLibs (ackConfirmedCalls ++ [("piu1", .TerminatePNRRequest ⟨"pnr1"⟩)])
            NewInMemoryRepository)
          (invoke noRecordLibs "piu1"
            (runCalls noRecordLibs
              (ackConfirmedCalls ++ [("piu1", .TerminatePNRRequest ⟨"pnr1"⟩)])
              NewInMemoryRepository) (.TerminatePNRRequest ⟨"pnr1"⟩)).1 :=
  ⟨Reachable_runCalls noRecordLibs _ _ Reachable.init, by decide,
   (error_leaves_repository noRecordLibs _
      (Reachable_runCalls noRecordLibs _ _ Reachable.init)).2 "piu1"
      (.TerminatePNRRequest ⟨"pnr1"⟩) (by decide)⟩

end LifeCycle

/-! ### The scan of the private collection -/

section Scan

theorem HasData_eq_false_iff (s : RequestState) :
    HasData s = false ↔ (s = RequestStateAckConfirmed ∨ s = RequestStateNackConfirmed
      ∨ s = RequestStateTerminated) := by
  unfold HasData
  by_cases h : s = RequestStateAckConfirmed ∨ s = RequestStateNackConfirmed
      ∨ s = RequestStateTerminated
  · rw [if_pos h]
    exact ⟨fun _ => h, fun _ => rfl⟩
  · rw [if_neg h]
    exact ⟨fun e => absurd e (by decide), fun e => absurd e h⟩

theorem getPNRsLoop_eq (r : PrivateDataRepository) (l : Ledger) (filter : PNRFilter) :
    ∀ (items : List (Except Error Bytes)) (result : List PNR),
      r.getPNRsLoop l filter items result
        = result ++ items.filterMap (specScanRow r l filter) := by
  intro items
  induction items with
  | nil =>
    intro result
    simp [PrivateDataRepository.getPNRsLoop]
  | cons item rest ih =>
    intro result
    cases item with
    | error err =>
      simp only [PrivateDataRepository.getPNRsLoop, ih, List.filterMap_cons, specScanRow]
    | ok value =>
      cases hm : r.env.unmarshalPNRMeta value with
      | error err =>
        simp only [PrivateDataRepository.getPNRsLoop, metaModelToMetaEntity, hm, ih,
          List.filterMap_cons, specScanRow]
      | ok m =>
        by_cases hf : IsMatchingPNR filter
            (pnrEntitiesToEntity m { RequestData := "", ResponseData := "" }) = true
        swap
        · simp only [PrivateDataRepository.getPNRsLoop, metaModelToMetaEntity, hm, ih,
            List.filterMap_cons, specScanRow, hf, if_false, Bool.false_eq_true]
        cases hd : HasData m.State with
        | false =>
          have h3 := (HasData_eq_false_iff m.State).mp hd
          have h3' : (pnrEntitiesToEntity m { RequestData := "", ResponseData := "" }).State
              = RequestStateAckConfirmed
            ∨ (pnrEntitiesToEntity m { RequestData := "", ResponseData := "" }).State
              = RequestStateNackConfirmed
            ∨ (pnrEntitiesToEntity m { RequestData := "", ResponseData := "" }).State
              = RequestStateTerminated := h3
          simp only [PrivateDataRepository.getPNRsLoop, metaModelToMetaEntity, hm, ih,
            List.filterMap_cons, specScanRow, hf, hd, h3', if_true, if_false,
            Bool.false_eq_true, List.append_assoc, List.singleton_append]
        | true =>
          have h3 : ¬ (m.State = RequestStateAckConfirmed ∨ m.State = RequestStateNackConfirmed
              ∨ m.State = RequestStateTerminated) := by
            intro h
            rw [(HasData_eq_false_iff m.State).mpr h] at hd
            cases hd
          have h3' : ¬ ((pnrEntitiesToEntity m { RequestData := "", ResponseData := "" }).State
              = RequestStateAckConfirmed
            ∨ (pnrEntitiesToEntity m { RequestData := "", ResponseData := "" }).State
              = RequestStateNackConfirmed
            ∨ (pnrEntitiesToEntity m { RequestData := "", ResponseData := "" }).State
              = RequestStateTerminated) := h3
          cases hdata : r.getPNRData l m.Id with
          | error err =>
            simp only [PrivateDataRepository.getPNRsLoop, metaModelToMetaEntity, hm, ih,
              List.filterMap_cons, specScanRow, hf, hd, h3', hdata, if_true, if_false]
          | ok kd =>
            obtain ⟨dk, d⟩ := kd
            simp only [PrivateDataRepository.getPNRsLoop, metaModelToMetaEntity, hm, ih,
              List.filterMap_cons, specScanRow, hf, hd, h3', hdata, if_true, if_false,
              List.append_assoc, List.singleton_append]

/-- C31: in the private-collection adapter, whenever the metadata scan can be
opened, `GetPNRs(filter)` returns without error. Its result is, in scan order,
what each scanned item gives on its own: an item whose `Next()` fails or whose
metadata does not decode is skipped, a row that does not match the filter is
left out, a matching row in a state without payload is returned, and a
matching row in a state with payload is returned with its payload, or skipped
when the payload cannot be read or decoded. So every scanned row whose
metadata decodes, that matches and whose payload (if its state has one)
decodes is in the result, whatever rows precede it. -/
theorem GetPNRs_skips_bad_rows (r : PrivateDataRepository) (l : Ledger) (filter : PNRFilter)
    (hopen : r.env.getPrivateDataByPartialCompositeKeyError r.localData pnrMetaObjectType
      = none) :
    ∃ items result,
      l.GetPrivateDataByPartialCompositeKey r.env r.localData pnrMetaObjectType = .ok items ∧
      r.GetPNRs l filter = .ok result ∧
      result = items.filterMap (specScanRow r l filter) ∧
      ∀ value m, .ok value ∈ items → r.env.unmarshalPNRMeta value = .ok m →
        IsMatchingPNR filter
          (pnrEntitiesToEntity m { RequestData := "", ResponseData := "" }) = true →
        (HasData m.State = false →
            pnrEntitiesToEntity m { RequestData := "", ResponseData := "" } ∈ result)
          ∧ (HasData m.State = true → ∀ k d, r.getPNRData l m.Id = .ok (k, d) →
              pnrEntitiesToEntity m d ∈ result) := by
  have hscan : ∃ items,
      l.GetPrivateDataByPartialCompositeKey r.env r.localData pnrMetaObjectType = .ok items := by
    unfold Ledger.GetPrivateDataByPartialCompositeKey
    rw [hopen]
    exact ⟨_, rfl⟩
  obtain ⟨items, hitems⟩ := hscan
  refine ⟨items, items.filterMap (specScanRow r l filter), hitems, ?_, rfl, ?_⟩
  · unfold PrivateDataRepository.GetPNRs
    rw [hitems]
    simp only [getPNRsLoop_eq, List.nil_append]
  · intro value m hmem hm hf
    constructor
    · intro hd
      rw [List.mem_filterMap]
      refine ⟨.ok value, hmem, ?_⟩
      simp only [specScanRow, hm, hf, hd, if_true, if_false, Bool.false_eq_true]
    · intro hd k d hdata
      rw [List.mem_filterMap]
      refine ⟨.ok value, hmem, ?_⟩
      simp only [specScanRow, hm, hf, hd, hdata, if_true]

theorem GetPNRs_skips_bad_rows_witness :
    fixtureEnv.getPrivateDataByPartialCompositeKeyError fixtureRepository.localData
        pnrMetaObjectType = none
      ∧ ledgerWithBadRow.privateData.lookup ("piu1Collection", ⟨"pnrMeta", "bad"⟩) = some [99]
      ∧ fixtureEnv.unmarshalPNRMeta [99] = .error (Error.new "json: cannot unmarshal")
      ∧ ledgerWithBadRow.GetPrivateDataByPartialCompositeKey fixtureEnv "piu1Collection"
          "pnrMeta" = .ok [.ok [99], .ok [10]]
      ∧ fixtureRepository.GetPNRs ledgerWithBadRow emptyFilter = .ok [pendingPNR]
      ∧ ∃ items result,
          ledgerWithBadRow.GetPrivateDataByPartialCompositeKey fixtureRepository.env
            fixtureRepository.localData pnrMetaObjectType = .ok items ∧
          fixtureRepository.GetPNRs ledgerWithBadRow emptyFilter = .ok result ∧
          result = items.filterMap (specScanRow fixtureRepository ledgerWithBadRow emptyFilter) :=
  ⟨rfl, by decide, by decide, by decide, by decide,
   match GetPNRs_skips_bad_rows fixtureRepository ledgerWithBadRow emptyFilter rfl with
   | ⟨items, result, h1, h2, h3, _⟩ => ⟨items, result, h1, h2, h3⟩⟩

end Scan

/-! ### The invocation adapter and the public-ledger adapter -/

section Adapters

/-- C32: when the transient map lacks the required key, the invocation adapter
reports success. With a usecase factory, an input decoder and a `GetTransient`
call that all succeed, and a transient map without `requestData`,
`NewPNRRequest` returns the zero output and a nil error without calling the
usecase; with a transient map without `responseData` so do
`SubmitPNRResponseAck` and `SubmitPNRResponseNack`. The state is not changed. -/
theorem missing_transient_reports_success (σ : Type) (lib : Libs) (u : RMTUsecase σ) (s : σ)
    (request : String) (input1 : NewPNRRequestInput) (input2 : SubmitPNRResponseInput)
    (t : Table String) :
    SmartContract.NewPNRRequest
        { uf := fun _ => .ok u
          unmarshalNewPNRRequestInput := fun _ => .ok input1
          unmarshalSubmitPNRResponseInput := fun _ => .ok input2 }
        ⟨.ok (t.erase RequestDataTransientKey)⟩ s request = (s, { Id := "" }, none)
      ∧ SmartContract.SubmitPNRResponseAck lib
          { uf := fun _ => .ok u
            unmarshalNewPNRRequestInput := fun _ => .ok input1
            unmarshalSubmitPNRResponseInput := fun _ => .ok input2 }
          ⟨.ok (t.erase ResponseDataTransientKey)⟩ s request = (s, none)
      ∧ SmartContract.SubmitPNRResponseNack lib
          { uf := fun _ => .ok u
            unmarshalNewPNRRequestInput := fun _ => .ok input1
            unmarshalSubmitPNRResponseInput := fun _ => .ok input2 }
          ⟨.ok (t.erase ResponseDataTransientKey)⟩ s request = (s, none) := by
  refine ⟨?_, ?_, ?_⟩
  · simp only [SmartContract.NewPNRRequest, AList.lookup_erase]
  · simp only [SmartContract.SubmitPNRResponseAck, AList.lookup_erase]
  · simp only [SmartContract.SubmitPNRResponseNack, AList.lookup_erase]

/-- C36: over the public-ledger adapter on a host whose `PutState` fails, the
stored PNR `ackRequest` has a payload, the `UpdatePNR` that the purge issues
fails, and `PurgePNRData` returns no error; afterwards `GetPNR` still returns
`ackRequest` with its payload. -/
theorem PurgePNRData_drops_write_error :
    failingPutRepository.GetPNR ledgerPublicAck "someId" = .ok ackRequest
      ∧ ackRequest.RequestData ≠ "" ∧ ackRequest.ResponseData ≠ ""
      ∧ (failingPutRepository.UpdatePNR ledgerPublicAck "someId"
          { ackRequest with RequestData := "", ResponseData := "" }).2
          = some (Error.new "PutState failed")
      ∧ (failingPutRepository.PurgePNRData ledgerPublicAck "someId").2 = none
      ∧ failingPutRepository.GetPNR
          (failingPutRepository.PurgePNRData ledgerPublicAck "someId").1 "someId"
          = .ok ackRequest := by
  decide

end Adapters

/-! ### The GC timestamp -/

section GCTimestamp

open RMTUsecase

theorem lastResponse_cons_self (hist : List (String × String)) (id doc : String) :
    lastResponse ((id, doc) :: hist) id = some doc := by
  simp [lastResponse, List.find?]

theorem lastResponse_cons_ne (hist : List (String × String)) (id doc k : String)
    (h : k ≠ id) : lastResponse ((id, doc) :: hist) k = lastResponse hist k := by
  have h' : ¬ id = k := fun e => h e.symm
  simp [lastResponse, List.find?, h']

theorem ReachableWithResponses_Reachable (lib : Libs) (r : InMemoryRepository)
    (hist : List (String × String)) (h : ReachableWithResponses lib r hist) :
    Reachable lib r := by
  induction h with
  | init => exact Reachable.init
  | step caller op _ ih => exact Reachable.step caller op ih

theorem ReachableWithResponses_runCalls (lib : Libs) (calls : List (String × Op)) :
    ∀ st : InMemoryRepository × List (String × String),
      ReachableWithResponses lib st.1 st.2 →
      ReachableWithResponses lib (runCallsResponses lib calls st).1
        (runCallsResponses lib calls st).2 := by
  induction calls with
  | nil =>
    intro st h
    exact h
  | cons c rest ih =>
    intro st h
    obtain ⟨caller, op⟩ := c
    exact ih _ (ReachableWithResponses.step caller op h)

theorem GcInv_init (lib : Libs) : GcInv lib NewInMemoryRepository [] := by
  refine ⟨?_, fun _ _ => rfl⟩
  intro k p hp
  simp [NewInMemoryRepository] at hp

/-- The invariant after one row has been written, the history being the same. -/
theorem GcInv_write (lib : Libs) (r r' : InMemoryRepository) (hist : List (String × String))
    (id : String) (q : PNR) (h : GcInv lib r hist)
    (hp : r'.pnrs = r.pnrs.insert id q)
    (hgc : ∀ k, k ≠ id → r'.gcMetadatas.lookup k = r.gcMetadatas.lookup k)
    (hd : (q.State = RequestStatePending ∨ q.State = RequestStatePendingConfirmed) →
      lastResponse hist id = none)
    (hg : ∀ g', r'.gcMetadatas.lookup id = some g' →
      g'.CreationTimestamp = specGCTimestamp lib hist id q) :
    GcInv lib r' hist := by
  refine ⟨?_, ?_⟩
  · intro k p hk
    rw [hp] at hk
    by_cases e : k = id
    · subst e
      rw [AList.lookup_insert] at hk
      cases hk
      exact ⟨hd, hg⟩
    · rw [AList.lookup_insert_ne e] at hk
      rw [hgc k e]
      exact h.1 k p hk
  · intro k hk
    rw [hp] at hk
    by_cases e : k = id
    · subst e
      rw [AList.lookup_insert] at hk
      cases hk
    · rw [AList.lookup_insert_ne e] at hk
      exact h.2 k hk

theorem GcInv_of_eq (lib : Libs) (r r' : InMemoryRepository) (hist : List (String × String))
    (h : GcInv lib r hist) (hp : r'.pnrs = r.pnrs) (hg : r'.gcMetadatas = r.gcMetadatas) :
    GcInv lib r' hist := by
  unfold GcInv
  rw [hp, hg]
  exact h

theorem specGCTimestamp_congr (lib : Libs) (hist : List (String × String)) (k : String)
    (p q : PNR) (h : q.RequestTimestamp = p.RequestTimestamp) :
    specGCTimestamp lib hist k q = specGCTimestamp lib hist k p := by
  unfold specGCTimestamp
  rw [h]

theorem confirmedRow_RequestTimestamp (p : PNR) :
    (confirmedRow p).RequestTimestamp = p.RequestTimestamp := by
  unfold confirmedRow
  split <;> rfl

theorem GetConfirmedState_pending (s : RequestState)
    (h : GetConfirmedState s = RequestStatePending
      ∨ GetConfirmedState s = RequestStatePendingConfirmed) :
    s = RequestStatePending ∨ s = RequestStatePendingConfirmed := by
  unfold GetConfirmedState at h
  by_cases h1 : s = RequestStatePending
  · exact Or.inl h1
  rw [if_neg h1] at h
  by_cases h2 : s = RequestStateAck
  · rw [if_pos h2] at h
    rcases h with h | h <;> exact absurd h (by decide)
  rw [if_neg h2] at h
  by_cases h3 : s = RequestStateNack
  · rw [if_pos h3] at h
    rcases h with h | h <;> exact absurd h (by decide)
  rw [if_neg h3] at h
  exact h

theorem submitPNRResponse_GcInv (lib : Libs) (caller : String) (response : RequestState)
    (hresp : response = RequestStateAck ∨ response = RequestStateNack)
    (r : InMemoryRepository) (input : SubmitPNRResponseInput) (hist : List (String × String))
    (hinv : Inv r) (h : GcInv lib r hist) :
    GcInv lib ((NewRMTUsecase caller inMemory).submitPNRResponse lib response r input).1
      ((if errorOf ((NewRMTUsecase caller inMemory).submitPNRResponse lib response r input).2
          = none then [(input.Id, OptionalMessage input.ResponseData)] else []) ++ hist) := by
  by_cases herr : errorOf ((NewRMTUsecase caller inMemory).submitPNRResponse lib response r
      input).2 = none
  swap
  · rw [if_neg herr, submitPNRResponse_error_unchanged lib caller response r input hinv herr]
    exact h
  rw [if_pos herr]
  have hok : ((NewRMTUsecase caller inMemory).submitPNRResponse lib response r input).2
      = .ok {} := by
    revert herr
    cases ((NewRMTUsecase caller inMemory).submitPNRResponse lib response r input).2 with
    | error e =>
      intro he
      cases he
    | ok v =>
      intro _
      rfl
  obtain ⟨p, gc, hashes, ts, hl, -, hstate, hg, -, hloop, hres⟩ :=
    submitPNRResponse_ok lib caller response r input hok
  obtain ⟨new, -, -, hts, -⟩ := submitPNRResponseLoop_ok lib _ _ _ _ _ hloop
  have hid : p.Id = input.Id := (hinv.1 input.Id p hl).1
  have hnone : lastResponse hist input.Id = none := (h.1 input.Id p hl).1 (Or.inr hstate)
  have hgts : gc.CreationTimestamp = p.RequestTimestamp := by
    have := (h.1 input.Id p hl).2 gc hg
    unfold specGCTimestamp at this
    rw [hnone] at this
    exact this
  rw [hres, hid]
  simp only [List.singleton_append]
  refine ⟨?_, ?_⟩
  · intro k q hk
    by_cases e : k = input.Id
    · subst e
      simp only [AList.lookup_insert] at hk
      cases hk
      constructor
      · intro hq
        have hq' : response = RequestStatePending ∨ response = RequestStatePendingConfirmed := hq
        rcases hresp with hr | hr <;> rw [hr] at hq' <;> rcases hq' with hq' | hq' <;>
          exact absurd hq' (by decide)
      · intro g' hg'
        simp only [AList.lookup_insert] at hg'
        cases hg'
        unfold specGCTimestamp
        rw [lastResponse_cons_self]
        simp only
        rw [hts, hgts]
        rfl
    · simp only [AList.lookup_insert_ne e] at hk ⊢
      rw [show specGCTimestamp lib
          ((input.Id, OptionalMessage input.ResponseData) :: hist) k q
          = specGCTimestamp lib hist k q by
        unfold specGCTimestamp
        rw [lastResponse_cons_ne _ _ _ _ e]]
      rw [lastResponse_cons_ne _ _ _ _ e]
      exact h.1 k q hk
  · intro k hk
    by_cases e : k = input.Id
    · subst e
      simp only [AList.lookup_insert] at hk
      cases hk
    · simp only [AList.lookup_insert_ne e] at hk
      rw [lastResponse_cons_ne _ _ _ _ e]
      exact h.2 k hk

theorem invoke_GcInv (lib : Libs) (caller : String) (r : InMemoryRepository) (op : Op)
    (hist : List (String × String)) (hinv : Inv r) (h : GcInv lib r hist) :
    GcInv lib (invoke lib caller r op).1 (respondedDoc lib caller r op ++ hist) := by
  cases op with
  | SetPIUInfo input =>
    obtain ⟨piu, e, -⟩ := SetPIUInfo_effect caller r input
    simp only [invoke, respondedDoc, List.nil_append, e]
    exact GcInv_of_eq lib r _ hist h rfl rfl
  | GetPIUs input => exact GcInv_of_eq lib r _ hist h rfl rfl
  | GetPNRs input => exact GcInv_of_eq lib r _ hist h rfl rfl
  | NewPNRRequest input =>
    simp only [invoke, respondedDoc, List.nil_append]
    rcases NewPNRRequest_cases caller r input with e | ⟨hl, hg, -⟩ | ⟨hl, hg, -, -, e⟩
    · rw [e]
      exact h
    · have := hinv.2 _ hg
      rw [hl] at this
      cases this
    · rw [e]
      refine GcInv_write lib r _ hist input.Id _ h rfl
        (fun k hk => AList.lookup_insert_ne hk) (fun _ => h.2 _ hl) ?_
      intro g' hg'
      simp only [AList.lookup_insert] at hg'
      cases hg'
      unfold specGCTimestamp
      rw [h.2 _ hl]
  | SubmitPNRResponseAck input =>
    exact submitPNRResponse_GcInv lib caller RequestStateAck (Or.inl rfl) r input hist hinv h
  | SubmitPNRResponseNack input =>
    exact submitPNRResponse_GcInv lib caller RequestStateNack (Or.inr rfl) r input hist hinv h
  | ConfirmPNR input =>
    simp only [invoke, respondedDoc, List.nil_append]
    rcases ConfirmPNR_cases caller r input with e | ⟨p, hl, -, e⟩
    · rw [e]
      exact h
    · rw [e]
      refine GcInv_write lib r _ hist input.Id (confirmedRow p) h rfl (fun _ _ => rfl) ?_ ?_
      · intro hq
        rw [confirmedRow_State] at hq
        exact (h.1 _ p hl).1 (GetConfirmedState_pending _ hq)
      · intro g' hg'
        rw [specGCTimestamp_congr lib hist input.Id p _ (confirmedRow_RequestTimestamp p)]
        exact (h.1 _ p hl).2 g' hg'
  | TerminatePNRRequest input =>
    simp only [invoke, respondedDoc, List.nil_append]
    rcases TerminatePNRRequest_cases caller r input with
      ⟨_, e⟩ | ⟨p, _, _, _, e⟩ | ⟨p, hl, _, hg, e⟩ | ⟨p, g, hl, _, hg, e⟩
    · rw [e]
      exact h
    · rw [e]
      exact h
    · rw [e]
      refine GcInv_write lib r _ hist input.Id _ h rfl (fun _ _ => rfl) ?_ ?_
      · intro hq
        rcases hq with hq | hq <;>
          exact absurd (show RequestStateTerminated = _ from hq) (by decide)
      · intro g' hg'
        rw [show r.gcMetadatas.lookup input.Id = none from hg] at hg'
        cases hg'
    · rw [e]
      refine GcInv_write lib r _ hist input.Id _ h rfl
        (fun k hk => AList.lookup_erase_ne hk) ?_ ?_
      · intro hq
        rcases hq with hq | hq <;>
          exact absurd (show RequestStateTerminated = _ from hq) (by decide)
      · intro g' hg'
        simp only [AList.lookup_erase] at hg'
        cases hg'

theorem ReachableWithResponses_GcInv (lib : Libs) (r : InMemoryRepository)
    (hist : List (String × String)) (h : ReachableWithResponses lib r hist) :
    GcInv lib r hist := by
  induction h with
  | init => exact GcInv_init lib
  | step caller op hr ih =>
    exact invoke_GcInv lib caller _ op _
      (Reachable_Inv lib _ (ReachableWithResponses_Reachable lib _ _ hr)) ih

/-- C34: in every repository state reachable from the empty repository by
usecase operations, with the history of the response documents submitted so
far, every stored GC row belongs to a stored PNR with the same id; its
`creationTimestamp` is the PNR's `requestTimestamp` while no response has been
submitted for that PNR (in particular while the PNR is `Pending` or
`PendingConfirmed`), and after a successful submission it is the earliest of
the PNR's `requestTimestamp` and the `created_on` timestamps of the
sub-records of the submitted response, its instant being the minimum of
theirs. It is never later than the PNR's `requestTimestamp`. -/
theorem gc_timestamp_invariant (lib : Libs) (r : InMemoryRepository)
    (hist : List (String × String)) (h : ReachableWithResponses lib r hist) (k : String)
    (g : GCMetadata) (hg : r.gcMetadatas.lookup k = some g) :
    ∃ p, r.pnrs.lookup k = some p ∧ p.Id = k ∧
      (lastResponse hist k = none → g.CreationTimestamp = p.RequestTimestamp) ∧
      ((p.State = RequestStatePending ∨ p.State = RequestStatePendingConfirmed) →
        g.CreationTimestamp = p.RequestTimestamp) ∧
      (∀ doc, lastResponse hist k = some doc →
        g.CreationTimestamp = (createdOnTimes lib doc).foldl earlier p.RequestTimestamp ∧
        g.CreationTimestamp.nanos
          = ((createdOnTimes lib doc).map Time.nanos).foldl min p.RequestTimestamp.nanos ∧
        g.CreationTimestamp ∈ p.RequestTimestamp :: createdOnTimes lib doc) ∧
      g.CreationTimestamp.nanos ≤ p.RequestTimestamp.nanos ∧
      g.CreationTimestamp.After p.RequestTimestamp = false := by
  have hinv := Reachable_Inv lib r (ReachableWithResponses_Reachable lib r hist h)
  have hgc := ReachableWithResponses_GcInv lib r hist h
  have hsome : (r.pnrs.lookup k).isSome = true := hinv.2 k (by rw [hg]; rfl)
  obtain ⟨p, hp⟩ := Option.isSome_iff_exists.mp hsome
  have hspec := (hgc.1 k p hp).2 g hg
  have hle : g.CreationTimestamp.nanos ≤ p.RequestTimestamp.nanos := by
    rw [hspec]
    unfold specGCTimestamp
    cases lastResponse hist k with
    | none => exact le_refl _
    | some doc => exact foldl_earlier_le _ _
  refine ⟨p, hp, (hinv.1 k p hp).1, ?_, ?_, ?_, hle, ?_⟩
  · intro hn
    rw [hspec]
    unfold specGCTimestamp
    rw [hn]
  · intro hs
    rw [hspec]
    unfold specGCTimestamp
    rw [(hgc.1 k p hp).1 hs]
  · intro doc hd
    have e : g.CreationTimestamp = (createdOnTimes lib doc).foldl earlier p.RequestTimestamp := by
      rw [hspec]
      unfold specGCTimestamp
      rw [hd]
    refine ⟨e, ?_, ?_⟩
    · rw [e]
      exact foldl_earlier_nanos _ _
    · rw [e]
      exact foldl_earlier_mem _ _
  · unfold Time.After
    exact decide_eq_false (not_lt.mpr hle)

theorem gc_timestamp_invariant_witness :
    ReachableWithResponses twoRecordLibs
        (runCallsResponses twoRecordLibs respondedCalls (NewInMemoryRepository, [])).1
        (runCallsResponses twoRecordLibs respondedCalls (NewInMemoryRepository, [])).2
      ∧ (runCallsResponses twoRecordLibs respondedCalls (NewInMemoryRepository, [])).2
          = [("pnr1", "doc")]
      ∧ (runCallsResponses twoRecordLibs respondedCalls
            (NewInMemoryRepository, [])).1.gcMetadatas.lookup "pnr1"
          = some ⟨"pnr1", ⟨100, 0⟩⟩
      ∧ ∃ p, (runCallsResponses twoRecordLibs respondedCalls
            (NewInMemoryRepository, [])).1.pnrs.lookup "pnr1" = some p ∧
          p.Id = "pnr1" ∧
          (⟨100, 0⟩ : Time) ∈ p.RequestTimestamp :: createdOnTimes twoRecordLibs "doc" ∧
          (⟨100, 0⟩ : Time).nanos ≤ p.RequestTimestamp.nanos :=
  have hreach := ReachableWithResponses_runCalls twoRecordLibs respondedCalls
    (NewInMemoryRepository, []) ReachableWithResponses.init
  ⟨hreach, by decide, by decide,
   match gc_timestamp_invariant twoRecordLibs _ _ hreach "pnr1" ⟨"pnr1", ⟨100, 0⟩⟩
      (by decide) with
   | ⟨p, hp, hid, _, _, hdoc, hle, _⟩ => ⟨p, hp, hid, (hdoc "doc" (by decide)).2.2, hle⟩⟩

end GCTimestamp

/-! ### Termination and the peer's shared writes -/

section PeerWrites

open RMTUsecase

/-- C40, counterexample: the PNR `pnr1` is stored `Pending` in the collections
of the requester `piu1` and the responder `piu2`. `piu1` terminates it: in the
collection of `piu1` the metadata is `Terminated` and there is no payload
entry. The peer `piu2` then confirms the request, successfully; afterwards
the metadata in the collection of `piu1` is `PendingConfirmed` and the payload
entry is back. -/
theorem peer_confirm_revives_counterexample :
    ((LedgerUsecaseFactory.New peerEnv "piu1").TerminatePNRRequest ledgerPending ⟨"pnr1"⟩).2
        = .ok {}
      ∧ (NewPrivateDataRepository peerEnv "piu1").GetPNR ledgerTerminatedByPiu1 "pnr1"
          = .ok { pendingPNR with State := RequestStateTerminated, RequestData := "" }
      ∧ ledgerTerminatedByPiu1.privateData.lookup ("piu1Collection", ⟨"pnrData", "pnr1"⟩) = none
      ∧ ((LedgerUsecaseFactory.New peerEnv "piu2").ConfirmPNR ledgerTerminatedByPiu1
          ⟨"pnr1"⟩).2 = .ok {}
      ∧ (NewPrivateDataRepository peerEnv "piu1").GetPNR ledgerConfirmedByPeer "pnr1"
          = .ok pendingConfirmedPNR
      ∧ pendingConfirmedPNR.State ≠ RequestStateTerminated
      ∧ ledgerConfirmedByPeer.privateData.lookup ("piu1Collection", ⟨"pnrData", "pnr1"⟩)
          = some [20] := by
  decide

theorem getCollectionName_injective (a b : String)
    (h : getCollectionName a = getCollectionName b) : a = b := by
  unfold getCollectionName at h
  have h2 : (a ++ "Collection").data = (b ++ "Collection").data := congrArg String.data h
  rw [String.data_append, String.data_append] at h2
  exact String.ext (List.append_cancel_right h2)

theorem PurgePNRData_frame (r : PrivateDataRepository) (l : Ledger) (id : String) :
    (r.PurgePNRData l id).1.state = l.state
      ∧ ∀ c k, k ≠ ⟨pnrDataObjectType, id⟩ →
          (r.PurgePNRData l id).1.privateData.lookup (c, k) = l.privateData.lookup (c, k) := by
  unfold PrivateDataRepository.PurgePNRData
  split_ifs with hex
  · exact ⟨rfl, fun _ _ _ => rfl⟩
  split
  · exact ⟨rfl, fun _ _ _ => rfl⟩
  rename_i metaKey metaEntity hmeta
  split
  · exact ⟨rfl, fun _ _ _ => rfl⟩
  rename_i dataKey hdk
  have e := CreateCompositeKey_ok hdk
  subst e
  simp only
  have ne : ∀ (c c' : String) (k : CompositeKey), k ≠ ⟨pnrDataObjectType, id⟩ →
      (c, k) ≠ (c', (⟨pnrDataObjectType, id⟩ : CompositeKey)) :=
    fun c c' k hk e => hk (congrArg Prod.snd e)
  have f1 := PurgePrivateData_frame r.env l
    (getCollectionName (getRemotePIU
      (pnrEntitiesToEntity metaEntity { RequestData := "", ResponseData := "" }) r.piuId))
    ⟨pnrDataObjectType, id⟩
  split
  · rename_i l1 err h1
    rw [h1] at f1
    exact ⟨f1.1, fun c k hk => f1.2 _ (ne c _ k hk)⟩
  rename_i l1 h1
  rw [h1] at f1
  have f2 := PurgePrivateData_frame r.env l1 r.localData ⟨pnrDataObjectType, id⟩
  split
  · rename_i l2 err h2
    rw [h2] at f2
    exact ⟨f2.1.trans f1.1, fun c k hk => (f2.2 _ (ne c _ k hk)).trans (f1.2 _ (ne c _ k hk))⟩
  · rename_i l2 h2
    rw [h2] at f2
    exact ⟨f2.1.trans f1.1, fun c k hk => (f2.2 _ (ne c _ k hk)).trans (f1.2 _ (ne c _ k hk))⟩

theorem UpdateGCMetadata_frame (r : PrivateDataRepository) (l : Ledger) (pnr : PNR)
    (gc : GCMetadata) :
    (r.UpdateGCMetadata l pnr gc).1.state = l.state
      ∧ ∀ c k, k ≠ ⟨gcMetadataObjectType, pnr.Id⟩ →
          (r.UpdateGCMetadata l pnr gc).1.privateData.lookup (c, k)
            = l.privateData.lookup (c, k) := by
  unfold PrivateDataRepository.UpdateGCMetadata
  split_ifs with hex
  · exact ⟨rfl, fun _ _ _ => rfl⟩
  split
  · exact ⟨rfl, fun _ _ _ => rfl⟩
  rename_i key hk
  have e := CreateCompositeKey_ok hk
  subst e
  split
  · exact ⟨rfl, fun _ _ _ => rfl⟩
  rename_i model hm
  simp only
  have f := putToBoth_frame r l (getCollectionName (getRemotePIU pnr r.piuId))
    ⟨gcMetadataObjectType, pnr.Id⟩ model
  split
  · rename_i l1 err h1
    rw [h1] at f
    exact ⟨f.1, fun c k hk => f.2 c k (Or.inl hk)⟩
  · rename_i l1 h1
    rw [h1] at f
    exact ⟨f.1, fun c k hk => f.2 c k (Or.inl hk)⟩

theorem GetConfirmedState_ne_terminated (s : RequestState) (h : s ≠ RequestStateTerminated) :
    GetConfirmedState s ≠ RequestStateTerminated := by
  unfold GetConfirmedState
  split_ifs
  · decide
  · decide
  · decide
  · exact h

theorem getRemotePIU_other (pnr : PNR) (P Q : String) (hPQ : P ≠ Q)
    (hparty : (pnr.RequestingPIU = P ∧ pnr.RespondingPIU = Q)
      ∨ (pnr.RequestingPIU = Q ∧ pnr.RespondingPIU = P)) :
    getRemotePIU pnr Q = P := by
  unfold getRemotePIU
  rcases hparty with ⟨h1, -⟩ | ⟨h1, h2⟩
  · rw [if_neg (by rw [h1]; exact hPQ), h1]
  · rw [if_pos h1, h2]

/-- The steps of a successful `ConfirmPNR` over any repository: the PNR that
was read, the state after `UpdatePNR`, and the purge when the confirmed state
is `AckConfirmed` or `NackConfirmed`. -/
theorem ConfirmPNR_ok_steps {σ : Type} (u : RMTUsecase σ) (s : σ) (input : ConfirmPNRInput)
    (hok : (u.ConfirmPNR s input).2 = .ok {}) :
    ∃ pnr s1,
      u.rep.GetPNR s input.Id = .ok pnr ∧
      u.confirmPNRSwitch pnr = none ∧
      u.rep.UpdatePNR s input.Id { pnr with State := GetConfirmedState pnr.State } = (s1, none) ∧
      ((u.ConfirmPNR s input).1 = s1
        ∨ u.rep.PurgePNRData s1 input.Id = ((u.ConfirmPNR s input).1, none)) := by
  revert hok
  unfold RMTUsecase.ConfirmPNR
  cases hget : u.rep.GetPNR s input.Id with
  | error err =>
    intro h
    cases h
  | ok pnr =>
    simp only
    by_cases hparty : (!u.isThisPIU pnr.RequestingPIU && !u.isThisPIU pnr.RespondingPIU) = true
    · rw [if_pos hparty]
      intro h
      cases h
    rw [if_neg hparty]
    cases hsw : u.confirmPNRSwitch pnr with
    | some err =>
      simp only
      intro h
      cases h
    | none =>
      simp only
      cases hupd : u.rep.UpdatePNR s input.Id
          { pnr with State := GetConfirmedState pnr.State } with
      | mk s1 e1 =>
      cases e1 with
      | some err =>
        simp only
        intro h
        cases h
      | none =>
        simp only
        by_cases hc : GetConfirmedState pnr.State = RequestStateAckConfirmed
            ∨ GetConfirmedState pnr.State = RequestStateNackConfirmed
        · rw [if_pos hc]
          cases hp : u.rep.PurgePNRData s1 input.Id with
          | mk s2 e2 =>
          cases e2 with
          | some err =>
            simp only
            intro h
            cases h
          | none =>
            simp only
            intro _
            exact ⟨pnr, s1, rfl, hsw, hupd, Or.inr hp⟩
        · rw [if_neg hc]
          intro _
          exact ⟨pnr, s1, rfl, hsw, hupd, Or.inl rfl⟩

/-- A successful `ConfirmPNR` over the adapter: the caller's stored PNR passed
the switch, and the encoding of its metadata with the confirmed state is what
the `pnrMeta` key holds afterwards in the remote and in the local collection. -/
theorem ConfirmPNR_adapter_ok (r : PrivateDataRepository) (piuId : String) (l : Ledger)
    (input : ConfirmPNRInput)
    (hok : ((NewRMTUsecase piuId (privateData r)).ConfirmPNR l input).2 = .ok {}) :
    ∃ pnr metaModel,
      r.GetPNR l input.Id = .ok pnr ∧
      (NewRMTUsecase piuId (privateData r)).confirmPNRSwitch pnr = none ∧
      pnrEntityToMetaModel r.env { pnr with State := GetConfirmedState pnr.State }
        = .ok metaModel ∧
      HoldsInBoth ((NewRMTUsecase piuId (privateData r)).ConfirmPNR l input).1 r.localData
        (getCollectionName (getRemotePIU pnr r.piuId)) ⟨pnrMetaObjectType, input.Id⟩
        metaModel := by
  obtain ⟨pnr, l1, hget, hsw, hupd, hfin⟩ := ConfirmPNR_ok_steps _ l input hok
  have hupd' : r.UpdatePNR l input.Id { pnr with State := GetConfirmedState pnr.State }
      = (l1, none) := hupd
  have hnone : (r.UpdatePNR l input.Id
      { pnr with State := GetConfirmedState pnr.State }).2 = none := by rw [hupd']
  obtain ⟨old, metaModel, -, hmm, hcase⟩ := UpdatePNR_ok hnone
  rw [hupd'] at hcase
  have hboth : HoldsInBoth l1 r.localData
      (getCollectionName (getRemotePIU pnr r.piuId)) ⟨pnrMetaObjectType, input.Id⟩
      metaModel := by
    rcases hcase with ⟨-, hl⟩ | ⟨-, dataModel, -, hl⟩
    · have hl' : l1 = _ := hl
      rw [hl']
      exact (writtenToBoth_one l _ _ _ _).1 _ (List.mem_singleton.mpr rfl)
    · have hl' : l1 = _ := hl
      rw [hl']
      exact (writtenToBoth_two l r.localData _ ⟨pnrMetaObjectType, input.Id⟩
        ⟨pnrDataObjectType, input.Id⟩ metaModel dataModel
        (metaKey_ne_dataKey input.Id)).1 (⟨pnrMetaObjectType, input.Id⟩, metaModel)
        (by simp)
  refine ⟨pnr, metaModel, hget, hsw, hmm, ?_⟩
  rcases hfin with hfin | hfin
  · rw [hfin]
    exact hboth
  · have hp : r.PurgePNRData l1 input.Id
        = (((NewRMTUsecase piuId (privateData r)).ConfirmPNR l input).1, none) := hfin
    have f := PurgePNRData_frame r l1 input.Id
    rw [hp] at f
    exact ⟨(f.2 _ _ (metaKey_ne_dataKey input.Id)).trans hboth.1,
      (f.2 _ _ (metaKey_ne_dataKey input.Id)).trans hboth.2⟩

/-- The steps of a successful response submission over any repository: the PNR
that was read is `PendingConfirmed`, the row with the response is written by
`UpdatePNR`, and `UpdateGCMetadata` gives the final state. -/
theorem submitPNRResponse_ok_steps {σ : Type} (lib : Libs) (u : RMTUsecase σ)
    (response : RequestState) (s : σ) (input : SubmitPNRResponseInput)
    (hok : (u.submitPNRResponse lib response s input).2 = .ok {}) :
    ∃ (pnr : PNR) (gc : GCMetadata) (hashes : List String) (ts : Time) (s1 : σ),
      u.rep.GetPNR s input.Id = .ok pnr ∧
      pnr.State = RequestStatePendingConfirmed ∧
      u.rep.UpdatePNR s input.Id
        { pnr with
          ResponseTimestamp := input.ResponseTimestamp
          State := response
          ResponseData := OptionalMessage input.ResponseData
          PNRHashes := hashes } = (s1, none) ∧
      u.rep.UpdateGCMetadata s1
        { pnr with
          ResponseTimestamp := input.ResponseTimestamp
          State := response
          ResponseData := OptionalMessage input.ResponseData
          PNRHashes := hashes } { gc with CreationTimestamp := ts }
        = ((u.submitPNRResponse lib response s input).1, none) := by
  revert hok
  unfold RMTUsecase.submitPNRResponse
  cases hget : u.rep.GetPNR s input.Id with
  | error err =>
    intro h
    cases h
  | ok pnr =>
    simp only
    by_cases hresp : (!u.isThisPIU pnr.RespondingPIU) = true
    · rw [if_pos hresp]
      intro h
      cases h
    rw [if_neg hresp]
    by_cases hstate : pnr.State ≠ RequestStatePendingConfirmed
    · rw [if_pos hstate]
      intro h
      cases h
    rw [if_neg hstate]
    cases hgc : u.rep.GetGCMetadata s input.Id with
    | error err =>
      simp only
      intro h
      cases h
    | ok gc =>
      simp only
      cases hloop : submitPNRResponseLoop lib
          (lib.gjson_Array (lib.gjson_Get (OptionalMessage input.ResponseData) pnrJSONKey)) []
          gc.CreationTimestamp with
      | error err =>
        simp only
        intro h
        cases h
      | ok res =>
        obtain ⟨hashes, ts⟩ := res
        simp only
        cases hupd : u.rep.UpdatePNR s input.Id
            { pnr with
              ResponseTimestamp := input.ResponseTimestamp
              State := response
              ResponseData := OptionalMessage input.ResponseData
              PNRHashes := hashes } with
        | mk s1 e1 =>
        cases e1 with
        | some err =>
          simp only
          intro h
          cases h
        | none =>
          simp only
          cases hg2 : u.rep.UpdateGCMetadata s1
              { pnr with
                ResponseTimestamp := input.ResponseTimestamp
                State := response
                ResponseData := OptionalMessage input.ResponseData
                PNRHashes := hashes } { gc with CreationTimestamp := ts } with
          | mk s2 e2 =>
          cases e2 with
          | some err =>
            simp only
            intro h
            cases h
          | none =>
            simp only
            intro _
            exact ⟨pnr, gc, hashes, ts, s1, rfl, not_not.mp hstate, hupd, hg2⟩

theorem metaKey_ne_gcKey (id id' : String) :
    (⟨pnrMetaObjectType, id⟩ : CompositeKey) ≠ ⟨gcMetadataObjectType, id'⟩ := by
  intro e
  have h : pnrMetaObjectType = gcMetadataObjectType := congrArg CompositeKey.objectType e
  exact absurd h (by decide)

/-- A successful response submission over the adapter: the caller's stored PNR
was `PendingConfirmed`, and the encoding of its metadata with the response
state is what the `pnrMeta` key holds afterwards in the remote and in the
local collection. -/
theorem submitPNRResponse_adapter_ok (lib : Libs) (r : PrivateDataRepository)
    (piuId : String) (response : RequestState) (l : Ledger) (input : SubmitPNRResponseInput)
    (hok : ((NewRMTUsecase piuId (privateData r)).submitPNRResponse lib response l input).2
      = .ok {}) :
    ∃ (pnr : PNR) (hashes : List String) (metaModel : Bytes),
      r.GetPNR l input.Id = .ok pnr ∧
      pnr.State = RequestStatePendingConfirmed ∧
      pnrEntityToMetaModel r.env
        { pnr with
          ResponseTimestamp := input.ResponseTimestamp
          State := response
          ResponseData := OptionalMessage input.ResponseData
          PNRHashes := hashes } = .ok metaModel ∧
      HoldsInBoth ((NewRMTUsecase piuId (privateData r)).submitPNRResponse lib response l
          input).1 r.localData
        (getCollectionName (getRemotePIU pnr r.piuId)) ⟨pnrMetaObjectType, input.Id⟩
        metaModel := by
  obtain ⟨pnr, gc, hashes, ts, l1, hget, hstate, hupd, hgc⟩ :=
    submitPNRResponse_ok_steps lib _ response l input hok
  have hupd' : r.UpdatePNR l input.Id
      { pnr with
        ResponseTimestamp := input.ResponseTimestamp
        State := response
        ResponseData := OptionalMessage input.ResponseData
        PNRHashes := hashes } = (l1, none) := hupd
  have hnone : (r.UpdatePNR l input.Id
      { pnr with
        ResponseTimestamp := input.ResponseTimestamp
        State := response
        ResponseData := OptionalMessage input.ResponseData
        PNRHashes := hashes }).2 = none := by rw [hupd']
  obtain ⟨old, metaModel, -, hmm, hcase⟩ := UpdatePNR_ok hnone
  rw [hupd'] at hcase
  have hboth : HoldsInBoth l1 r.localData
      (getCollectionName (getRemotePIU pnr r.piuId)) ⟨pnrMetaObjectType, input.Id⟩
      metaModel := by
    rcases hcase with ⟨-, hl⟩ | ⟨-, dataModel, -, hl⟩
    · have hl' : l1 = _ := hl
      rw [hl']
      exact (writtenToBoth_one l _ _ _ _).1 _ (List.mem_singleton.mpr rfl)
    · have hl' : l1 = _ := hl
      rw [hl']
      exact (writtenToBoth_two l r.localData _ ⟨pnrMetaObjectType, input.Id⟩
        ⟨pnrDataObjectType, input.Id⟩ metaModel dataModel
        (metaKey_ne_dataKey input.Id)).1 (⟨pnrMetaObjectType, input.Id⟩, metaModel)
        (by simp)
  refine ⟨pnr, hashes, metaModel, hget, hstate, hmm, ?_⟩
  have hg : r.UpdateGCMetadata l1
      { pnr with
        ResponseTimestamp := input.ResponseTimestamp
        State := response
        ResponseData := OptionalMessage input.ResponseData
        PNRHashes := hashes } { gc with CreationTimestamp := ts }
      = (((NewRMTUsecase piuId (privateData r)).submitPNRResponse lib response l input).1,
          none) := hgc
  have f := UpdateGCMetadata_frame r l1
    { pnr with
      ResponseTimestamp := input.ResponseTimestamp
      State := response
      ResponseData := OptionalMessage input.ResponseData
      PNRHashes := hashes } { gc with CreationTimestamp := ts }
  rw [hg] at f
  exact ⟨(f.2 _ _ (metaKey_ne_gcKey _ _)).trans hboth.1,
    (f.2 _ _ (metaKey_ne_gcKey _ _)).trans hboth.2⟩

/-- C40 (amended): over the private-collection adapter, for two different
parties `P` and `Q` and any ledger (in particular one on which `P` has
terminated the PNR): a `TerminatePNRRequest` by the peer `Q` leaves every key
of the collection of `P` as it was, so the PNR stays `Terminated` and without
payload entry there. But a `ConfirmPNR` by `Q` that succeeds on a PNR of the
two parties overwrites the `pnrMeta` key in the collection of `P` with the
encoding of the metadata `Q` holds, in the confirmed state, which is never
`Terminated`; and a `SubmitPNRResponseAck` or `SubmitPNRResponseNack` by `Q`
that succeeds overwrites it with the metadata in state `Ack` or `Nack`. The
termination by `P` is not preserved by a successful shared write of the peer. -/
theorem peer_writes_after_termination (env : Env) (lib : Libs) (P Q : String) (l : Ledger)
    (hPQ : P ≠ Q) :
    (∀ input k,
        ((LedgerUsecaseFactory.New env Q).TerminatePNRRequest l input).1.privateData.lookup
            (getCollectionName P, k)
          = l.privateData.lookup (getCollectionName P, k))
      ∧ (∀ input, ((LedgerUsecaseFactory.New env Q).ConfirmPNR l input).2 = .ok {} →
          ∃ pnr metaModel,
            (NewPrivateDataRepository env Q).GetPNR l input.Id = .ok pnr ∧
            GetConfirmedState pnr.State ≠ RequestStateTerminated ∧
            pnrEntityToMetaModel env { pnr with State := GetConfirmedState pnr.State }
              = .ok metaModel ∧
            (((pnr.RequestingPIU = P ∧ pnr.RespondingPIU = Q)
                ∨ (pnr.RequestingPIU = Q ∧ pnr.RespondingPIU = P)) →
              ((LedgerUsecaseFactory.New env Q).ConfirmPNR l input).1.privateData.lookup
                  (getCollectionName P, ⟨pnrMetaObjectType, input.Id⟩)
                = some metaModel))
      ∧ (∀ (input : SubmitPNRResponseInput),
          ((LedgerUsecaseFactory.New env Q).SubmitPNRResponseAck lib l input).2 = .ok {} →
          ∃ (pnr : PNR) (hashes : List String) (metaModel : Bytes),
            (NewPrivateDataRepository env Q).GetPNR l input.Id = .ok pnr ∧
            pnrEntityToMetaModel env
              { pnr with
                ResponseTimestamp := input.ResponseTimestamp
                State := RequestStateAck
                ResponseData := OptionalMessage input.ResponseData
                PNRHashes := hashes } = .ok metaModel ∧
            (((pnr.RequestingPIU = P ∧ pnr.RespondingPIU = Q)
                ∨ (pnr.RequestingPIU = Q ∧ pnr.RespondingPIU = P)) →
              ((LedgerUsecaseFactory.New env Q).SubmitPNRResponseAck lib l
                  input).1.privateData.lookup
                  (getCollectionName P, ⟨pnrMetaObjectType, input.Id⟩)
                = some metaModel))
      ∧ (∀ (input : SubmitPNRResponseInput),
          ((LedgerUsecaseFactory.New env Q).SubmitPNRResponseNack lib l input).2 = .ok {} →
          ∃ (pnr : PNR) (hashes : List String) (metaModel : Bytes),
            (NewPrivateDataRepository env Q).GetPNR l input.Id = .ok pnr ∧
            pnrEntityToMetaModel env
              { pnr with
                ResponseTimestamp := input.ResponseTimestamp
                State := RequestStateNack
                ResponseData := OptionalMessage input.ResponseData
                PNRHashes := hashes } = .ok metaModel ∧
            (((pnr.RequestingPIU = P ∧ pnr.RespondingPIU = Q)
                ∨ (pnr.RequestingPIU = Q ∧ pnr.RespondingPIU = P)) →
              ((LedgerUsecaseFactory.New env Q).SubmitPNRResponseNack lib l
                  input).1.privateData.lookup
                  (getCollectionName P, ⟨pnrMetaObjectType, input.Id⟩)
                = some metaModel)) := by
  have hne : getCollectionName P ≠ getCollectionName Q :=
    fun e => hPQ (getCollectionName_injective P Q e)
  refine ⟨?_, ?_, ?_, ?_⟩
  · intro input k
    exact (TerminatePNRRequest_local (NewPrivateDataRepository env Q) Q l input).2
      (getCollectionName P) k hne
  · intro input hok
    obtain ⟨pnr, metaModel, hget, hsw, hmm, hboth⟩ :=
      ConfirmPNR_adapter_ok (NewPrivateDataRepository env Q) Q l input hok
    refine ⟨pnr, metaModel, hget, ?_, hmm, ?_⟩
    · apply GetConfirmedState_ne_terminated
      intro ht
      exact confirmPNRSwitch_terminated _ pnr ht hsw
    · intro hparty
      have hr := getRemotePIU_other pnr P Q hPQ hparty
      have h2 := hboth.2
      rw [show (NewPrivateDataRepository env Q).piuId = Q from rfl, hr] at h2
      exact h2
  · intro input hok
    obtain ⟨pnr, hashes, metaModel, hget, -, hmm, hboth⟩ :=
      submitPNRResponse_adapter_ok lib (NewPrivateDataRepository env Q) Q RequestStateAck l
        input hok
    refine ⟨pnr, hashes, metaModel, hget, hmm, ?_⟩
    intro hparty
    have hr := getRemotePIU_other pnr P Q hPQ hparty
    have h2 := hboth.2
    rw [show (NewPrivateDataRepository env Q).piuId = Q from rfl, hr] at h2
    exact h2
  · intro input hok
    obtain ⟨pnr, hashes, metaModel, hget, -, hmm, hboth⟩ :=
      submitPNRResponse_adapter_ok lib (NewPrivateDataRepository env Q) Q RequestStateNack l
        input hok
    refine ⟨pnr, hashes, metaModel, hget, hmm, ?_⟩
    intro hparty
    have hr := getRemotePIU_other pnr P Q hPQ hparty
    have h2 := hboth.2
    rw [show (NewPrivateDataRepository env Q).piuId = Q from rfl, hr] at h2
    exact h2

theorem peer_writes_after_termination_witness :
    "piu1" ≠ "piu2"
      ∧ ((LedgerUsecaseFactory.New peerEnv "piu2").ConfirmPNR ledgerTerminatedByPiu1
          ⟨"pnr1"⟩).2 = .ok {}
      ∧ ((pendingPNR.RequestingPIU = "piu1" ∧ pendingPNR.RespondingPIU = "piu2")
          ∨ (pendingPNR.RequestingPIU = "piu2" ∧ pendingPNR.RespondingPIU = "piu1"))
      ∧ ((LedgerUsecaseFactory.New peerEnv "piu2").TerminatePNRRequest ledgerTerminatedByPiu1
            ⟨"pnr1"⟩).1.privateData.lookup (getCollectionName "piu1", ⟨"pnrMeta", "pnr1"⟩)
          = ledgerTerminatedByPiu1.privateData.lookup
              (getCollectionName "piu1", ⟨"pnrMeta", "pnr1"⟩)
      ∧ ∃ metaModel,
          pnrEntityToMetaModel peerEnv
            { pendingPNR with State := GetConfirmedState pendingPNR.State } = .ok metaModel ∧
          ((LedgerUsecaseFactory.New peerEnv "piu2").ConfirmPNR ledgerTerminatedByPiu1
              ⟨"pnr1"⟩).1.privateData.lookup
              (getCollectionName "piu1", ⟨pnrMetaObjectType, "pnr1"⟩)
            = some metaModel := by
  have hthm := peer_writes_after_termination peerEnv noRecordLibs "piu1" "piu2"
    ledgerTerminatedByPiu1 (by decide)
  refine ⟨by decide, by decide, by decide, hthm.1 ⟨"pnr1"⟩ ⟨"pnrMeta", "pnr1"⟩, ?_⟩
  obtain ⟨pnr, metaModel, hget, -, hmm, hlook⟩ := hthm.2.1 ⟨"pnr1"⟩ (by decide)
  have hget' : (NewPrivateDataRepository peerEnv "piu2").GetPNR ledgerTerminatedByPiu1 "pnr1"
      = .ok pendingPNR := by decide
  have e : pnr = pendingPNR := by
    have h2 := hget.symm.trans hget'
    injection h2
  subst e
  exact ⟨metaModel, hmm, hlook (by decide)⟩

end PeerWrites

/-! ### An invalid sub-record in a response -/

section InvalidRecord

open RMTUsecase

/-- When the GC row of a `PendingConfirmed` PNR under `input.Id` is stored, an
invalid sub-record makes the submission fail with `InvalidArgument` and the
repository is returned as it was. -/
theorem submitPNRResponse_invalid_record_code (lib : Libs) (caller : String)
    (response : RequestState) (r : InMemoryRepository) (input : SubmitPNRResponseInput)
    (hgc : ∀ p, r.pnrs.lookup input.Id = some p → p.State = RequestStatePendingConfirmed →
      (r.gcMetadatas.lookup input.Id).isSome = true)
    (hbad : ∃ e ∈ extractedRecords lib (OptionalMessage input.ResponseData),
      jcsFails lib e ∨ createdOnUnparsable lib e) :
    ∃ err, (NewRMTUsecase caller inMemory).submitPNRResponse lib response r input
        = (r, .error err) ∧ err.hasCode Status.InvalidArgument := by
  cases hl : r.pnrs.lookup input.Id with
  | none =>
    simp [submitPNRResponse, NewRMTUsecase, inMemory_GetPNR_eq, hl, Error.hasCode]
  | some p =>
    by_cases h1 : caller = p.RespondingPIU
    swap
    · simp [submitPNRResponse, NewRMTUsecase, inMemory_GetPNR_eq, hl, isThisPIU, h1,
        Error.hasCode]
    by_cases h2 : p.State = RequestStatePendingConfirmed
    swap
    · simp [submitPNRResponse, NewRMTUsecase, inMemory_GetPNR_eq, hl, isThisPIU, h1, h2,
        Error.hasCode]
    cases hg : r.gcMetadatas.lookup input.Id with
    | none =>
      have := hgc p hl h2
      rw [hg] at this
      cases this
    | some gc =>
      obtain ⟨err, herr⟩ := submitPNRResponseLoop_fails lib _ [] gc.CreationTimestamp hbad
      have hcode := submitPNRResponseLoop_error_code lib _ _ _ _ herr
      simp only [extractedRecords] at herr
      refine ⟨err, ?_, hcode⟩
      simp [submitPNRResponse, NewRMTUsecase, inMemory_GetPNR_eq, hl, isThisPIU, h1, h2,
        inMemory_GetGCMetadata_eq, hg, herr]

/-- C7: in every repository state reachable from the empty repository by
usecase operations, and in every state in which a GC row is stored under
`input.Id`: if, for some extracted sub-record of the response payload, JCS
canonicalization fails or a `created_on` value is present but does not parse
as RFC-3339, then `SubmitPNRResponseAck` and `SubmitPNRResponseNack` return an
error of kind `InvalidArgument` and the repository after the call is the
repository before it (neither the stored PNR nor the stored GC row is
modified, no hash and no lowered timestamp is persisted), also when earlier
sub-records were valid. -/
theorem invalid_record_rejected (lib : Libs) (caller : String) (r : InMemoryRepository)
    (input : SubmitPNRResponseInput)
    (hstate : Reachable lib r ∨ (r.gcMetadatas.lookup input.Id).isSome = true)
    (hbad : ∃ e ∈ extractedRecords lib (input.ResponseData.getD ""),
      jcsFails lib e ∨ createdOnUnparsable lib e) :
    (∃ err, (NewRMTUsecase caller inMemory).SubmitPNRResponseAck lib r input = (r, .error err)
        ∧ err.hasCode Status.InvalidArgument)
      ∧ (∃ err, (NewRMTUsecase caller inMemory).SubmitPNRResponseNack lib r input
          = (r, .error err) ∧ err.hasCode Status.InvalidArgument) := by
  have hgc : ∀ p, r.pnrs.lookup input.Id = some p → p.State = RequestStatePendingConfirmed →
      (r.gcMetadatas.lookup input.Id).isSome = true := by
    intro p hl hs
    rcases hstate with hr | hg
    · have hrow := (Reachable_Inv lib r hr).1 input.Id p hl
      apply hrow.2.2.1.mpr
      rw [hs]
      decide
    · exact hg
  have hbad' : ∃ e ∈ extractedRecords lib (OptionalMessage input.ResponseData),
      jcsFails lib e ∨ createdOnUnparsable lib e := by
    have hmsg : OptionalMessage input.ResponseData = input.ResponseData.getD "" := by
      cases input.ResponseData <;> rfl
    rw [hmsg]
    exact hbad
  exact ⟨submitPNRResponse_invalid_record_code lib caller RequestStateAck r input hgc hbad',
    submitPNRResponse_invalid_record_code lib caller RequestStateNack r input hgc hbad'⟩

theorem invalid_record_rejected_witness :
    Reachable badRecordLibs (runCalls badRecordLibs confirmedCalls NewInMemoryRepository)
      ∧ (runCalls badRecordLibs confirmedCalls NewInMemoryRepository).pnrs.lookup "pnr1"
          = some pendingConfirmedPNR
      ∧ pendingConfirmedPNR.RespondingPIU = "piu2"
      ∧ extractedRecords badRecordLibs "doc" = [⟨"r1", ""⟩, ⟨"bad", ""⟩]
      ∧ ¬ jcsFails badRecordLibs ⟨"r1", ""⟩
      ∧ jcsFails badRecordLibs ⟨"bad", ""⟩
      ∧ ∃ err, (NewRMTUsecase "piu2" inMemory).SubmitPNRResponseAck badRecordLibs
            (runCalls badRecordLibs confirmedCalls NewInMemoryRepository)
            ⟨"pnr1", LatestTimestamp, some "doc"⟩
          = (runCalls badRecordLibs confirmedCalls NewInMemoryRepository, .error err)
          ∧ err.hasCode Status.InvalidArgument :=
  have hr : Reachable badRecordLibs (runCalls badRecordLibs confirmedCalls NewInMemoryRepository) :=
    Reachable_runCalls badRecordLibs _ _ Reachable.init
  have hbad : jcsFails badRecordLibs ⟨"bad", ""⟩ := ⟨Error.new "jcs: invalid JSON", by decide⟩
  have hgood : ¬ jcsFails badRecordLibs ⟨"r1", ""⟩ := by
    rintro ⟨err, h⟩
    have h1 : badRecordLibs.jcs_Transform (GjsonResult.mk "r1" "").Raw = .ok [1] := by decide
    have h2 := h1.symm.trans h
    cases h2
  ⟨hr, by decide, rfl, by decide, hgood, hbad,
   (invalid_record_rejected badRecordLibs "piu2" _ ⟨"pnr1", LatestTimestamp, some "doc"⟩
      (Or.inl hr) ⟨⟨"bad", ""⟩, by decide, Or.inl hbad⟩).1⟩

end InvalidRecord

/-! ### Purged payload over the private collections -/

section PurgedPayload

open RMTUsecase

/-- C16, counterexample: over the private-collection adapter, `piu1` and `piu2`
run the happy path up to `AckConfirmed` without an error, and `GetPNRs` of
`piu1` shows `pnr1` in state `AckConfirmed` with empty `requestData` and
`responseData`. A third PIU, `piu3`, then calls `NewPNRRequest` with the id
`pnr1` and the responder `piu1`; the call succeeds, because `InsertPNR` looks
for the id in the collection of `piu3` only, and writes the new metadata and
payload to the collection of `piu1`. Afterwards `GetPNRs` of `piu1` shows
`pnr1` with a non-empty `requestData`. -/
theorem purged_payload_reappears_counterexample :
    (runLedgerCalls threePartyEnv noRecordLibs ackConfirmedCalls (emptyLedger, [])).2
        = [none, none, none, none, none, none]
      ∧ ((LedgerUsecaseFactory.New threePartyEnv "piu1").GetPNRs ledgerAfterAckConfirmed
          emptyFilter).2 = .ok [ackConfirmedPNR]
      ∧ ackConfirmedPNR.Id = "pnr1"
      ∧ ackConfirmedPNR.State = RequestStateAckConfirmed
      ∧ ackConfirmedPNR.RequestData = "" ∧ ackConfirmedPNR.ResponseData = ""
      ∧ (invokeLedger threePartyEnv noRecordLibs "piu3" ledgerAfterAckConfirmed
          (.NewPNRRequest thirdPartyRequest)).2 = none
      ∧ ((LedgerUsecaseFactory.New threePartyEnv "piu1").GetPNRs ledgerAfterThirdParty
          emptyFilter).2 = .ok [thirdPartyPNR]
      ∧ thirdPartyPNR.Id = "pnr1"
      ∧ thirdPartyPNR.RequestData = "\"secret\"" := by
  decide

end PurgedPayload

end Tenacity
